import Mathlib

/-!
Shallow embedding of the cctl machine-lifecycle commands (`cmd/machine.go`:
machine create, machine delete, recover etcd) and of the ssh-provider
provider-config codec, together with theorems about their behavior.

Remote command execution, file transfer, the object store's update calls and
the machine actuator are external collaborators; they are modelled by an
explicit environment of functions, and every remote call or store mutation
the code performs is recorded in an event trace.
-/

namespace Cctl

/-- Machine roles (`clustercommon.MachineRole`) are string-typed in the
source; the commands validate against `MasterRole` and `NodeRole`. -/
abbrev MachineRole := String

/-- `clustercommon.MasterRole`. -/
def MasterRole : MachineRole := "Master"

/-- `clustercommon.NodeRole`. -/
def NodeRole : MachineRole := "Node"

/-- `spv1.SSHConfig`: how to reach a machine. -/
structure SSHConfig where
  host : String
  port : Nat
  publicKeys : List String
  credentialSecretName : String
deriving DecidableEq

/-- `spv1.EtcdMember`: a consensus-store membership record, identified by its
stable `id`. -/
structure EtcdMember where
  id : Nat
  name : String
  peerURLs : List String
  clientURLs : List String
deriving DecidableEq

/-- `spv1.MachineSpec`: the typed provider spec embedded in a Machine. -/
structure SPMachineSpec where
  provisionedMachineName : String
  roles : List MachineRole
deriving DecidableEq

/-- `spv1.MachineStatus`: the typed provider status embedded in a Machine.
`etcdMember` and `sshConfig` are pointers in the source, hence `Option`. -/
structure SPMachineStatus where
  etcdMember : Option EtcdMember
  sshConfig : Option SSHConfig
deriving DecidableEq

/-- `spv1.ClusterSpec`: the typed provider spec embedded in the Cluster; the
source reads its `EtcdCASecret.Name` field. -/
structure SPClusterSpec where
  etcdCASecretName : String
deriving DecidableEq

/-- `spv1.ClusterStatus`: the typed provider status embedded in the Cluster;
holds the etcd membership set. -/
structure SPClusterStatus where
  etcdMembers : List EtcdMember
deriving DecidableEq

/-- Result of decoding an embedded provider payload: either the decoded value
or a decode failure carrying a message. -/
inductive Payload (α : Type)
  | okp (a : α)
  | bad (msg : String)
deriving DecidableEq

/-- `spv1.ProvisionedMachineSpec`. `boundMachineName` is the cross-reference
field written by the bind (spec §4.3: "machine's name into
provisionedMachine's typed spec (or equivalent cross-reference fields)"). -/
structure SPProvisionedMachineSpec where
  sshConfig : Option SSHConfig
  vipNetworkInterface : String
  boundMachineName : Option String
deriving DecidableEq

/-- `spv1.ProvisionedMachine` (name plus the spec fields used by the code). -/
structure ProvisionedMachine where
  name : String
  spec : SPProvisionedMachineSpec
deriving DecidableEq

/-- `clusterv1.Machine`: name, cluster-level roles, and the two embedded
provider payloads (as their decode results, since the codec round-trips). -/
structure Machine where
  name : String
  roles : List MachineRole
  providerSpec : Payload SPMachineSpec
  providerStatus : Payload SPMachineStatus
deriving DecidableEq

/-- `clusterv1.Cluster` with its embedded provider payloads. -/
structure Cluster where
  name : String
  providerSpec : Payload SPClusterSpec
  providerStatus : Payload SPClusterStatus
deriving DecidableEq

/-- A `corev1.Secret`: its name and its data entries (key, value). -/
structure Secret where
  name : String
  data : List (String × String)
deriving DecidableEq

/-- The object store state visible to the commands. -/
structure Store where
  cluster : Option Cluster
  machines : List Machine
  provisionedMachines : List ProvisionedMachine
  secrets : List Secret
deriving DecidableEq

/-! ## The etcd membership set

Modelled from the spec: the implementation of `setsutil.NewEtcdMemberSet`
(ssh-provider `pkg/util/sets`) is not under `src/`; only its callers
`insertClusterEtcdMember` / `removeClusterEtcdMember` are.  Spec §3/§4.2:
a set-semantics collection of records keyed by `id`; `Insert` of an existing
id replaces the record; `Delete` matches by id only and is a no-op on an
absent id; `List` is deterministic. -/

/-- `EtcdMemberSet.Insert`: replace the record with the same id, or append. -/
def msInsert : List EtcdMember → EtcdMember → List EtcdMember
  | [], r => [r]
  | x :: xs, r => if x.id = r.id then r :: xs else x :: msInsert xs r

/-- `EtcdMemberSet.Delete`: remove every record with the argument's id. -/
def msDelete (s : List EtcdMember) (r : EtcdMember) : List EtcdMember :=
  s.filter (fun x => decide (x.id ≠ r.id))

/-- `NewEtcdMemberSet(records...)`: build a set by inserting in order. -/
def newEtcdMemberSet (l : List EtcdMember) : List EtcdMember :=
  l.foldl msInsert []

/-- An abstract Insert/Delete operation on a membership set. -/
inductive MSOp
  | ins (r : EtcdMember)
  | del (r : EtcdMember)
deriving DecidableEq

/-- Apply one membership-set operation. -/
def applyOp (s : List EtcdMember) : MSOp → List EtcdMember
  | .ins r => msInsert s r
  | .del r => msDelete s r

/-- Apply a sequence of operations to the empty set. -/
def applyOps (ops : List MSOp) : List EtcdMember := ops.foldl applyOp []

/-- The record, if any, with id `i` that is live (inserted and not
subsequently deleted) after one more operation. -/
def stepLive (i : Nat) (a : Option EtcdMember) : MSOp → Option EtcdMember
  | .ins r => if r.id = i then some r else a
  | .del r => if r.id = i then none else a

/-- The record with id `i` that has been inserted and not subsequently
deleted by the operation sequence, if any. -/
def lastLive (ops : List MSOp) (i : Nat) : Option EtcdMember :=
  ops.foldl (stepLive i) none

/-! ## The provider-config codec

Modelled from the spec: `SSHProviderConfigCodec` (src/unnamed/part_000) wires
a serializer obtained from external apimachinery codec factories whose
implementation is not under `src/`.  Spec §4.1: `encode(typedObject) ->
bytePayload`, `decode(bytePayload, outShape) -> typedObject`, total and
lossless for all Spec/Status shapes of Cluster, Machine and
ProvisionedMachine; decoding a payload whose recorded kind does not match the
target shape fails with `SchemaMismatch` rather than silently coercing.
The opaque payload is modelled as a JSON-like value. -/

/-- A JSON-like serialized payload. -/
inductive JVal
  | null
  | str (s : String)
  | num (n : Nat)
  | arr (l : List JVal)
  | obj (fields : List (String × JVal))

/-- Serialize a list of strings. -/
def encodeStrings (l : List String) : List JVal := l.map .str

/-- Deserialize a list of strings; fails on any non-string element. -/
def decodeStrings : List JVal → Option (List String)
  | [] => some []
  | .str s :: rest => (decodeStrings rest).map (fun l => s :: l)
  | _ => none

/-- The API group/version recorded in every payload (`TypeMeta.APIVersion`
in the source). -/
def sshProviderAPIVersion : String := "sshprovider.platform9.com/v1alpha1"

/-- Serialize an `EtcdMember`. -/
def encodeEtcdMember (m : EtcdMember) : JVal :=
  .obj [("id", .num m.id), ("name", .str m.name),
        ("peerURLs", .arr (encodeStrings m.peerURLs)),
        ("clientURLs", .arr (encodeStrings m.clientURLs))]

/-- Deserialize an `EtcdMember`. -/
def decodeEtcdMember : JVal → Option EtcdMember
  | .obj [("id", .num i), ("name", .str n),
          ("peerURLs", .arr p), ("clientURLs", .arr c)] =>
    match decodeStrings p, decodeStrings c with
    | some pl, some cl => some ⟨i, n, pl, cl⟩
    | _, _ => none
  | _ => none

/-- Serialize a list of `EtcdMember`s. -/
def encodeEtcdMembers (l : List EtcdMember) : List JVal := l.map encodeEtcdMember

/-- Deserialize a list of `EtcdMember`s. -/
def decodeEtcdMembers : List JVal → Option (List EtcdMember)
  | [] => some []
  | v :: rest =>
    match decodeEtcdMember v with
    | some m => (decodeEtcdMembers rest).map (fun l => m :: l)
    | none => none

/-- Serialize an `SSHConfig`. -/
def encodeSSHConfig (c : SSHConfig) : JVal :=
  .obj [("host", .str c.host), ("port", .num c.port),
        ("publicKeys", .arr (encodeStrings c.publicKeys)),
        ("credentialSecret", .str c.credentialSecretName)]

/-- Deserialize an `SSHConfig`. -/
def decodeSSHConfig : JVal → Option SSHConfig
  | .obj [("host", .str h), ("port", .num p),
          ("publicKeys", .arr ks), ("credentialSecret", .str cs)] =>
    match decodeStrings ks with
    | some kl => some ⟨h, p, kl, cs⟩
    | none => none
  | _ => none

/-- Serialize an optional (pointer-valued) `SSHConfig`. -/
def encodeOptSSHConfig : Option SSHConfig → JVal
  | none => .null
  | some c => encodeSSHConfig c

/-- Deserialize an optional (pointer-valued) `SSHConfig`. -/
def decodeOptSSHConfig : JVal → Option (Option SSHConfig)
  | .null => some none
  | v => (decodeSSHConfig v).map some

/-- Serialize an optional (pointer-valued) `EtcdMember`. -/
def encodeOptEtcdMember : Option EtcdMember → JVal
  | none => .null
  | some m => encodeEtcdMember m

/-- Deserialize an optional (pointer-valued) `EtcdMember`. -/
def decodeOptEtcdMember : JVal → Option (Option EtcdMember)
  | .null => some none
  | v => (decodeEtcdMember v).map some

/-- Encode a Machine provider spec (TypeMeta kind `MachineSpec`, as in
`newProvisionedMachineAndMachine`). -/
def encodeMachineSpec (s : SPMachineSpec) : JVal :=
  .obj [("apiVersion", .str sshProviderAPIVersion), ("kind", .str "MachineSpec"),
        ("provisionedMachineName", .str s.provisionedMachineName),
        ("roles", .arr (encodeStrings s.roles))]

/-- Decode a Machine provider spec; a payload with a different recorded kind
is a schema mismatch. -/
def decodeMachineSpec : JVal → Option SPMachineSpec
  | .obj [("apiVersion", .str av), ("kind", .str k),
          ("provisionedMachineName", .str n), ("roles", .arr rs)] =>
    if av = sshProviderAPIVersion ∧ k = "MachineSpec" then
      match decodeStrings rs with
      | some rl => some ⟨n, rl⟩
      | none => none
    else none
  | _ => none

/-- Encode a Machine provider status (TypeMeta kind `MachineStatus`). -/
def encodeMachineStatus (s : SPMachineStatus) : JVal :=
  .obj [("apiVersion", .str sshProviderAPIVersion), ("kind", .str "MachineStatus"),
        ("etcdMember", encodeOptEtcdMember s.etcdMember),
        ("sshConfig", encodeOptSSHConfig s.sshConfig)]

/-- Decode a Machine provider status. -/
def decodeMachineStatus : JVal → Option SPMachineStatus
  | .obj [("apiVersion", .str av), ("kind", .str k),
          ("etcdMember", em), ("sshConfig", sc)] =>
    if av = sshProviderAPIVersion ∧ k = "MachineStatus" then
      match decodeOptEtcdMember em, decodeOptSSHConfig sc with
      | some m, some c => some ⟨m, c⟩
      | _, _ => none
    else none
  | _ => none

/-- Encode a Cluster provider spec (TypeMeta kind `ClusterSpec`). -/
def encodeClusterSpec (s : SPClusterSpec) : JVal :=
  .obj [("apiVersion", .str sshProviderAPIVersion), ("kind", .str "ClusterSpec"),
        ("etcdCASecret", .str s.etcdCASecretName)]

/-- Decode a Cluster provider spec. -/
def decodeClusterSpec : JVal → Option SPClusterSpec
  | .obj [("apiVersion", .str av), ("kind", .str k), ("etcdCASecret", .str n)] =>
    if av = sshProviderAPIVersion ∧ k = "ClusterSpec" then some ⟨n⟩ else none
  | _ => none

/-- Encode a Cluster provider status (TypeMeta kind `ClusterStatus`). -/
def encodeClusterStatus (s : SPClusterStatus) : JVal :=
  .obj [("apiVersion", .str sshProviderAPIVersion), ("kind", .str "ClusterStatus"),
        ("etcdMembers", .arr (encodeEtcdMembers s.etcdMembers))]

/-- Decode a Cluster provider status. -/
def decodeClusterStatus : JVal → Option SPClusterStatus
  | .obj [("apiVersion", .str av), ("kind", .str k), ("etcdMembers", .arr ms)] =>
    if av = sshProviderAPIVersion ∧ k = "ClusterStatus" then
      match decodeEtcdMembers ms with
      | some ml => some ⟨ml⟩
      | none => none
    else none
  | _ => none

/-- Serialize an optional string (nil pointer or value). -/
def encodeOptString : Option String → JVal
  | none => .null
  | some s => .str s

/-- Deserialize an optional string. -/
def decodeOptString : JVal → Option (Option String)
  | .null => some none
  | .str s => some (some s)
  | _ => none

/-- Encode a ProvisionedMachine spec (TypeMeta kind `ProvisionedMachineSpec`). -/
def encodeProvisionedMachineSpec (s : SPProvisionedMachineSpec) : JVal :=
  .obj [("apiVersion", .str sshProviderAPIVersion),
        ("kind", .str "ProvisionedMachineSpec"),
        ("sshConfig", encodeOptSSHConfig s.sshConfig),
        ("vipNetworkInterface", .str s.vipNetworkInterface),
        ("machineName", encodeOptString s.boundMachineName)]

/-- Decode a ProvisionedMachine spec. -/
def decodeProvisionedMachineSpec : JVal → Option SPProvisionedMachineSpec
  | .obj [("apiVersion", .str av), ("kind", .str k),
          ("sshConfig", sc), ("vipNetworkInterface", .str vip),
          ("machineName", mn)] =>
    if av = sshProviderAPIVersion ∧ k = "ProvisionedMachineSpec" then
      match decodeOptSSHConfig sc, decodeOptString mn with
      | some c, some m => some ⟨c, vip, m⟩
      | _, _ => none
    else none
  | _ => none

/-! ## Errors and the join-token parser -/

/-- Errors surfaced by the commands (each is a `log.Fatalf` or wrapped error
in the source; the spec names them in its §7 taxonomy). -/
inductive CErr
  | notFound (what : String)
  | invalidRole (r : MachineRole)
  | decodeFailed (what msg : String)
  | encodingError (what msg : String)
  | wouldOrphanNodes (nodes : Nat)
  | unparseableOutput (found : Nat)
  | noClientURLs (machine : String)
  | remoteFailed (cmdStr msg : String)
  | clientFailed (host msg : String)
  | storeError (msg : String)
deriving DecidableEq

/-- Go's `unicode.IsSpace` (the separator predicate of `strings.Fields`). -/
def goIsSpace (c : Char) : Bool :=
  (0x9 ≤ c.val && c.val ≤ 0xD) || c.val == 0x20 || c.val == 0x85 ||
    c.val == 0xA0 || c.val == 0x1680 ||
    (0x2000 ≤ c.val && c.val ≤ 0x200A) || c.val == 0x2028 ||
    c.val == 0x2029 || c.val == 0x202F || c.val == 0x205F || c.val == 0x3000

/-- Accumulate the fields of a character list (`acc` holds the current field,
reversed). -/
def fieldsAux : List Char → List Char → List String
  | [], acc => if acc.isEmpty then [] else [String.mk acc.reverse]
  | c :: cs, acc =>
    if goIsSpace c then
      if acc.isEmpty then fieldsAux cs []
      else String.mk acc.reverse :: fieldsAux cs []
    else fieldsAux cs (c :: acc)

/-- Go's `strings.Fields`: split around maximal runs of white space. -/
def goFields (s : String) : List String := fieldsAux s.data []

/-- Go's `strings.TrimSpace`. -/
def goTrimSpace (s : String) : String :=
  String.mk (((s.data.dropWhile goIsSpace).reverse.dropWhile goIsSpace).reverse)

/-- `tokenAndCAHashFromKubeadmJoinCommand` (machine.go:421-431): expect
exactly 7 white-space-separated fields and return fields 4 and 6. -/
def tokenAndCAHashFromKubeadmJoinCommand (cmdStdout : String) :
    Except CErr (String × String) :=
  let fields := goFields cmdStdout
  if fields.length = 7 then
    .ok (fields.getD 4 "", fields.getD 6 "")
  else
    .error (.unparseableOutput fields.length)

/-! ## Effect model

`log.Fatalf` terminates the process: it is modelled as an `err` outcome with
no further effects.  A nil-pointer dereference is modelled as `panicked`.
Every remote call and store mutation is recorded as an `Event`; the trace
lists the effects performed before the outcome was reached. -/

/-- Result of running a command: normal result, fatal error, or panic. -/
inductive Outcome (α : Type)
  | ok (a : α)
  | err (e : CErr)
  | panicked
deriving DecidableEq

/-- Remote calls and store mutations performed by a command. -/
inductive Event
  | cmd (host cmdStr : String)
  | mkClientEv (host : String)
  | readFileEv (host path : String)
  | writeFileEv (host path : String)
  | mkdirEv (host path : String)
  | moveEv (host src dst : String)
  | readLocalFileEv (path : String)
  | createPM (name : String)
  | createMachine (name : String)
  | deleteMachineEv (name : String)
  | deletePMEv (name : String)
  | createSecretEv (name : String)
  | updateSecretEv (name : String)
  | actuatorCreateEv (machine : String)
  | actuatorDeleteEv (machine : String)
  | machineStoreUpdate (name : String)
  | insertMember (em : EtcdMember)
  | removeMember (em : EtcdMember)
  | clusterStoreUpdate (k : Nat)
  | warn (machine : String)
  | syncState
deriving DecidableEq

/-- The external collaborators: the remote command/file transport (keyed by
the target machine's host), the machine actuator, the store's update calls,
and the failure behavior of the external encoding utilities used by
`newProvisionedMachineAndMachine` (`sputil.PutMachineSpec`,
`sputil.PutMachineStatus`, `sputil.BindMachineAndProvisionedMachine`). -/
structure Env where
  runCommand : String → String → Except String String
  readFile : String → String → Except String String
  writeFile : String → String → Except String Unit
  mkdirAll : String → String → Except String Unit
  moveFile : String → String → String → Except String Unit
  readLocalFile : String → Except String String
  parseEtcdMember : String → Except String EtcdMember
  mkClient : String → Except String Unit
  publicKeyFromFile : String → Except String String
  machineUpdateStatus : String → Except String Unit
  clusterUpdateStatus : Nat → Except String Unit
  actuatorCreate : String → Except String SPMachineStatus
  actuatorDelete : String → Except String Unit
  pullFromAPIs : Except String Unit
  machineSpecEncodeErr : Option String
  machineStatusEncodeErr : Option String
  bindErr : Option String

/-- `common.DefaultSSHCredentialSecretName`. -/
def defaultSSHCredentialSecretName : String := "sshCredential"

/-- `common.DefaultBootstrapTokenSecretName`. -/
def defaultBootstrapTokenSecretName : String := "bootstrapToken"

/-- `/opt/bin/etcdadm`, the consensus-store admin binary path. -/
def etcdadmPath : String := "/opt/bin/etcdadm"

/-- `etcdadm reset --skip-remove-member` (machine.go:795). -/
def etcdadmResetCmd : String := etcdadmPath ++ " reset --skip-remove-member"

/-- `etcdadm init --snapshot <path>` (machine.go:812). -/
def etcdadmInitCmd (remotePath : String) : String :=
  etcdadmPath ++ " init --snapshot " ++ remotePath

/-- `etcdadm join <endpoint>` (machine.go:821). -/
def etcdadmJoinCmd (endpoint : String) : String :=
  etcdadmPath ++ " join " ++ endpoint

/-- `etcdadm info` (machine.go:875). -/
def etcdadmInfoCmd : String := etcdadmPath ++ " info"

/-- `systemctl restart kubelet` (machine.go:888). -/
def restartKubeletCmd : String := "systemctl restart kubelet"

/-- `kubeadm token create --print-join-command` (machine.go:367). -/
def kubeadmTokenCmd : String := "/opt/bin/kubeadm token create --print-join-command"

/-- The node lookup command (machine.go:460). -/
def kubectlGetNodeCmd : String :=
  "/opt/bin/kubectl --kubeconfig=/etc/kubernetes/admin.conf get node --selector kubernetes.io/hostname=$(hostname -f) -oname"

/-- The drain command (machine.go:470). -/
def kubectlDrainCmd (timeoutStr graceStr nodeName : String) : String :=
  "/opt/bin/kubectl --kubeconfig=/etc/kubernetes/admin.conf drain --timeout=" ++
    timeoutStr ++ " --grace-period=" ++ graceStr ++ " --ignore-daemonsets " ++ nodeName

/-- The node delete command (machine.go:477). -/
def kubectlDeleteNodeCmd (nodeName : String) : String :=
  "/opt/bin/kubectl --kubeconfig=/etc/kubernetes/admin.conf delete " ++ nodeName

/-- Go's `filepath.Dir`, for the fixed paths used by `writeSecretToMachine`. -/
def goFilepathDir (p : String) : String :=
  let r := (p.data.reverse.dropWhile (fun c => c ≠ '/')).dropWhile (fun c => c = '/')
  match r with
  | [] => if p.data.headD ' ' = '/' then "/" else "."
  | l => String.mk l.reverse

/-- `sshMachineClientFromSSHConfig` (machine.go:486-504): resolve the
credential secret from the store, then build a client for the config's host
(credential parsing and dialing failures are folded into `env.mkClient`).
The source dereferences the `sshConfig` pointer, so a nil config panics. -/
def sshMachineClientFromSSHConfig (env : Env) (store : Store)
    (sshConfig : Option SSHConfig) : Outcome String × List Event :=
  match sshConfig with
  | none => (.panicked, [])
  | some cfg =>
    match store.secrets.find? (fun s => s.name = cfg.credentialSecretName) with
    | none => (.err (.notFound ("SSH credential " ++ cfg.credentialSecretName)), [])
    | some _ =>
      match env.mkClient cfg.host with
      | .error msg => (.err (.clientFailed cfg.host msg), [.mkClientEv cfg.host])
      | .ok _ => (.ok cfg.host, [.mkClientEv cfg.host])

/-- `resetEtcdSkipRemoveMember` (machine.go:794-801). -/
def resetEtcdSkipRemoveMember (env : Env) (host : String) :
    Except CErr Unit × List Event :=
  match env.runCommand host etcdadmResetCmd with
  | .error msg => (.error (.remoteFailed etcdadmResetCmd msg), [.cmd host etcdadmResetCmd])
  | .ok _ => (.ok (), [.cmd host etcdadmResetCmd])

/-- `etcdadmInitFromSnapshot` (machine.go:811-818). -/
def etcdadmInitFromSnapshot (env : Env) (remotePath host : String) :
    Except CErr Unit × List Event :=
  match env.runCommand host (etcdadmInitCmd remotePath) with
  | .error msg =>
    (.error (.remoteFailed (etcdadmInitCmd remotePath) msg), [.cmd host (etcdadmInitCmd remotePath)])
  | .ok _ => (.ok (), [.cmd host (etcdadmInitCmd remotePath)])

/-- `etcdadmJoin` (machine.go:820-827). -/
def etcdadmJoin (env : Env) (endpoint host : String) :
    Except CErr Unit × List Event :=
  match env.runCommand host (etcdadmJoinCmd endpoint) with
  | .error msg =>
    (.error (.remoteFailed (etcdadmJoinCmd endpoint) msg), [.cmd host (etcdadmJoinCmd endpoint)])
  | .ok _ => (.ok (), [.cmd host (etcdadmJoinCmd endpoint)])

/-- `etcdMemberFromMachine` (machine.go:873-885): run `etcdadm info` and
unmarshal the JSON output. -/
def etcdMemberFromMachine (env : Env) (host : String) :
    Except CErr EtcdMember × List Event :=
  match env.runCommand host etcdadmInfoCmd with
  | .error msg => (.error (.remoteFailed etcdadmInfoCmd msg), [.cmd host etcdadmInfoCmd])
  | .ok stdOut =>
    match env.parseEtcdMember stdOut with
    | .error msg => (.error (.decodeFailed "etcdadm info output" msg), [.cmd host etcdadmInfoCmd])
    | .ok em => (.ok em, [.cmd host etcdadmInfoCmd])

/-- `restartKubelet` (machine.go:887-894). -/
def restartKubelet (env : Env) (host : String) : Except CErr Unit × List Event :=
  match env.runCommand host restartKubeletCmd with
  | .error msg => (.error (.remoteFailed restartKubeletCmd msg), [.cmd host restartKubeletCmd])
  | .ok _ => (.ok (), [.cmd host restartKubeletCmd])

/-- `writeEtcdSnapshot` (machine.go:803-809): read the local snapshot and
write it to the machine. -/
def writeEtcdSnapshot (env : Env) (localPath remotePath host : String) :
    Except CErr Unit × List Event :=
  match env.readLocalFile localPath with
  | .error msg => (.error (.remoteFailed ("read " ++ localPath) msg), [.readLocalFileEv localPath])
  | .ok _ =>
    match env.writeFile host remotePath with
    | .error msg =>
      (.error (.remoteFailed ("write " ++ remotePath) msg),
       [.readLocalFileEv localPath, .writeFileEv host remotePath])
    | .ok _ => (.ok (), [.readLocalFileEv localPath, .writeFileEv host remotePath])

/-- `writeSecretToMachine` (machine.go:833-867): check both data keys, create
the target directories, write cert and key to /tmp, move them into place. -/
def writeSecretToMachine (env : Env) (host : String) (secret : Secret)
    (certKey keyKey certPath keyPath : String) : Except CErr Unit × List Event :=
  match secret.data.find? (fun p => p.1 = certKey) with
  | none => (.error (.notFound ("key " ++ certKey ++ " in secret " ++ secret.name)), [])
  | some _ =>
    match secret.data.find? (fun p => p.1 = keyKey) with
    | none => (.error (.notFound ("key " ++ keyKey ++ " in secret " ++ secret.name)), [])
    | some _ =>
      let certDir := goFilepathDir certPath
      let keyDir := goFilepathDir keyPath
      let tmpCertPath := "/tmp/" ++ certKey
      let tmpKeyPath := "/tmp/" ++ keyKey
      match env.mkdirAll host certDir with
      | .error msg => (.error (.remoteFailed ("mkdir " ++ certDir) msg), [.mkdirEv host certDir])
      | .ok _ =>
        match env.mkdirAll host keyDir with
        | .error msg =>
          (.error (.remoteFailed ("mkdir " ++ keyDir) msg),
           [.mkdirEv host certDir, .mkdirEv host keyDir])
        | .ok _ =>
          match env.writeFile host tmpCertPath with
          | .error msg =>
            (.error (.remoteFailed ("write " ++ tmpCertPath) msg),
             [.mkdirEv host certDir, .mkdirEv host keyDir, .writeFileEv host tmpCertPath])
          | .ok _ =>
            match env.writeFile host tmpKeyPath with
            | .error msg =>
              (.error (.remoteFailed ("write " ++ tmpKeyPath) msg),
               [.mkdirEv host certDir, .mkdirEv host keyDir,
                .writeFileEv host tmpCertPath, .writeFileEv host tmpKeyPath])
            | .ok _ =>
              match env.moveFile host tmpCertPath certPath with
              | .error msg =>
                (.error (.remoteFailed ("move " ++ tmpCertPath) msg),
                 [.mkdirEv host certDir, .mkdirEv host keyDir,
                  .writeFileEv host tmpCertPath, .writeFileEv host tmpKeyPath,
                  .moveEv host tmpCertPath certPath])
              | .ok _ =>
                match env.moveFile host tmpKeyPath keyPath with
                | .error msg =>
                  (.error (.remoteFailed ("move " ++ tmpKeyPath) msg),
                   [.mkdirEv host certDir, .mkdirEv host keyDir,
                    .writeFileEv host tmpCertPath, .writeFileEv host tmpKeyPath,
                    .moveEv host tmpCertPath certPath, .moveEv host tmpKeyPath keyPath])
                | .ok _ =>
                  (.ok (),
                   [.mkdirEv host certDir, .mkdirEv host keyDir,
                    .writeFileEv host tmpCertPath, .writeFileEv host tmpKeyPath,
                    .moveEv host tmpCertPath certPath, .moveEv host tmpKeyPath keyPath])

/-- `updateMachineEtcdMember` (machine.go:745-758): set the member in the
machine's provider status and write the status back to the store. -/
def updateMachineEtcdMember (env : Env) (etcdMember : EtcdMember)
    (machine : Machine) : Except CErr Machine × List Event :=
  match machine.providerStatus with
  | .bad msg => (.error (.decodeFailed "machine status" msg), [])
  | .okp st =>
    let machine' : Machine :=
      { machine with providerStatus := .okp { st with etcdMember := some etcdMember } }
    match env.machineUpdateStatus machine.name with
    | .error msg => (.error (.storeError msg), [])
    | .ok _ => (.ok machine', [.machineStoreUpdate machine.name])

/-- `insertClusterEtcdMember` (machine.go:760-775): insert into the
membership set held in cluster status and write the status back.  `k` counts
cluster-status update calls so the store can fail any one of them. -/
def insertClusterEtcdMember (env : Env) (etcdMember : EtcdMember)
    (cluster : Cluster) (k : Nat) : Except CErr (Cluster × Nat) × List Event :=
  match cluster.providerStatus with
  | .bad msg => (.error (.decodeFailed "cluster status" msg), [])
  | .okp cst =>
    let etcdMemberSet := newEtcdMemberSet cst.etcdMembers
    let cluster' : Cluster :=
      { cluster with providerStatus := .okp { etcdMembers := msInsert etcdMemberSet etcdMember } }
    match env.clusterUpdateStatus k with
    | .error msg => (.error (.storeError msg), [.insertMember etcdMember])
    | .ok _ => (.ok (cluster', k + 1), [.insertMember etcdMember, .clusterStoreUpdate k])

/-- `removeClusterEtcdMember` (machine.go:777-792). -/
def removeClusterEtcdMember (env : Env) (etcdMember : EtcdMember)
    (cluster : Cluster) (k : Nat) : Except CErr (Cluster × Nat) × List Event :=
  match cluster.providerStatus with
  | .bad msg => (.error (.decodeFailed "cluster status" msg), [])
  | .okp cst =>
    let etcdMemberSet := newEtcdMemberSet cst.etcdMembers
    let cluster' : Cluster :=
      { cluster with providerStatus := .okp { etcdMembers := msDelete etcdMemberSet etcdMember } }
    match env.clusterUpdateStatus k with
    | .error msg => (.error (.storeError msg), [.removeMember etcdMember])
    | .ok _ => (.ok (cluster', k + 1), [.removeMember etcdMember, .clusterStoreUpdate k])

/-! ## recoverEtcd -/

/-- One entry of the `mastersWithClient` slice (machine.go:650-665). -/
structure MWC where
  machine : Machine
  host : String
deriving DecidableEq

/-- Build the `mastersWithClient` slice (machine.go:654-665): decode each
master's status and create its client; abort on the first failure. -/
def buildMastersWithClient (env : Env) (store : Store) :
    List Machine → Outcome (List MWC) × List Event
  | [] => (.ok [], [])
  | m :: rest =>
    match m.providerStatus with
    | .bad msg => (.err (.decodeFailed ("machine " ++ m.name ++ " status") msg), [])
    | .okp st =>
      match sshMachineClientFromSSHConfig env store st.sshConfig with
      | (.panicked, evs) => (.panicked, evs)
      | (.err e, evs) => (.err e, evs)
      | (.ok host, evs) =>
        match buildMastersWithClient env store rest with
        | (.ok mwcs, evs2) => (.ok (⟨m, host⟩ :: mwcs), evs ++ evs2)
        | (.err e, evs2) => (.err e, evs ++ evs2)
        | (.panicked, evs2) => (.panicked, evs ++ evs2)

/-- The reset loop (machine.go:667-681): for every master, reset etcd with
peer removal skipped, then remove its membership record from the cluster
status.  `machineStatus.EtcdMember` is dereferenced without a nil check
(machine.go:678), hence `panicked` when it is absent. -/
def resetPhase (env : Env) : List MWC → Cluster → Nat →
    Outcome (Cluster × Nat) × List Event
  | [], cl, k => (.ok (cl, k), [])
  | mwc :: rest, cl, k =>
    match resetEtcdSkipRemoveMember env mwc.host with
    | (.error e, evs) => (.err e, evs)
    | (.ok _, evs0) =>
      match mwc.machine.providerStatus with
      | .bad msg => (.err (.decodeFailed "machine status" msg), evs0)
      | .okp st =>
        match st.etcdMember with
        | none => (.panicked, evs0)
        | some em =>
          match removeClusterEtcdMember env em cl k with
          | (.error e, evs) => (.err e, evs0 ++ evs)
          | (.ok (cl', k'), evs1) =>
            match resetPhase env rest cl' k' with
            | (o, evs2) => (o, evs0 ++ evs1 ++ evs2)

/-- The CA distribution loop (machine.go:683-689). -/
def writeCAPhase (env : Env) (etcdCASecret : Secret) :
    List MWC → Except CErr Unit × List Event
  | [] => (.ok (), [])
  | mwc :: rest =>
    match writeSecretToMachine env mwc.host etcdCASecret "tls.crt" "tls.key"
        "/etc/etcd/pki/ca.crt" "/etc/etcd/pki/ca.key" with
    | (.error e, evs) => (.error e, evs)
    | (.ok _, evs) =>
      match writeCAPhase env etcdCASecret rest with
      | (o, evs2) => (o, evs ++ evs2)

/-- The join loop (machine.go:718-733): join each remaining master to the
seed's endpoint, read back its member record, update machine and cluster
status. -/
def joinPhase (env : Env) (endpoint : String) : List MWC → Cluster → Nat →
    Except CErr (Cluster × Nat) × List Event
  | [], cl, k => (.ok (cl, k), [])
  | mwc :: rest, cl, k =>
    match etcdadmJoin env endpoint mwc.host with
    | (.error e, evs) => (.error e, evs)
    | (.ok _, evs0) =>
      match etcdMemberFromMachine env mwc.host with
      | (.error e, evs) => (.error e, evs0 ++ evs)
      | (.ok etcdMember, evs1) =>
        match updateMachineEtcdMember env etcdMember mwc.machine with
        | (.error e, evs) => (.error e, evs0 ++ evs1 ++ evs)
        | (.ok _, evs2) =>
          match insertClusterEtcdMember env etcdMember cl k with
          | (.error e, evs) => (.error e, evs0 ++ evs1 ++ evs2 ++ evs)
          | (.ok (cl', k'), evs3) =>
            match joinPhase env endpoint rest cl' k' with
            | (o, evs4) => (o, evs0 ++ evs1 ++ evs2 ++ evs3 ++ evs4)

/-- The kubelet restart loop (machine.go:735-740): best effort, failures are
logged as warnings and never abort. -/
def restartKubeletPhase (env : Env) : List MWC → List Event
  | [] => []
  | mwc :: rest =>
    match restartKubelet env mwc.host with
    | (.error _, evs) => evs ++ .warn mwc.machine.name :: restartKubeletPhase env rest
    | (.ok _, evs) => evs ++ restartKubeletPhase env rest

/-- Lines 691-742 of `recoverEtcd`: transfer the snapshot to the first
master, initialize the new cluster from it, record the seed's member, join
the remaining masters against the seed's first client URL (failing before
any join when it has none), and finally best-effort restart kubelet on every
master. -/
def recoverEtcdSeedAndJoin (env : Env) (localPath remotePath : String)
    (firstMWC : MWC) (otherMWCs : List MWC) (cluster1 : Cluster) (k1 : Nat) :
    Outcome Cluster × List Event :=
  match writeEtcdSnapshot env localPath remotePath firstMWC.host with
  | (.error e, evs4) => (.err e, evs4)
  | (.ok _, evs4) =>
    match etcdadmInitFromSnapshot env remotePath firstMWC.host with
    | (.error e, evs5) => (.err e, evs4 ++ evs5)
    | (.ok _, evs5) =>
      match etcdMemberFromMachine env firstMWC.host with
      | (.error e, evs6) => (.err e, evs4 ++ evs5 ++ evs6)
      | (.ok firstEtcdMember, evs6) =>
        match updateMachineEtcdMember env firstEtcdMember firstMWC.machine with
        | (.error e, evs7) => (.err e, evs4 ++ evs5 ++ evs6 ++ evs7)
        | (.ok _, evs7) =>
          match insertClusterEtcdMember env firstEtcdMember cluster1 k1 with
          | (.error e, evs8) => (.err e, evs4 ++ evs5 ++ evs6 ++ evs7 ++ evs8)
          | (.ok (cluster2, k2), evs8) =>
            match firstEtcdMember.clientURLs with
            | [] =>
              (.err (.noClientURLs firstMWC.machine.name),
               evs4 ++ evs5 ++ evs6 ++ evs7 ++ evs8)
            | endpoint :: _ =>
              match joinPhase env endpoint otherMWCs cluster2 k2 with
              | (.error e, evs9) => (.err e, evs4 ++ evs5 ++ evs6 ++ evs7 ++ evs8 ++ evs9)
              | (.ok (cluster3, _), evs9) =>
                (.ok cluster3,
                 evs4 ++ evs5 ++ evs6 ++ evs7 ++ evs8 ++ evs9 ++
                   restartKubeletPhase env (firstMWC :: otherMWCs))

/-- `recoverEtcd` (machine.go:645-743). -/
def recoverEtcd (env : Env) (store : Store) (localPath remotePath : String)
    (etcdCASecret : Secret) (cluster : Cluster) (masters : List Machine) :
    Outcome Cluster × List Event :=
  match masters with
  | [] => (.ok cluster, [])
  | _ :: _ =>
    match buildMastersWithClient env store masters with
    | (.err e, evs) => (.err e, evs)
    | (.panicked, evs) => (.panicked, evs)
    | (.ok mastersWithClient, evs1) =>
      match resetPhase env mastersWithClient cluster 0 with
      | (.err e, evs2) => (.err e, evs1 ++ evs2)
      | (.panicked, evs2) => (.panicked, evs1 ++ evs2)
      | (.ok (cluster1, k1), evs2) =>
        match writeCAPhase env etcdCASecret mastersWithClient with
        | (.error e, evs3) => (.err e, evs1 ++ evs2 ++ evs3)
        | (.ok _, evs3) =>
          match mastersWithClient with
          | [] => (.ok cluster1, evs1 ++ evs2 ++ evs3)
          | firstMWC :: otherMWCs =>
            match recoverEtcdSeedAndJoin env localPath remotePath firstMWC
                otherMWCs cluster1 k1 with
            | (o, evs4) => (o, evs1 ++ evs2 ++ evs3 ++ evs4)

/-! ## machine delete -/

/-- The master count of `deleteMustNotOrphanNodes` (machine.go:344-355). -/
def countMasters (machines : List Machine) : Nat :=
  machines.foldl (fun acc m => acc + m.roles.count MasterRole) 0

/-- The node count of `deleteMustNotOrphanNodes` (machine.go:344-355). -/
def countNodes (machines : List Machine) : Nat :=
  machines.foldl (fun acc m => acc + m.roles.count NodeRole) 0

/-- `deleteMustNotOrphanNodes` (machine.go:338-360); `some e` means the
source calls `log.Fatalf`. -/
def deleteMustNotOrphanNodes (machines : List Machine) (targetMachine : Machine) :
    Option CErr :=
  if MasterRole ∈ targetMachine.roles then
    if countMasters machines = 1 ∧ countNodes machines > 0 then
      some (.wouldOrphanNodes (countNodes machines))
    else none
  else none

/-- `drainAndDeleteNodeForMachine` (machine.go:449-484): look up the node by
hostname; if one is found, drain it and delete it. -/
def drainAndDeleteNodeForMachine (env : Env) (store : Store)
    (targetMachine : Machine) (targetProvisionedMachine : ProvisionedMachine)
    (drainTimeoutStr drainGraceStr : String) : Outcome Unit × List Event :=
  match sshMachineClientFromSSHConfig env store targetProvisionedMachine.spec.sshConfig with
  | (.panicked, evs) => (.panicked, evs)
  | (.err e, evs) => (.err e, evs)
  | (.ok host, evs0) =>
    match env.runCommand host kubectlGetNodeCmd with
    | .error msg =>
      (.err (.remoteFailed kubectlGetNodeCmd msg), evs0 ++ [.cmd host kubectlGetNodeCmd])
    | .ok stdOut =>
      let evs1 := evs0 ++ [.cmd host kubectlGetNodeCmd]
      let nodeName := goTrimSpace stdOut
      if nodeName.length = 0 then (.ok (), evs1)
      else
        match env.runCommand host (kubectlDrainCmd drainTimeoutStr drainGraceStr nodeName) with
        | .error msg =>
          (.err (.remoteFailed (kubectlDrainCmd drainTimeoutStr drainGraceStr nodeName) msg),
           evs1 ++ [.cmd host (kubectlDrainCmd drainTimeoutStr drainGraceStr nodeName)])
        | .ok _ =>
          let evs2 := evs1 ++ [.cmd host (kubectlDrainCmd drainTimeoutStr drainGraceStr nodeName)]
          match env.runCommand host (kubectlDeleteNodeCmd nodeName) with
          | .error msg =>
            (.err (.remoteFailed (kubectlDeleteNodeCmd nodeName) msg),
             evs2 ++ [.cmd host (kubectlDeleteNodeCmd nodeName)])
          | .ok _ => (.ok (), evs2 ++ [.cmd host (kubectlDeleteNodeCmd nodeName)])

/-- The tail of `machineCmdDelete.Run` (machine.go:323-334): delete the
Machine and ProvisionedMachine objects and sync the on-disk state. -/
def machineCmdDeleteFinish (env : Env) (store : Store) (cluster : Cluster)
    (targetMachine : Machine) (targetProvisionedMachine : ProvisionedMachine) :
    Outcome Store × List Event :=
  let store1 : Store :=
    { store with
      cluster := some cluster
      machines := store.machines.filter (fun m => decide (m.name ≠ targetMachine.name))
      provisionedMachines :=
        store.provisionedMachines.filter
          (fun p => decide (p.name ≠ targetProvisionedMachine.name)) }
  let evs := [Event.deleteMachineEv targetMachine.name,
              Event.deletePMEv targetProvisionedMachine.name]
  match env.pullFromAPIs with
  | .error msg => (.err (.storeError msg), evs)
  | .ok _ => (.ok store1, evs ++ [.syncState])

/-- `machineCmdDelete.Run` (machine.go:256-335). -/
def machineCmdDelete (env : Env) (store : Store)
    (ip drainTimeoutStr drainGraceStr : String) : Outcome Store × List Event :=
  match store.machines.find? (fun m => m.name = ip) with
  | none => (.err (.notFound ("machine " ++ ip)), [])
  | some targetMachine =>
    match targetMachine.providerSpec with
    | .bad msg => (.err (.decodeFailed ("machine " ++ targetMachine.name ++ " spec") msg), [])
    | .okp targetMachineSpec =>
      match store.provisionedMachines.find?
          (fun p => p.name = targetMachineSpec.provisionedMachineName) with
      | none =>
        (.err (.notFound ("provisioned machine " ++ targetMachineSpec.provisionedMachineName)), [])
      | some targetProvisionedMachine =>
        match store.cluster with
        | none => (.err (.notFound "cluster"), [])
        | some cluster =>
          match deleteMustNotOrphanNodes store.machines targetMachine with
          | some e => (.err e, [])
          | none =>
            match drainAndDeleteNodeForMachine env store targetMachine
                targetProvisionedMachine drainTimeoutStr drainGraceStr with
            | (.panicked, evs) => (.panicked, evs)
            | (.err e, evs) => (.err e, evs)
            | (.ok _, evsA) =>
              match env.actuatorDelete targetMachine.name with
              | .error msg =>
                (.err (.remoteFailed "actuator delete" msg),
                 evsA ++ [.actuatorDeleteEv targetMachine.name])
              | .ok _ =>
                let evsB := evsA ++ [Event.actuatorDeleteEv targetMachine.name]
                match targetMachine.providerStatus with
                | .bad msg =>
                  (.err (.decodeFailed ("machine " ++ targetMachine.name ++ " status") msg), evsB)
                | .okp machineStatus =>
                  -- machine.go:305-321, inline removal from the membership set
                  match machineStatus.etcdMember with
                  | none =>
                    match machineCmdDeleteFinish env store cluster targetMachine
                        targetProvisionedMachine with
                    | (o, evs) => (o, evsB ++ evs)
                  | some em =>
                    match removeClusterEtcdMember env em cluster 0 with
                    | (.error e, evs) => (.err e, evsB ++ evs)
                    | (.ok (cluster', _), evsC) =>
                      match machineCmdDeleteFinish env store cluster' targetMachine
                          targetProvisionedMachine with
                      | (o, evs) => (o, evsB ++ evsC ++ evs)

/-! ## machine create -/

/-- `newProvisionedMachineAndMachine` (machine.go:190-251).  The encodes and
the bidirectional bind are performed by external codec utilities; their
failures come from the environment. -/
def newProvisionedMachineAndMachine (env : Env) (name : String)
    (role : MachineRole) (vipNetworkInterface : String) (sshConfig : SSHConfig) :
    Except CErr (ProvisionedMachine × Machine) :=
  let newProvisionedMachine : ProvisionedMachine :=
    { name := name
      spec := { sshConfig := some sshConfig
                vipNetworkInterface := vipNetworkInterface
                boundMachineName := none } }
  match env.machineSpecEncodeErr with
  | some msg => .error (.encodingError "machine provider spec" msg)
  | none =>
    match env.machineStatusEncodeErr with
    | some msg => .error (.encodingError "machine provider status" msg)
    | none =>
      let newMachine : Machine :=
        { name := name
          roles := [role]
          providerSpec := .okp { provisionedMachineName := newProvisionedMachine.name
                                 roles := [role] }
          providerStatus := .okp { etcdMember := none, sshConfig := none } }
      match env.bindErr with
      | some msg =>
        .error (.encodingError "bi-directional bind between machine and provisioned machine" msg)
      | none =>
        let newProvisionedMachine :=
          { newProvisionedMachine with
            spec := { newProvisionedMachine.spec with boundMachineName := some newMachine.name } }
        .ok (newProvisionedMachine, newMachine)

/-- `masterMachineAndProvisionedMachine` (machine.go:394-419): choose the
first master in the list. -/
def masterMachineAndProvisionedMachine (store : Store) :
    Except CErr (Machine × ProvisionedMachine) :=
  match store.machines.find? (fun m => MasterRole ∈ m.roles) with
  | none => .error (.notFound "machine with Master role")
  | some masterMachine =>
    match masterMachine.providerSpec with
    | .bad msg => .error (.decodeFailed "machine spec" msg)
    | .okp masterMachineSpec =>
      match store.provisionedMachines.find?
          (fun p => p.name = masterMachineSpec.provisionedMachineName) with
      | none => .error (.notFound ("provisioned machine " ++ masterMachineSpec.provisionedMachineName))
      | some masterProvisionedMachine => .ok (masterMachine, masterProvisionedMachine)

/-- The public-key parsing loop of `machineCmdCreate.Run` (machine.go:60-67). -/
def collectPublicKeys (env : Env) : List String → Except CErr (List String)
  | [] => .ok []
  | f :: rest =>
    match env.publicKeyFromFile f with
    | .error msg => .error (.decodeFailed ("SSH public key from " ++ f) msg)
    | .ok k =>
      match collectPublicKeys env rest with
      | .error e => .error e
      | .ok ks => .ok (k :: ks)

/-- `bootstrapTokenSecretFromMachine` (machine.go:362-392): run the
join-token command on a master and parse its output into a token secret. -/
def bootstrapTokenSecretFromMachine (env : Env) (store : Store)
    (machine : Machine) (provisionedMachine : ProvisionedMachine) :
    Outcome Secret × List Event :=
  match sshMachineClientFromSSHConfig env store provisionedMachine.spec.sshConfig with
  | (.panicked, evs) => (.panicked, evs)
  | (.err e, evs) => (.err e, evs)
  | (.ok host, evs0) =>
    match env.runCommand host kubeadmTokenCmd with
    | .error msg =>
      (.err (.remoteFailed kubeadmTokenCmd msg), evs0 ++ [.cmd host kubeadmTokenCmd])
    | .ok stdOut =>
      match tokenAndCAHashFromKubeadmJoinCommand stdOut with
      | .error e => (.err e, evs0 ++ [.cmd host kubeadmTokenCmd])
      | .ok (token, caHash) =>
        (.ok { name := defaultBootstrapTokenSecretName
               data := [("token", token), ("cahash", caHash)] },
         evs0 ++ [.cmd host kubeadmTokenCmd])

/-- Lines 111-129 of `machineCmdCreate.Run`: get a bootstrap token from the
master and create or overwrite the token secret. -/
def ensureBootstrapTokenSecret (env : Env) (store : Store)
    (masterMachine : Machine) (masterProvisionedMachine : ProvisionedMachine) :
    Outcome Store × List Event :=
  match bootstrapTokenSecretFromMachine env store masterMachine masterProvisionedMachine with
  | (.panicked, evs) => (.panicked, evs)
  | (.err e, evs) => (.err e, evs)
  | (.ok newSecret, evs0) =>
    match store.secrets.find? (fun s => s.name = defaultBootstrapTokenSecretName) with
    | none =>
      (.ok { store with secrets := store.secrets ++ [newSecret] },
       evs0 ++ [.createSecretEv newSecret.name])
    | some _ =>
      (.ok { store with
             secrets := store.secrets.map
               (fun s => if s.name = defaultBootstrapTokenSecretName then newSecret else s) },
       evs0 ++ [.updateSecretEv newSecret.name])

/-- Lines 148-157 of `machineCmdCreate.Run`: copy the admin kubeconfig from
the master to the new machine. -/
def copyAdminKubeconfig (env : Env) (store : Store)
    (masterProvisionedMachine : ProvisionedMachine)
    (newProvisionedMachine : ProvisionedMachine) : Outcome Unit × List Event :=
  match sshMachineClientFromSSHConfig env store masterProvisionedMachine.spec.sshConfig with
  | (.panicked, evs) => (.panicked, evs)
  | (.err e, evs) => (.err e, evs)
  | (.ok mhost, evs0) =>
    match env.readFile mhost "/etc/kubernetes/admin.conf" with
    | .error msg =>
      (.err (.remoteFailed "read admin.conf" msg),
       evs0 ++ [.readFileEv mhost "/etc/kubernetes/admin.conf"])
    | .ok _ =>
      let evs1 := evs0 ++ [Event.readFileEv mhost "/etc/kubernetes/admin.conf"]
      match sshMachineClientFromSSHConfig env store newProvisionedMachine.spec.sshConfig with
      | (.panicked, evs) => (.panicked, evs1 ++ evs)
      | (.err e, evs) => (.err e, evs1 ++ evs)
      | (.ok nhost, evs2) =>
        match env.writeFile nhost "/etc/kubernetes/admin.conf" with
        | .error msg =>
          (.err (.remoteFailed "write admin.conf" msg),
           evs1 ++ evs2 ++ [.writeFileEv nhost "/etc/kubernetes/admin.conf"])
        | .ok _ => (.ok (), evs1 ++ evs2 ++ [.writeFileEv nhost "/etc/kubernetes/admin.conf"])

/-- Lines 159-180 of `machineCmdCreate.Run`: when the new machine's status
carries an etcd member (guarded by a nil test), insert it into the cluster
membership set and persist; the operations are those of
`insertClusterEtcdMember`. -/
def updateClusterStatusOnCreate (env : Env) (cluster : Cluster)
    (machineStatus : SPMachineStatus) : Except CErr Cluster × List Event :=
  match machineStatus.etcdMember with
  | none => (.ok cluster, [])
  | some em =>
    match insertClusterEtcdMember env em cluster 0 with
    | (.error e, evs) => (.error e, evs)
    | (.ok (cluster', _), evs) => (.ok cluster', evs)

/-- Lines 101-186 of `machineCmdCreate.Run`, after the Machine and
ProvisionedMachine objects have been persisted. -/
def machineCmdCreateAfterPersist (env : Env) (store : Store) (cluster : Cluster)
    (newProvisionedMachine : ProvisionedMachine) (newMachine : Machine) :
    Outcome Store × List Event :=
  match (if NodeRole ∈ newMachine.roles then
          (masterMachineAndProvisionedMachine store).map some
         else .ok none) with
  | .error e => (.err e, [])
  | .ok masterPair =>
    match (match masterPair with
           | some (mm, mpm) => ensureBootstrapTokenSecret env store mm mpm
           | none => (.ok store, [])) with
    | (.panicked, evs) => (.panicked, evs)
    | (.err e, evs) => (.err e, evs)
    | (.ok store1, evsA) =>
      match env.actuatorCreate newMachine.name with
      | .error msg =>
        (.err (.remoteFailed "actuator create" msg),
         evsA ++ [.actuatorCreateEv newMachine.name])
      | .ok newStatus =>
        let evsB := evsA ++ [Event.actuatorCreateEv newMachine.name]
        let newMachine' : Machine := { newMachine with providerStatus := .okp newStatus }
        let store2 : Store :=
          { store1 with
            machines := store1.machines.map
              (fun m => if m.name = newMachine.name then newMachine' else m) }
        match (match masterPair with
               | some (_, mpm) => copyAdminKubeconfig env store2 mpm newProvisionedMachine
               | none => (.ok (), [])) with
        | (.panicked, evs) => (.panicked, evsB ++ evs)
        | (.err e, evs) => (.err e, evsB ++ evs)
        | (.ok _, evsC) =>
          match updateClusterStatusOnCreate env cluster newStatus with
          | (.error e, evs) => (.err e, evsB ++ evsC ++ evs)
          | (.ok cluster', evsD) =>
            let store3 : Store := { store2 with cluster := some cluster' }
            match env.pullFromAPIs with
            | .error msg => (.err (.storeError msg), evsB ++ evsC ++ evsD)
            | .ok _ => (.ok store3, evsB ++ evsC ++ evsD ++ [.syncState])

/-- `machineCmdCreate.Run` (machine.go:46-187).  Note that the error result
of `newProvisionedMachineAndMachine` is assigned but never checked
(machine.go:93); on failure the subsequent Create calls receive nil pointers
and dereference them. -/
def machineCmdCreate (env : Env) (store : Store) (ip iface : String)
    (role : MachineRole) (port : Nat) (publicKeyFiles : List String) :
    Outcome Store × List Event :=
  if ¬ (role = MasterRole ∨ role = NodeRole) then (.err (.invalidRole role), [])
  else
    match collectPublicKeys env publicKeyFiles with
    | .error e => (.err e, [])
    | .ok publicKeys =>
      match store.cluster with
      | none => (.err (.notFound "cluster"), [])
      | some cluster =>
        match store.secrets.find? (fun s => s.name = defaultSSHCredentialSecretName) with
        | none => (.err (.notFound "SSH credential"), [])
        | some sshCredentialSecret =>
          let newSSHConfig : SSHConfig :=
            { host := ip, port := port, publicKeys := publicKeys
              credentialSecretName := sshCredentialSecret.name }
          match newProvisionedMachineAndMachine env ip role iface newSSHConfig with
          | .error _ => (.panicked, [])
          | .ok (newProvisionedMachine, newMachine) =>
            if store.provisionedMachines.any (fun p => p.name = newProvisionedMachine.name) then
              (.err (.storeError "provisioned machine already exists"), [])
            else
              let store1 : Store :=
                { store with
                  provisionedMachines := store.provisionedMachines ++ [newProvisionedMachine] }
              if store1.machines.any (fun m => m.name = newMachine.name) then
                (.err (.storeError "machine already exists"), [.createPM newProvisionedMachine.name])
              else
                let store2 : Store :=
                  { store1 with machines := store1.machines ++ [newMachine] }
                match machineCmdCreateAfterPersist env store2 cluster
                    newProvisionedMachine newMachine with
                | (o, evs) =>
                  (o, .createPM newProvisionedMachine.name ::
                      .createMachine newMachine.name :: evs)

/-! ## Statement support -/

/-- The member the seed reports through `etcdadm info` (the value
`etcdMemberFromMachine` yields when it succeeds). -/
def seedReportedMember (env : Env) (host : String) : Option EtcdMember :=
  (etcdMemberFromMachine env host).1.toOption

/-- The host recorded in a machine's decoded provider status (defaults to ""
when the status or config is absent). -/
def hostOfM (m : Machine) : String :=
  match m.providerStatus with
  | .okp st =>
    match st.sshConfig with
    | some c => c.host
    | none => ""
  | .bad _ => ""

/-- The fixed prefix of every `etcdadm join` command. -/
def etcdadmJoinPrefix : String := etcdadmPath ++ " join "

/-- Whether a command string is an `etcdadm join` command. -/
def isJoinCmdStr (c : String) : Bool := etcdadmJoinPrefix.data.isPrefixOf c.data

/-- The host of a join-command event. -/
def joinEventHost : Event → Option String
  | .cmd h c => if isJoinCmdStr c then some h else none
  | _ => none

/-- Whether an event is a kubelet-restart command. -/
def isKubeletEvent : Event → Bool
  | .cmd _ c => c == restartKubeletCmd
  | _ => false

/-! ## Concrete instances used to witness the theorems -/

/-- An environment in which every external call succeeds. -/
def trivialEnv : Env :=
  { runCommand := fun _ _ => .ok ""
    readFile := fun _ _ => .ok ""
    writeFile := fun _ _ => .ok ()
    mkdirAll := fun _ _ => .ok ()
    moveFile := fun _ _ _ => .ok ()
    readLocalFile := fun _ => .ok ""
    parseEtcdMember := fun _ => .ok ⟨1, "m1", ["p1"], ["c1"]⟩
    mkClient := fun _ => .ok ()
    publicKeyFromFile := fun _ => .ok ""
    machineUpdateStatus := fun _ => .ok ()
    clusterUpdateStatus := fun _ => .ok ()
    actuatorCreate := fun _ => .ok ⟨none, none⟩
    actuatorDelete := fun _ => .ok ()
    pullFromAPIs := .ok ()
    machineSpecEncodeErr := none
    machineStatusEncodeErr := none
    bindErr := none }

/-- The SSH configuration of the machine at 10.0.0.1. -/
def w1SSH : SSHConfig :=
  { host := "10.0.0.1", port := 22, publicKeys := []
    credentialSecretName := defaultSSHCredentialSecretName }

/-- The provider spec of the master at 10.0.0.1. -/
def w1SpecA : SPMachineSpec :=
  { provisionedMachineName := "10.0.0.1", roles := [MasterRole] }

/-- A master machine. -/
def w1MachineA : Machine :=
  { name := "10.0.0.1", roles := [MasterRole]
    providerSpec := .okp w1SpecA
    providerStatus := .okp { etcdMember := some ⟨1, "e1", [], []⟩, sshConfig := some w1SSH } }

/-- A node machine. -/
def w1MachineB : Machine :=
  { name := "10.0.0.2", roles := [NodeRole]
    providerSpec := .okp { provisionedMachineName := "10.0.0.2", roles := [NodeRole] }
    providerStatus := .okp { etcdMember := none, sshConfig := none } }

/-- The provisioned machine bound to the master. -/
def w1PMA : ProvisionedMachine :=
  { name := "10.0.0.1"
    spec := { sshConfig := some w1SSH, vipNetworkInterface := "eth0"
              boundMachineName := some "10.0.0.1" } }

/-- A cluster whose status holds one membership record. -/
def w1Cluster : Cluster :=
  { name := "c1", providerSpec := .okp ⟨"etcdCA"⟩
    providerStatus := .okp ⟨[⟨1, "e1", [], []⟩]⟩ }

/-- The provisioned machine bound to the node. -/
def w1PMB : ProvisionedMachine :=
  { name := "10.0.0.2"
    spec := { sshConfig := some w1SSH, vipNetworkInterface := "eth0"
              boundMachineName := some "10.0.0.2" } }

/-- A store with one master, one node, and the credential secret. -/
def w1Store : Store :=
  { cluster := some w1Cluster
    machines := [w1MachineA, w1MachineB]
    provisionedMachines := [w1PMA, w1PMB]
    secrets := [⟨defaultSSHCredentialSecretName, [("username", "u"), ("key", "k")]⟩,
                ⟨"etcdCA", [("tls.crt", "c"), ("tls.key", "k")]⟩] }

/-- The etcd CA secret handed to the recovery runs. -/
def wCASecret : Secret := ⟨"etcdCA", [("tls.crt", "c"), ("tls.key", "k")]⟩

/-- A master whose provider status carries no membership record. -/
def w2Machine : Machine :=
  { name := "10.0.0.3", roles := [MasterRole]
    providerSpec := .okp { provisionedMachineName := "10.0.0.3", roles := [MasterRole] }
    providerStatus := .okp { etcdMember := none, sshConfig := some w1SSH } }

/-- The SSH configuration of the second master. -/
def w3SSH : SSHConfig :=
  { host := "10.0.0.4", port := 22, publicKeys := []
    credentialSecretName := defaultSSHCredentialSecretName }

/-- A second master used in the two-master recovery run. -/
def w3MachineC : Machine :=
  { name := "10.0.0.4", roles := [MasterRole]
    providerSpec := .okp { provisionedMachineName := "10.0.0.4", roles := [MasterRole] }
    providerStatus := .okp { etcdMember := some ⟨2, "e2", [], []⟩, sshConfig := some w3SSH } }

/-- The cluster state after the two-master recovery run succeeds. -/
def w3FinalCluster : Cluster :=
  { name := "c1", providerSpec := .okp ⟨"etcdCA"⟩
    providerStatus := .okp ⟨[⟨1, "m1", ["p1"], ["c1"]⟩]⟩ }

/-- An environment whose etcd reset command fails. -/
def badResetEnv : Env :=
  { trivialEnv with
    runCommand := fun _ c =>
      if c = etcdadmResetCmd then .error "reset failed" else .ok "" }

/-- An environment whose kubelet restart fails. -/
def badKubeletEnv : Env :=
  { trivialEnv with
    runCommand := fun _ c =>
      if c = restartKubeletCmd then .error "kubelet restart failed" else .ok "" }

/-- An environment whose reported member has no client URLs. -/
def noURLEnv : Env :=
  { trivialEnv with parseEtcdMember := fun _ => .ok ⟨1, "m1", ["p1"], []⟩ }

/-- An environment whose bind step fails. -/
def badBindEnv : Env := { trivialEnv with bindErr := some "boom" }

/-- The SSH config `machineCmdCreate` builds for ip 10.0.0.9 with no keys. -/
def c2SSH : SSHConfig :=
  { host := "10.0.0.9", port := 22, publicKeys := []
    credentialSecretName := defaultSSHCredentialSecretName }

theorem msInsert_filter (r : EtcdMember) (i : Nat) :
    ∀ s : List EtcdMember, (s.map (fun x => x.id)).Nodup →
    (msInsert s r).filter (fun x => decide (x.id = i)) =
      if r.id = i then [r] else s.filter (fun x => decide (x.id = i)) := by
  intro s
  induction s with
  | nil =>
    intro _
    by_cases h : r.id = i <;> simp [msInsert, List.filter, h]
  | cons x xs ih =>
    intro hnd
    simp only [List.map_cons, List.nodup_cons] at hnd
    obtain ⟨hx, hxs⟩ := hnd
    by_cases hxr : x.id = r.id
    · simp only [msInsert, if_pos hxr]
      by_cases hri : r.id = i
      · have hxsnone : xs.filter (fun y => decide (y.id = i)) = [] := by
          apply List.filter_eq_nil_iff.mpr
          intro a ha
          simp only [decide_eq_true_eq]
          intro hai
          exact hx (by
            rw [List.mem_map]
            exact ⟨a, ha, by rw [hai, ← hri, hxr]⟩)
        simp [List.filter, hri, hxsnone]
      · have hxi : ¬ (x.id = i) := by rw [hxr]; exact hri
        simp [List.filter, hri, hxi]
    · simp only [msInsert, if_neg hxr]
      by_cases hri : r.id = i
      · have hxi : ¬ (x.id = i) := by
          intro hcon; exact hxr (by rw [hcon, hri])
        simp [List.filter, hxi, ih hxs, hri]
      · by_cases hxi : x.id = i
        · simp [List.filter, hxi, ih hxs, hri]
        · simp [List.filter, hxi, ih hxs, hri]

theorem msDelete_filter (s : List EtcdMember) (r : EtcdMember) (i : Nat) :
    (msDelete s r).filter (fun x => decide (x.id = i)) =
      if r.id = i then [] else s.filter (fun x => decide (x.id = i)) := by
  unfold msDelete
  rw [List.filter_filter]
  by_cases hri : r.id = i
  · rw [if_pos hri]
    apply List.filter_eq_nil_iff.mpr
    intro a _
    simp only [Bool.and_eq_true, decide_eq_true_eq, ne_eq, not_and]
    intro hai hne
    exact hne (by rw [hai, hri])
  · rw [if_neg hri]
    apply List.filter_congr
    intro a _
    by_cases hai : a.id = i
    · have hne : ¬ (a.id = r.id) := by intro hc; exact hri (by rw [← hc, hai])
      have hir : ¬ (i = r.id) := fun hc => hri hc.symm
      simp [hai, hne, hir]
    · simp [hai]

theorem mem_msInsert (r a : EtcdMember) :
    ∀ s : List EtcdMember, a ∈ msInsert s r → a = r ∨ a ∈ s := by
  intro s
  induction s with
  | nil => intro h; simp [msInsert] at h; exact Or.inl h
  | cons y ys ihy =>
    intro h
    simp only [msInsert] at h
    by_cases hyr : y.id = r.id
    · rw [if_pos hyr] at h
      rcases List.mem_cons.mp h with h1 | h2
      · exact Or.inl h1
      · exact Or.inr (List.mem_cons.mpr (Or.inr h2))
    · rw [if_neg hyr] at h
      rcases List.mem_cons.mp h with h1 | h2
      · exact Or.inr (List.mem_cons.mpr (Or.inl h1))
      · rcases ihy h2 with ha | hb
        · exact Or.inl ha
        · exact Or.inr (List.mem_cons.mpr (Or.inr hb))

theorem msInsert_ids_nodup (r : EtcdMember) :
    ∀ s : List EtcdMember, (s.map (fun x => x.id)).Nodup →
    ((msInsert s r).map (fun x => x.id)).Nodup := by
  intro s
  induction s with
  | nil => intro _; simp [msInsert]
  | cons x xs ih =>
    intro hnd
    simp only [List.map_cons, List.nodup_cons] at hnd
    obtain ⟨hx, hxs⟩ := hnd
    by_cases hxr : x.id = r.id
    · simp only [msInsert, if_pos hxr, List.map_cons, List.nodup_cons]
      exact ⟨by rw [← hxr]; exact hx, hxs⟩
    · simp only [msInsert, if_neg hxr, List.map_cons, List.nodup_cons]
      constructor
      · intro hmem
        rw [List.mem_map] at hmem
        obtain ⟨a, ha, haid⟩ := hmem
        rcases mem_msInsert r a xs ha with rfl | hin
        · exact hxr (by rw [haid])
        · exact hx (List.mem_map.mpr ⟨a, hin, haid⟩)
      · exact ih hxs

theorem msDelete_ids_nodup (s : List EtcdMember) (r : EtcdMember)
    (h : (s.map (fun x => x.id)).Nodup) :
    ((msDelete s r).map (fun x => x.id)).Nodup := by
  have hsub : List.Sublist (msDelete s r) s := List.filter_sublist s
  exact h.sublist (List.Sublist.map (fun x => x.id) hsub)

theorem applyOp_ids_nodup (s : List EtcdMember) (op : MSOp)
    (h : (s.map (fun x => x.id)).Nodup) :
    ((applyOp s op).map (fun x => x.id)).Nodup := by
  cases op with
  | ins r => exact msInsert_ids_nodup r s h
  | del r => exact msDelete_ids_nodup s r h

theorem foldl_applyOp_filter (i : Nat) :
    ∀ (ops : List MSOp) (s : List EtcdMember) (o : Option EtcdMember),
    (s.map (fun x => x.id)).Nodup →
    s.filter (fun x => decide (x.id = i)) = o.toList →
    (ops.foldl applyOp s).filter (fun x => decide (x.id = i)) =
      (ops.foldl (stepLive i) o).toList := by
  intro ops
  induction ops with
  | nil => intro s o _ hf; simpa using hf
  | cons op rest ih =>
    intro s o hnd hf
    simp only [List.foldl_cons]
    apply ih (applyOp s op) (stepLive i o op) (applyOp_ids_nodup s op hnd)
    cases op with
    | ins r =>
      rw [show applyOp s (MSOp.ins r) = msInsert s r from rfl,
        msInsert_filter r i s hnd]
      by_cases hri : r.id = i <;> simp [stepLive, hri, hf]
    | del r =>
      rw [show applyOp s (MSOp.del r) = msDelete s r from rfl,
        msDelete_filter s r i]
      by_cases hri : r.id = i <;> simp [stepLive, hri, hf]

theorem foldl_applyOp_ids_nodup :
    ∀ (ops : List MSOp) (s : List EtcdMember),
    (s.map (fun x => x.id)).Nodup →
    ((ops.foldl applyOp s).map (fun x => x.id)).Nodup := by
  intro ops
  induction ops with
  | nil => intro s h; simpa using h
  | cons op rest ih =>
    intro s h
    simp only [List.foldl_cons]
    exact ih (applyOp s op) (applyOp_ids_nodup s op h)

/-! ## Command-string facts -/

theorem etcdadmInitCmd_data17 (rp : String) :
    ((etcdadmInitCmd rp).data)[17]? = some 'i' := by
  unfold etcdadmInitCmd etcdadmPath
  rw [String.data_append, List.getElem?_append_left (by decide)]
  decide

theorem etcdadmInitCmd_data19 (rp : String) :
    ((etcdadmInitCmd rp).data)[19]? = some 'i' := by
  unfold etcdadmInitCmd etcdadmPath
  rw [String.data_append, List.getElem?_append_left (by decide)]
  decide

theorem etcdadmInitCmd_data0 (rp : String) :
    ((etcdadmInitCmd rp).data)[0]? = some '/' := by
  unfold etcdadmInitCmd etcdadmPath
  rw [String.data_append, List.getElem?_append_left (by decide)]
  decide

theorem etcdadmResetCmd_ne_initCmd (rp : String) :
    etcdadmResetCmd ≠ etcdadmInitCmd rp := by
  intro h
  have hl : (etcdadmResetCmd.data)[17]? = some 'r' := by decide
  rw [h, etcdadmInitCmd_data17 rp] at hl
  simp at hl

theorem etcdadmInfoCmd_ne_initCmd (rp : String) :
    etcdadmInfoCmd ≠ etcdadmInitCmd rp := by
  intro h
  have hl : (etcdadmInfoCmd.data)[19]? = some 'f' := by decide
  rw [h, etcdadmInitCmd_data19 rp] at hl
  simp at hl

theorem restartKubeletCmd_ne_initCmd (rp : String) :
    restartKubeletCmd ≠ etcdadmInitCmd rp := by
  intro h
  have hl : (restartKubeletCmd.data)[0]? = some 's' := by decide
  rw [h, etcdadmInitCmd_data0 rp] at hl
  simp at hl

theorem etcdadmJoinCmd_ne_initCmd (ep rp : String) :
    etcdadmJoinCmd ep ≠ etcdadmInitCmd rp := by
  intro h
  have hl : ((etcdadmJoinCmd ep).data)[17]? = some 'j' := by
    unfold etcdadmJoinCmd etcdadmPath
    rw [String.data_append, List.getElem?_append_left (by decide)]
    decide
  rw [h, etcdadmInitCmd_data17 rp] at hl
  simp at hl

theorem etcdadmJoinCmd_inj (a b : String)
    (h : etcdadmJoinCmd a = etcdadmJoinCmd b) : a = b := by
  unfold etcdadmJoinCmd at h
  have h2 := congrArg String.data h
  rw [String.data_append, String.data_append] at h2
  have h3 := List.append_cancel_left h2
  exact String.ext h3

theorem isJoinCmdStr_joinCmd (ep : String) :
    isJoinCmdStr (etcdadmJoinCmd ep) = true := by
  unfold isJoinCmdStr etcdadmJoinCmd etcdadmJoinPrefix
  apply List.isPrefixOf_iff_prefix.mpr
  rw [String.data_append]
  exact ⟨ep.data, rfl⟩

theorem isJoinCmdStr_resetCmd : isJoinCmdStr etcdadmResetCmd = false := by decide

theorem isJoinCmdStr_infoCmd : isJoinCmdStr etcdadmInfoCmd = false := by decide

theorem isJoinCmdStr_kubeletCmd : isJoinCmdStr restartKubeletCmd = false := by decide

theorem isJoinCmdStr_initCmd (rp : String) :
    isJoinCmdStr (etcdadmInitCmd rp) = false := by
  unfold isJoinCmdStr
  by_contra hb
  rw [Bool.not_eq_false] at hb
  obtain ⟨t, ht⟩ := List.isPrefixOf_iff_prefix.mp hb
  have h17 := congrArg (fun l => l[17]?) ht
  simp only at h17
  rw [List.getElem?_append_left (by decide)] at h17
  rw [etcdadmInitCmd_data17 rp] at h17
  have hj : (etcdadmJoinPrefix.data)[17]? = some 'j' := by decide
  rw [hj] at h17
  simp at h17

theorem etcdadmJoinCmd_ne_resetCmd (ep : String) :
    etcdadmJoinCmd ep ≠ etcdadmResetCmd := by
  intro h
  have := isJoinCmdStr_joinCmd ep
  rw [h, isJoinCmdStr_resetCmd] at this
  simp at this

theorem etcdadmJoinCmd_ne_infoCmd (ep : String) :
    etcdadmJoinCmd ep ≠ etcdadmInfoCmd := by
  intro h
  have := isJoinCmdStr_joinCmd ep
  rw [h, isJoinCmdStr_infoCmd] at this
  simp at this

theorem etcdadmJoinCmd_ne_kubeletCmd (ep : String) :
    etcdadmJoinCmd ep ≠ restartKubeletCmd := by
  intro h
  have := isJoinCmdStr_joinCmd ep
  rw [h, isJoinCmdStr_kubeletCmd] at this
  simp at this

theorem restartKubeletCmd_ne_resetCmd : restartKubeletCmd ≠ etcdadmResetCmd := by decide

theorem restartKubeletCmd_ne_infoCmd : restartKubeletCmd ≠ etcdadmInfoCmd := by decide

/-! ## Codec roundtrip lemmas -/

theorem decodeStrings_encodeStrings (l : List String) :
    decodeStrings (encodeStrings l) = some l := by
  induction l with
  | nil => rfl
  | cons s rest ih =>
    show (decodeStrings (encodeStrings rest)).map (fun l => s :: l) = some (s :: rest)
    rw [ih]
    rfl

theorem decodeEtcdMember_encodeEtcdMember (m : EtcdMember) :
    decodeEtcdMember (encodeEtcdMember m) = some m := by
  obtain ⟨i, n, p, c⟩ := m
  simp [encodeEtcdMember, decodeEtcdMember, decodeStrings_encodeStrings]

theorem decodeEtcdMembers_encodeEtcdMembers (l : List EtcdMember) :
    decodeEtcdMembers (encodeEtcdMembers l) = some l := by
  induction l with
  | nil => rfl
  | cons m rest ih =>
    show decodeEtcdMembers (encodeEtcdMember m :: encodeEtcdMembers rest) = some (m :: rest)
    simp only [decodeEtcdMembers, decodeEtcdMember_encodeEtcdMember, ih, Option.map_some']

theorem decodeSSHConfig_encodeSSHConfig (c : SSHConfig) :
    decodeSSHConfig (encodeSSHConfig c) = some c := by
  obtain ⟨h, p, ks, cs⟩ := c
  simp [encodeSSHConfig, decodeSSHConfig, decodeStrings_encodeStrings]

theorem decodeOptSSHConfig_encodeOptSSHConfig (o : Option SSHConfig) :
    decodeOptSSHConfig (encodeOptSSHConfig o) = some o := by
  cases o with
  | none => rfl
  | some c =>
    obtain ⟨h, p, ks, cs⟩ := c
    simp [encodeOptSSHConfig, encodeSSHConfig, decodeOptSSHConfig, decodeSSHConfig,
      decodeStrings_encodeStrings]

theorem decodeOptEtcdMember_encodeOptEtcdMember (o : Option EtcdMember) :
    decodeOptEtcdMember (encodeOptEtcdMember o) = some o := by
  cases o with
  | none => rfl
  | some m =>
    obtain ⟨i, n, p, c⟩ := m
    simp [encodeOptEtcdMember, encodeEtcdMember, decodeOptEtcdMember, decodeEtcdMember,
      decodeStrings_encodeStrings]

theorem decodeOptString_encodeOptString (o : Option String) :
    decodeOptString (encodeOptString o) = some o := by
  cases o <;> rfl

/-! ## Claim theorems -/

/-- C8: for every provider payload shape (Cluster spec/status, Machine
spec/status, ProvisionedMachine spec), decoding the result of encoding a
value returns that same value. -/
theorem codec_roundtrip :
    (∀ x : SPClusterSpec, decodeClusterSpec (encodeClusterSpec x) = some x) ∧
    (∀ x : SPClusterStatus, decodeClusterStatus (encodeClusterStatus x) = some x) ∧
    (∀ x : SPMachineSpec, decodeMachineSpec (encodeMachineSpec x) = some x) ∧
    (∀ x : SPMachineStatus, decodeMachineStatus (encodeMachineStatus x) = some x) ∧
    (∀ x : SPProvisionedMachineSpec,
      decodeProvisionedMachineSpec (encodeProvisionedMachineSpec x) = some x) := by
  refine ⟨?_, ?_, ?_, ?_, ?_⟩
  · intro x
    obtain ⟨n⟩ := x
    simp [encodeClusterSpec, decodeClusterSpec]
  · intro x
    obtain ⟨ms⟩ := x
    simp [encodeClusterStatus, decodeClusterStatus, decodeEtcdMembers_encodeEtcdMembers]
  · intro x
    obtain ⟨n, rs⟩ := x
    simp [encodeMachineSpec, decodeMachineSpec, decodeStrings_encodeStrings]
  · intro x
    obtain ⟨em, sc⟩ := x
    simp [encodeMachineStatus, decodeMachineStatus,
      decodeOptEtcdMember_encodeOptEtcdMember, decodeOptSSHConfig_encodeOptSSHConfig]
  · intro x
    obtain ⟨sc, vip, mn⟩ := x
    simp [encodeProvisionedMachineSpec, decodeProvisionedMachineSpec,
      decodeOptSSHConfig_encodeOptSSHConfig, decodeOptString_encodeOptString]

/-- C5: a recovery invocation with an empty master list returns success,
issues no remote command, and mutates no store object. -/
theorem recoverEtcd_empty_masters (env : Env) (store : Store)
    (localPath remotePath : String) (etcdCASecret : Secret) (cluster : Cluster) :
    recoverEtcd env store localPath remotePath etcdCASecret cluster [] =
      (.ok cluster, []) := rfl

/-- C6: the join-token parser returns fields 4 and 6 of a 7-field output and
an unparseable-output error for any other field count; on the documented
example it yields the token and the discovery hash. -/
theorem tokenAndCAHash_spec :
    (∀ s : String, (goFields s).length = 7 →
      tokenAndCAHashFromKubeadmJoinCommand s =
        .ok ((goFields s).getD 4 "", (goFields s).getD 6 "")) ∧
    (∀ s : String, (goFields s).length ≠ 7 →
      tokenAndCAHashFromKubeadmJoinCommand s =
        .error (.unparseableOutput (goFields s).length)) ∧
    tokenAndCAHashFromKubeadmJoinCommand
        "kubeadm join 1.2.3.4:6443 --token abcdef.123456 --discovery-token-ca-cert-hash sha256:deadbeef" =
      .ok ("abcdef.123456", "sha256:deadbeef") := by
  refine ⟨?_, ?_, ?_⟩
  · intro s h
    simp [tokenAndCAHashFromKubeadmJoinCommand, h]
  · intro s h
    simp [tokenAndCAHashFromKubeadmJoinCommand, h]
  · rfl

theorem tokenAndCAHash_spec_witness :
    tokenAndCAHashFromKubeadmJoinCommand "a b c d e f g" = .ok ("e", "g") ∧
    tokenAndCAHashFromKubeadmJoinCommand "a b" = .error (.unparseableOutput 2) := by
  constructor
  · exact tokenAndCAHash_spec.1 "a b c d e f g" (by decide)
  · exact tokenAndCAHash_spec.2.1 "a b" (by decide)

/-- C7: after any sequence of Insert/Delete operations, the set holds
exactly one record per distinct id that has been inserted and not
subsequently deleted — namely the last record inserted for that id — with no
duplicate ids, and Delete matches by id only. -/
theorem membershipSet_spec :
    (∀ (ops : List MSOp) (i : Nat),
      (applyOps ops).filter (fun x => decide (x.id = i)) = (lastLive ops i).toList) ∧
    (∀ ops : List MSOp, ((applyOps ops).map (fun x => x.id)).Nodup) ∧
    (∀ (s : List EtcdMember) (r r' : EtcdMember), r.id = r'.id →
      msDelete s r = msDelete s r') := by
  refine ⟨?_, ?_, ?_⟩
  · intro ops i
    exact foldl_applyOp_filter i ops [] none (by simp) (by simp)
  · intro ops
    exact foldl_applyOp_ids_nodup ops [] (by simp)
  · intro s r r' h
    unfold msDelete
    apply List.filter_congr
    intro a _
    simp [h]

theorem membershipSet_spec_witness :
    (applyOps [.ins ⟨1, "a", [], []⟩, .ins ⟨1, "b", [], []⟩,
        .del ⟨2, "x", [], []⟩]).filter (fun x => decide (x.id = 1)) =
      [⟨1, "b", [], []⟩] ∧
    msDelete [⟨1, "a", [], []⟩] ⟨1, "b", [], []⟩ =
      msDelete [⟨1, "a", [], []⟩] ⟨1, "c", [], []⟩ := by
  constructor
  · exact membershipSet_spec.1 [.ins ⟨1, "a", [], []⟩, .ins ⟨1, "b", [], []⟩,
      .del ⟨2, "x", [], []⟩] 1
  · exact membershipSet_spec.2.2 [⟨1, "a", [], []⟩] ⟨1, "b", [], []⟩ ⟨1, "c", [], []⟩ rfl

/-! ## Role-count lemmas -/

theorem foldl_add_shift (f : Machine → Nat) :
    ∀ (l : List Machine) (n : Nat),
    l.foldl (fun acc m => acc + f m) n = n + l.foldl (fun acc m => acc + f m) 0 := by
  intro l
  induction l with
  | nil => intro n; simp
  | cons m rest ih =>
    intro n
    simp only [List.foldl_cons]
    rw [ih (n + f m), ih (0 + f m)]
    omega

theorem countMasters_cons (m : Machine) (rest : List Machine) :
    countMasters (m :: rest) = m.roles.count MasterRole + countMasters rest := by
  unfold countMasters
  simp only [List.foldl_cons]
  rw [foldl_add_shift (fun m => m.roles.count MasterRole) rest]
  omega

theorem countNodes_cons (m : Machine) (rest : List Machine) :
    countNodes (m :: rest) = m.roles.count NodeRole + countNodes rest := by
  unfold countNodes
  simp only [List.foldl_cons]
  rw [foldl_add_shift (fun m => m.roles.count NodeRole) rest]
  omega

theorem countMasters_eq_length_filter :
    ∀ machines : List Machine, (∀ m ∈ machines, m.roles.Nodup) →
    countMasters machines =
      (machines.filter (fun m => decide (MasterRole ∈ m.roles))).length := by
  intro machines
  induction machines with
  | nil => intro _; rfl
  | cons m rest ih =>
    intro h
    rw [countMasters_cons]
    have hm := h m (List.mem_cons_self m rest)
    have hrest := ih (fun x hx => h x (List.mem_cons_of_mem m hx))
    by_cases hmem : MasterRole ∈ m.roles
    · rw [List.count_eq_one_of_mem hm hmem]
      simp [List.filter, hmem, hrest, Nat.add_comm]
    · rw [List.count_eq_zero_of_not_mem hmem]
      simp [List.filter, hmem, hrest]

theorem countNodes_pos_iff :
    ∀ machines : List Machine,
    0 < countNodes machines ↔ ∃ m ∈ machines, NodeRole ∈ m.roles := by
  intro machines
  induction machines with
  | nil => simp [countNodes]
  | cons m rest ih =>
    rw [countNodes_cons]
    constructor
    · intro h
      by_cases hm : NodeRole ∈ m.roles
      · exact ⟨m, List.mem_cons_self m rest, hm⟩
      · have hz : m.roles.count NodeRole = 0 := List.count_eq_zero_of_not_mem hm
        rw [hz, Nat.zero_add] at h
        obtain ⟨x, hx, hxr⟩ := ih.mp h
        exact ⟨x, List.mem_cons_of_mem m hx, hxr⟩
    · rintro ⟨x, hx, hxr⟩
      rcases List.mem_cons.mp hx with rfl | hx'
      · have hp : 0 < x.roles.count NodeRole := List.count_pos_iff_mem.mpr hxr
        omega
      · have hp : 0 < countNodes rest := ih.mpr ⟨x, hx', hxr⟩
        omega

/-- C1: a delete invocation whose target (found in the store, with its spec,
provisioned machine and cluster resolvable) is the only machine carrying the
master role while at least one machine carries the node role aborts with
`WouldOrphanNodes` and performs no effect at all: no drain, no actuator
teardown, no cluster-status update and no object deletion (empty trace). -/
theorem delete_sole_master_aborts (env : Env) (store : Store)
    (ip drainTimeoutStr drainGraceStr : String)
    (targetMachine : Machine) (targetMachineSpec : SPMachineSpec)
    (targetProvisionedMachine : ProvisionedMachine) (cluster : Cluster)
    (hfind : store.machines.find? (fun m => m.name = ip) = some targetMachine)
    (hspec : targetMachine.providerSpec = .okp targetMachineSpec)
    (hpm : store.provisionedMachines.find?
      (fun p => p.name = targetMachineSpec.provisionedMachineName) =
        some targetProvisionedMachine)
    (hcl : store.cluster = some cluster)
    (hnodup : ∀ m ∈ store.machines, m.roles.Nodup)
    (hmaster : MasterRole ∈ targetMachine.roles)
    (honly : (store.machines.filter (fun m => decide (MasterRole ∈ m.roles))).length = 1)
    (hnode : ∃ m ∈ store.machines, NodeRole ∈ m.roles) :
    ∃ n, 0 < n ∧
      machineCmdDelete env store ip drainTimeoutStr drainGraceStr =
        (.err (.wouldOrphanNodes n), []) := by
  have hcm : countMasters store.machines = 1 := by
    rw [countMasters_eq_length_filter store.machines hnodup]
    exact honly
  have hcn : 0 < countNodes store.machines := (countNodes_pos_iff store.machines).mpr hnode
  have horphan : deleteMustNotOrphanNodes store.machines targetMachine =
      some (.wouldOrphanNodes (countNodes store.machines)) := by
    unfold deleteMustNotOrphanNodes
    rw [if_pos hmaster, if_pos ⟨hcm, hcn⟩]
  refine ⟨countNodes store.machines, hcn, ?_⟩
  simp only [machineCmdDelete, hfind, hspec, hpm, hcl, horphan]

theorem delete_sole_master_aborts_witness :
    ∃ n, 0 < n ∧
      machineCmdDelete trivialEnv w1Store "10.0.0.1" "5m0s" "300" =
        (.err (.wouldOrphanNodes n), []) :=
  delete_sole_master_aborts trivialEnv w1Store "10.0.0.1" "5m0s" "300"
    w1MachineA w1SpecA w1PMA w1Cluster rfl rfl rfl rfl (by decide) (by decide)
    (by decide) (by decide)

/-- C2: evaluation of the create flow at an input where the bidirectional
bind fails.  `newProvisionedMachineAndMachine` returns the `EncodingError`,
but `machineCmdCreate` discards it (machine.go:93 assigns `err` and never
checks it) and proceeds to call Create on nil pointers, which panics; the
operation does not fail with the `EncodingError` the claim requires. -/
theorem create_ignores_bind_error :
    newProvisionedMachineAndMachine badBindEnv "10.0.0.9" MasterRole "eth0" c2SSH =
      .error (.encodingError
        "bi-directional bind between machine and provisioned machine" "boom") ∧
    machineCmdCreate badBindEnv w1Store "10.0.0.9" "eth0" MasterRole 22 [] =
      (.panicked, []) := ⟨rfl, rfl⟩

/-! ## Phase trace lemmas -/

theorem resetEtcdSkipRemoveMember_trace (env : Env) (host : String) :
    (resetEtcdSkipRemoveMember env host).2 = [.cmd host etcdadmResetCmd] := by
  unfold resetEtcdSkipRemoveMember
  cases env.runCommand host etcdadmResetCmd <;> rfl

theorem etcdadmInitFromSnapshot_trace (env : Env) (rp host : String) :
    (etcdadmInitFromSnapshot env rp host).2 = [.cmd host (etcdadmInitCmd rp)] := by
  unfold etcdadmInitFromSnapshot
  cases env.runCommand host (etcdadmInitCmd rp) <;> rfl

theorem etcdadmJoin_trace (env : Env) (endpoint host : String) :
    (etcdadmJoin env endpoint host).2 = [.cmd host (etcdadmJoinCmd endpoint)] := by
  unfold etcdadmJoin
  cases env.runCommand host (etcdadmJoinCmd endpoint) <;> rfl

theorem etcdMemberFromMachine_trace (env : Env) (host : String) :
    (etcdMemberFromMachine env host).2 = [.cmd host etcdadmInfoCmd] := by
  unfold etcdMemberFromMachine
  cases env.runCommand host etcdadmInfoCmd with
  | error msg => rfl
  | ok stdOut =>
    dsimp only
    cases env.parseEtcdMember stdOut <;> rfl

theorem restartKubelet_trace (env : Env) (host : String) :
    (restartKubelet env host).2 = [.cmd host restartKubeletCmd] := by
  unfold restartKubelet
  cases env.runCommand host restartKubeletCmd <;> rfl

theorem sshMachineClientFromSSHConfig_events (env : Env) (store : Store)
    (cfg : Option SSHConfig) :
    ∀ e ∈ (sshMachineClientFromSSHConfig env store cfg).2, ∃ h, e = Event.mkClientEv h := by
  intro e he
  unfold sshMachineClientFromSSHConfig at he
  cases cfg with
  | none => simp at he
  | some c =>
    rcases hfind : store.secrets.find? (fun s => s.name = c.credentialSecretName)
        with _ | sec
    · simp only [hfind] at he
      simp at he
    · simp only [hfind] at he
      rcases hmk : env.mkClient c.host with msg | u
      · simp only [hmk] at he
        simp at he
        exact ⟨c.host, he⟩
      · simp only [hmk] at he
        simp at he
        exact ⟨c.host, he⟩

theorem sshMachineClientFromSSHConfig_ok (env : Env) (store : Store)
    (cfg : Option SSHConfig) (host : String) (evs : List Event)
    (h : sshMachineClientFromSSHConfig env store cfg = (.ok host, evs)) :
    ∃ c, cfg = some c ∧ host = c.host := by
  unfold sshMachineClientFromSSHConfig at h
  cases cfg with
  | none => simp at h
  | some c =>
    refine ⟨c, rfl, ?_⟩
    rcases hfind : store.secrets.find? (fun s => s.name = c.credentialSecretName)
        with _ | sec
    · simp only [hfind] at h
      simp at h
    · simp only [hfind] at h
      rcases hmk : env.mkClient c.host with msg | u
      · simp only [hmk] at h
        simp at h
      · simp only [hmk] at h
        simp only [Prod.mk.injEq] at h
        exact (Outcome.ok.inj h.1).symm

theorem buildMastersWithClient_events (env : Env) (store : Store) :
    ∀ ms : List Machine, ∀ e ∈ (buildMastersWithClient env store ms).2,
      ∃ h, e = Event.mkClientEv h := by
  intro ms
  induction ms with
  | nil => intro e he; simp [buildMastersWithClient] at he
  | cons m rest ih =>
    intro e he
    unfold buildMastersWithClient at he
    rcases hps : m.providerStatus with st | msg
    · simp only [hps] at he
      rcases hc : sshMachineClientFromSSHConfig env store st.sshConfig with ⟨oc, evsc⟩
      simp only [hc] at he
      have hevsc : ∀ e ∈ evsc, ∃ h, e = Event.mkClientEv h := by
        intro e' he'
        apply sshMachineClientFromSSHConfig_events env store st.sshConfig
        rw [hc]
        exact he'
      cases oc with
      | panicked => exact hevsc e he
      | err e' => exact hevsc e he
      | ok host =>
        rcases hb : buildMastersWithClient env store rest with ⟨ob, evs2⟩
        simp only [hb] at he
        have hevs2 : ∀ e ∈ evs2, ∃ h, e = Event.mkClientEv h := by
          intro e' he'
          apply ih
          rw [hb]
          exact he'
        cases ob <;> simp only at he <;> rcases List.mem_append.mp he with h1 | h2
        · exact hevsc e h1
        · exact hevs2 e h2
        · exact hevsc e h1
        · exact hevs2 e h2
        · exact hevsc e h1
        · exact hevs2 e h2
    · simp only [hps] at he
      simp at he

theorem buildMastersWithClient_ok_rel (env : Env) (store : Store) :
    ∀ (ms : List Machine) (mwcs : List MWC) (evs : List Event),
    buildMastersWithClient env store ms = (.ok mwcs, evs) →
    List.Forall₂ (fun m mwc => mwc.machine = m ∧ ∃ st c,
      m.providerStatus = .okp st ∧ st.sshConfig = some c ∧ mwc.host = c.host) ms mwcs := by
  intro ms
  induction ms with
  | nil =>
    intro mwcs evs h
    unfold buildMastersWithClient at h
    simp only [Prod.mk.injEq] at h
    rw [← Outcome.ok.inj h.1]
    exact List.Forall₂.nil
  | cons m rest ih =>
    intro mwcs evs h
    unfold buildMastersWithClient at h
    rcases hps : m.providerStatus with st | msg
    · simp only [hps] at h
      rcases hc : sshMachineClientFromSSHConfig env store st.sshConfig with ⟨oc, evsc⟩
      simp only [hc] at h
      cases oc with
      | panicked => simp at h
      | err e' => simp at h
      | ok host =>
        rcases hb : buildMastersWithClient env store rest with ⟨ob, evs2⟩
        simp only [hb] at h
        cases ob with
        | err e' => simp at h
        | panicked => simp at h
        | ok mwcs' =>
          simp only [Prod.mk.injEq] at h
          rw [← Outcome.ok.inj h.1]
          obtain ⟨c, hcfg, hhost⟩ :=
            sshMachineClientFromSSHConfig_ok env store st.sshConfig host evsc hc
          exact List.Forall₂.cons ⟨rfl, st, c, hps, hcfg, hhost⟩ (ih mwcs' evs2 hb)
    · simp only [hps] at h
      simp at h

theorem buildMastersWithClient_ok_of (env : Env) (store : Store) :
    ∀ ms : List Machine,
    (∀ m ∈ ms, ∃ st c, m.providerStatus = .okp st ∧ st.sshConfig = some c ∧
      (store.secrets.find? (fun s => s.name = c.credentialSecretName)).isSome ∧
      env.mkClient c.host = .ok ()) →
    ∃ mwcs evs, buildMastersWithClient env store ms = (.ok mwcs, evs) := by
  intro ms
  induction ms with
  | nil => intro _; exact ⟨[], [], rfl⟩
  | cons m rest ih =>
    intro hgood
    obtain ⟨st, c, hps, hcfg, hsec, hmk⟩ := hgood m (List.mem_cons_self m rest)
    obtain ⟨mwcs', evs2, hb⟩ := ih (fun x hx => hgood x (List.mem_cons_of_mem m hx))
    have hssh : sshMachineClientFromSSHConfig env store st.sshConfig =
        (.ok c.host, [.mkClientEv c.host]) := by
      rcases hfind : store.secrets.find? (fun s => s.name = c.credentialSecretName)
          with _ | sec
      · rw [hfind] at hsec; simp at hsec
      · unfold sshMachineClientFromSSHConfig
        simp only [hcfg, hfind, hmk]
    refine ⟨⟨m, c.host⟩ :: mwcs', [.mkClientEv c.host] ++ evs2, ?_⟩
    unfold buildMastersWithClient
    simp only [hps, hssh, hb]

theorem removeClusterEtcdMember_events (env : Env) (em : EtcdMember)
    (cl : Cluster) (k : Nat) :
    ∀ e ∈ (removeClusterEtcdMember env em cl k).2,
      e = Event.removeMember em ∨ ∃ k', e = Event.clusterStoreUpdate k' := by
  intro e he
  unfold removeClusterEtcdMember at he
  rcases hps : cl.providerStatus with cst | msg
  · simp only [hps] at he
    rcases hup : env.clusterUpdateStatus k with msg | u
    · simp only [hup] at he
      simp at he
      exact Or.inl he
    · simp only [hup] at he
      simp at he
      rcases he with h | h
      · exact Or.inl h
      · exact Or.inr ⟨k, h⟩
  · simp only [hps] at he
    simp at he

theorem insertClusterEtcdMember_events (env : Env) (em : EtcdMember)
    (cl : Cluster) (k : Nat) :
    ∀ e ∈ (insertClusterEtcdMember env em cl k).2,
      e = Event.insertMember em ∨ ∃ k', e = Event.clusterStoreUpdate k' := by
  intro e he
  unfold insertClusterEtcdMember at he
  rcases hps : cl.providerStatus with cst | msg
  · simp only [hps] at he
    rcases hup : env.clusterUpdateStatus k with msg | u
    · simp only [hup] at he
      simp at he
      exact Or.inl he
    · simp only [hup] at he
      simp at he
      rcases he with h | h
      · exact Or.inl h
      · exact Or.inr ⟨k, h⟩
  · simp only [hps] at he
    simp at he

theorem removeClusterEtcdMember_ok (env : Env) (em : EtcdMember) (cl : Cluster)
    (k : Nat) (p : Cluster × Nat) (evs : List Event)
    (h : removeClusterEtcdMember env em cl k = (.ok p, evs)) :
    (∃ cst, cl.providerStatus = .okp cst) ∧ env.clusterUpdateStatus k = .ok () ∧
      Event.removeMember em ∈ evs ∧ ∃ k'', Event.clusterStoreUpdate k'' ∈ evs := by
  unfold removeClusterEtcdMember at h
  rcases hps : cl.providerStatus with cst | msg
  · simp only [hps] at h
    rcases hup : env.clusterUpdateStatus k with msg | u
    · simp only [hup] at h
      simp at h
    · simp only [hup] at h
      simp only [Prod.mk.injEq] at h
      rw [← h.2]
      cases u
      exact ⟨⟨cst, rfl⟩, rfl, by simp, k, by simp⟩
  · simp only [hps] at h
    simp at h

theorem updateMachineEtcdMember_events (env : Env) (em : EtcdMember) (m : Machine) :
    ∀ e ∈ (updateMachineEtcdMember env em m).2, ∃ n, e = Event.machineStoreUpdate n := by
  intro e he
  unfold updateMachineEtcdMember at he
  rcases hps : m.providerStatus with st | msg
  · simp only [hps] at he
    rcases hup : env.machineUpdateStatus m.name with msg | u
    · simp only [hup] at he
      simp at he
    · simp only [hup] at he
      simp at he
      exact ⟨m.name, he⟩
  · simp only [hps] at he
    simp at he

theorem resetEtcdSkipRemoveMember_ok (env : Env) (host : String) (u : Unit)
    (evs : List Event) (h : resetEtcdSkipRemoveMember env host = (.ok u, evs)) :
    ∃ out, env.runCommand host etcdadmResetCmd = .ok out := by
  unfold resetEtcdSkipRemoveMember at h
  rcases hrc : env.runCommand host etcdadmResetCmd with msg | out
  · simp only [hrc] at h
    simp at h
  · exact ⟨out, rfl⟩

theorem resetPhase_events (env : Env) :
    ∀ (mwcs : List MWC) (cl : Cluster) (k : Nat),
    ∀ e ∈ (resetPhase env mwcs cl k).2,
      (∃ h, e = Event.cmd h etcdadmResetCmd) ∨ (∃ em, e = Event.removeMember em) ∨
        ∃ k', e = Event.clusterStoreUpdate k' := by
  intro mwcs
  induction mwcs with
  | nil => intro cl k e he; simp [resetPhase] at he
  | cons mwc rest ih =>
    intro cl k e he
    unfold resetPhase at he
    rcases hr : resetEtcdSkipRemoveMember env mwc.host with ⟨or, evs0⟩
    have hevs0 : evs0 = [.cmd mwc.host etcdadmResetCmd] := by
      have ht := resetEtcdSkipRemoveMember_trace env mwc.host
      rw [hr] at ht
      exact ht
    simp only [hr] at he
    cases or with
    | error e' =>
      simp only at he
      rw [hevs0] at he
      simp at he
      exact Or.inl ⟨mwc.host, he⟩
    | ok u =>
      rcases hps : mwc.machine.providerStatus with st | msg
      · simp only [hps] at he
        rcases hem : st.etcdMember with _ | em
        · simp only [hem] at he
          rw [hevs0] at he
          simp at he
          exact Or.inl ⟨mwc.host, he⟩
        · simp only [hem] at he
          rcases hrm : removeClusterEtcdMember env em cl k with ⟨orm, evsr⟩
          simp only [hrm] at he
          cases orm with
          | error e' =>
            simp only at he
            rw [hevs0] at he
            rcases List.mem_append.mp he with h1 | h2
            · simp at h1
              exact Or.inl ⟨mwc.host, h1⟩
            · rcases removeClusterEtcdMember_events env em cl k e
                  (by rw [hrm]; exact h2) with h | h
              · exact Or.inr (Or.inl ⟨em, h⟩)
              · exact Or.inr (Or.inr h)
          | ok p =>
            obtain ⟨cl', k'⟩ := p
            simp only at he
            rcases hrp : resetPhase env rest cl' k' with ⟨orp, evs2⟩
            simp only [hrp] at he
            rw [hevs0] at he
            rcases List.mem_append.mp he with h1 | h2
            · rcases List.mem_append.mp h1 with h3 | h4
              · simp at h3
                exact Or.inl ⟨mwc.host, h3⟩
              · rcases removeClusterEtcdMember_events env em cl k e
                    (by rw [hrm]; exact h4) with h | h
                · exact Or.inr (Or.inl ⟨em, h⟩)
                · exact Or.inr (Or.inr h)
            · exact ih cl' k' e (by rw [hrp]; exact h2)
      · simp only [hps] at he
        rw [hevs0] at he
        simp at he
        exact Or.inl ⟨mwc.host, he⟩

theorem resetPhase_ok_facts (env : Env) :
    ∀ (mwcs : List MWC) (cl : Cluster) (k : Nat) (cl' : Cluster) (k' : Nat)
      (evs : List Event),
    resetPhase env mwcs cl k = (.ok (cl', k'), evs) →
    ∀ mwc ∈ mwcs,
      (∃ out, env.runCommand mwc.host etcdadmResetCmd = .ok out) ∧
      ∃ st em, mwc.machine.providerStatus = .okp st ∧ st.etcdMember = some em ∧
        Event.cmd mwc.host etcdadmResetCmd ∈ evs ∧ Event.removeMember em ∈ evs ∧
        ∃ k'', Event.clusterStoreUpdate k'' ∈ evs := by
  intro mwcs
  induction mwcs with
  | nil => intro cl k cl' k' evs _ mwc hm; simp at hm
  | cons mwc0 rest ih =>
    intro cl k cl' k' evs h mwc hm
    unfold resetPhase at h
    rcases hr : resetEtcdSkipRemoveMember env mwc0.host with ⟨or, evs0⟩
    have hevs0 : evs0 = [.cmd mwc0.host etcdadmResetCmd] := by
      have ht := resetEtcdSkipRemoveMember_trace env mwc0.host
      rw [hr] at ht
      exact ht
    simp only [hr] at h
    cases or with
    | error e' => simp at h
    | ok u =>
      rcases hps : mwc0.machine.providerStatus with st | msg
      · simp only [hps] at h
        rcases hem : st.etcdMember with _ | em
        · simp only [hem] at h
          simp at h
        · simp only [hem] at h
          rcases hrm : removeClusterEtcdMember env em cl k with ⟨orm, evsr⟩
          simp only [hrm] at h
          cases orm with
          | error e' => simp at h
          | ok p =>
            obtain ⟨cl1, k1⟩ := p
            simp only at h
            rcases hrp : resetPhase env rest cl1 k1 with ⟨orp, evs2⟩
            simp only [hrp] at h
            simp only [Prod.mk.injEq] at h
            obtain ⟨ho, hevs⟩ := h
            obtain ⟨hcst, hup, hmem, k2, hmem2⟩ :=
              removeClusterEtcdMember_ok env em cl k (cl1, k1) evsr hrm
            rcases List.mem_cons.mp hm with rfl | hm'
            · refine ⟨resetEtcdSkipRemoveMember_ok env mwc.host u evs0 hr, st, em,
                hps, hem, ?_, ?_, k2, ?_⟩
              · rw [← hevs, hevs0]
                simp
              · rw [← hevs]
                refine List.mem_append.mpr (Or.inl (List.mem_append.mpr (Or.inr hmem)))
              · rw [← hevs]
                exact List.mem_append.mpr (Or.inl (List.mem_append.mpr (Or.inr hmem2)))
            · have hrec : resetPhase env rest cl1 k1 = (.ok (cl', k'), evs2) := by
                rw [hrp, ho]
              obtain ⟨hout, st', em', hps', hem', hin1, hin2, k3, hin3⟩ :=
                ih cl1 k1 cl' k' evs2 hrec mwc hm'
              refine ⟨hout, st', em', hps', hem', ?_, ?_, k3, ?_⟩
              · rw [← hevs]
                exact List.mem_append.mpr (Or.inr hin1)
              · rw [← hevs]
                exact List.mem_append.mpr (Or.inr hin2)
              · rw [← hevs]
                exact List.mem_append.mpr (Or.inr hin3)
      · simp only [hps] at h
        simp at h

theorem resetPhase_cons_ok (env : Env) (mwc : MWC) (rest : List MWC)
    (cl : Cluster) (k : Nat) (cl' : Cluster) (k' : Nat) (evs : List Event)
    (h : resetPhase env (mwc :: rest) cl k = (.ok (cl', k'), evs)) :
    (∃ cst, cl.providerStatus = .okp cst) ∧ env.clusterUpdateStatus k = .ok () := by
  unfold resetPhase at h
  rcases hr : resetEtcdSkipRemoveMember env mwc.host with ⟨or, evs0⟩
  simp only [hr] at h
  cases or with
  | error e' => simp at h
  | ok u =>
    rcases hps : mwc.machine.providerStatus with st | msg
    · simp only [hps] at h
      rcases hem : st.etcdMember with _ | em
      · simp only [hem] at h
        simp at h
      · simp only [hem] at h
        rcases hrm : removeClusterEtcdMember env em cl k with ⟨orm, evsr⟩
        simp only [hrm] at h
        cases orm with
        | error e' => simp at h
        | ok p =>
          obtain ⟨hcst, hup, _, _⟩ := removeClusterEtcdMember_ok env em cl k p evsr hrm
          exact ⟨hcst, hup⟩
    · simp only [hps] at h
      simp at h

theorem resetPhase_first_panic (env : Env) (mwc : MWC) (rest : List MWC)
    (cl : Cluster) (k : Nat) (st : SPMachineStatus)
    (hro : ∃ out, env.runCommand mwc.host etcdadmResetCmd = .ok out)
    (hst : mwc.machine.providerStatus = .okp st)
    (hem : st.etcdMember = none) :
    (resetPhase env (mwc :: rest) cl k).1 = .panicked := by
  obtain ⟨out, hout⟩ := hro
  have hr : resetEtcdSkipRemoveMember env mwc.host =
      (.ok (), [.cmd mwc.host etcdadmResetCmd]) := by
    unfold resetEtcdSkipRemoveMember
    rw [hout]
  unfold resetPhase
  simp only [hr, hst, hem]

theorem writeEtcdSnapshot_events (env : Env) (lp rp host : String) :
    ∀ e ∈ (writeEtcdSnapshot env lp rp host).2,
      e = Event.readLocalFileEv lp ∨ e = Event.writeFileEv host rp := by
  intro e he
  unfold writeEtcdSnapshot at he
  rcases h1 : env.readLocalFile lp with m | s
  · simp only [h1] at he
    simp at he
    exact Or.inl he
  · simp only [h1] at he
    rcases h2 : env.writeFile host rp with m | u
    · simp only [h2] at he
      simp at he
      exact he
    · simp only [h2] at he
      simp at he
      exact he

theorem writeSecretToMachine_events (env : Env) (hst : String) (secret : Secret)
    (ck kk cp kp : String) :
    ∀ e ∈ (writeSecretToMachine env hst secret ck kk cp kp).2,
      (∃ h p, e = Event.mkdirEv h p) ∨ (∃ h p, e = Event.writeFileEv h p) ∨
        ∃ h a b, e = Event.moveEv h a b := by
  intro e he
  unfold writeSecretToMachine at he
  repeat' split at he
  all_goals simp at he
  all_goals aesop

theorem writeCAPhase_events (env : Env) (sec : Secret) :
    ∀ mwcs : List MWC, ∀ e ∈ (writeCAPhase env sec mwcs).2,
      (∃ h p, e = Event.mkdirEv h p) ∨ (∃ h p, e = Event.writeFileEv h p) ∨
        ∃ h a b, e = Event.moveEv h a b := by
  intro mwcs
  induction mwcs with
  | nil => intro e he; simp [writeCAPhase] at he
  | cons mwc rest ih =>
    intro e he
    unfold writeCAPhase at he
    rcases hw : writeSecretToMachine env mwc.host sec "tls.crt" "tls.key"
        "/etc/etcd/pki/ca.crt" "/etc/etcd/pki/ca.key" with ⟨ow, evsw⟩
    simp only [hw] at he
    cases ow with
    | error e' =>
      simp only at he
      exact writeSecretToMachine_events env mwc.host sec _ _ _ _ e (by rw [hw]; exact he)
    | ok u =>
      rcases hrest : writeCAPhase env sec rest with ⟨orest, evs2⟩
      simp only [hrest] at he
      rcases List.mem_append.mp he with h1 | h2
      · exact writeSecretToMachine_events env mwc.host sec _ _ _ _ e (by rw [hw]; exact h1)
      · exact ih e (by rw [hrest]; exact h2)

theorem joinPhase_events (env : Env) (endpoint : String) :
    ∀ (mwcs : List MWC) (cl : Cluster) (k : Nat),
    ∀ e ∈ (joinPhase env endpoint mwcs cl k).2,
      (∃ mwc ∈ mwcs, e = Event.cmd mwc.host (etcdadmJoinCmd endpoint)) ∨
      (∃ mwc ∈ mwcs, e = Event.cmd mwc.host etcdadmInfoCmd) ∨
      (∃ n, e = Event.machineStoreUpdate n) ∨ (∃ em, e = Event.insertMember em) ∨
        ∃ k', e = Event.clusterStoreUpdate k' := by
  intro mwcs
  induction mwcs with
  | nil => intro cl k e he; simp [joinPhase] at he
  | cons mwc0 rest ih =>
    intro cl k e he
    have weaken :
        (∃ mwc ∈ rest, e = Event.cmd mwc.host (etcdadmJoinCmd endpoint)) ∨
        (∃ mwc ∈ rest, e = Event.cmd mwc.host etcdadmInfoCmd) ∨
        (∃ n, e = Event.machineStoreUpdate n) ∨ (∃ em, e = Event.insertMember em) ∨
          (∃ k', e = Event.clusterStoreUpdate k') →
        (∃ mwc ∈ mwc0 :: rest, e = Event.cmd mwc.host (etcdadmJoinCmd endpoint)) ∨
        (∃ mwc ∈ mwc0 :: rest, e = Event.cmd mwc.host etcdadmInfoCmd) ∨
        (∃ n, e = Event.machineStoreUpdate n) ∨ (∃ em, e = Event.insertMember em) ∨
          ∃ k', e = Event.clusterStoreUpdate k' := by
      rintro (⟨m, hm, hme⟩ | ⟨m, hm, hme⟩ | h | h | h)
      · exact Or.inl ⟨m, List.mem_cons_of_mem mwc0 hm, hme⟩
      · exact Or.inr (Or.inl ⟨m, List.mem_cons_of_mem mwc0 hm, hme⟩)
      · exact Or.inr (Or.inr (Or.inl h))
      · exact Or.inr (Or.inr (Or.inr (Or.inl h)))
      · exact Or.inr (Or.inr (Or.inr (Or.inr h)))
    unfold joinPhase at he
    rcases hj : etcdadmJoin env endpoint mwc0.host with ⟨oj, evs0⟩
    have hevs0 : evs0 = [.cmd mwc0.host (etcdadmJoinCmd endpoint)] := by
      have ht := etcdadmJoin_trace env endpoint mwc0.host
      rw [hj] at ht
      exact ht
    simp only [hj] at he
    cases oj with
    | error e' =>
      simp only at he
      rw [hevs0] at he
      simp at he
      exact Or.inl ⟨mwc0, List.mem_cons_self mwc0 rest, he⟩
    | ok u =>
      rcases hi : etcdMemberFromMachine env mwc0.host with ⟨oi, evs1⟩
      have hevs1 : evs1 = [.cmd mwc0.host etcdadmInfoCmd] := by
        have ht := etcdMemberFromMachine_trace env mwc0.host
        rw [hi] at ht
        exact ht
      simp only [hi] at he
      cases oi with
      | error e' =>
        simp only at he
        rw [hevs0, hevs1] at he
        simp at he
        rcases he with h | h
        · exact Or.inl ⟨mwc0, List.mem_cons_self mwc0 rest, h⟩
        · exact Or.inr (Or.inl ⟨mwc0, List.mem_cons_self mwc0 rest, h⟩)
      | ok em =>
        rcases hu : updateMachineEtcdMember env em mwc0.machine with ⟨ou, evs2⟩
        have hevs2 : ∀ e' ∈ evs2, ∃ n, e' = Event.machineStoreUpdate n := by
          intro e' he'
          exact updateMachineEtcdMember_events env em mwc0.machine e' (by rw [hu]; exact he')
        simp only [hu] at he
        cases ou with
        | error e' =>
          simp only at he
          rw [hevs0, hevs1] at he
          rcases List.mem_append.mp he with h1 | h2
          · rcases List.mem_append.mp h1 with h3 | h4
            · simp at h3
              exact Or.inl ⟨mwc0, List.mem_cons_self mwc0 rest, h3⟩
            · simp at h4
              exact Or.inr (Or.inl ⟨mwc0, List.mem_cons_self mwc0 rest, h4⟩)
          · exact Or.inr (Or.inr (Or.inl (hevs2 e h2)))
        | ok m' =>
          rcases hins : insertClusterEtcdMember env em cl k with ⟨oins, evs3⟩
          have hevs3 : ∀ e' ∈ evs3,
              e' = Event.insertMember em ∨ ∃ k', e' = Event.clusterStoreUpdate k' := by
            intro e' he'
            exact insertClusterEtcdMember_events env em cl k e' (by rw [hins]; exact he')
          simp only [hins] at he
          cases oins with
          | error e' =>
            simp only at he
            rw [hevs0, hevs1] at he
            rcases List.mem_append.mp he with h1 | h2
            · rcases List.mem_append.mp h1 with h3 | h4
              · rcases List.mem_append.mp h3 with h5 | h6
                · simp at h5
                  exact Or.inl ⟨mwc0, List.mem_cons_self mwc0 rest, h5⟩
                · simp at h6
                  exact Or.inr (Or.inl ⟨mwc0, List.mem_cons_self mwc0 rest, h6⟩)
              · exact Or.inr (Or.inr (Or.inl (hevs2 e h4)))
            · rcases hevs3 e h2 with h | h
              · exact Or.inr (Or.inr (Or.inr (Or.inl ⟨em, h⟩)))
              · exact Or.inr (Or.inr (Or.inr (Or.inr h)))
          | ok p =>
            obtain ⟨cl', k'⟩ := p
            simp only at he
            rcases hrec : joinPhase env endpoint rest cl' k' with ⟨orec, evs4⟩
            simp only [hrec] at he
            rw [hevs0, hevs1] at he
            rcases List.mem_append.mp he with h1 | h2
            · rcases List.mem_append.mp h1 with h3 | h4
              · rcases List.mem_append.mp h3 with h5 | h6
                · rcases List.mem_append.mp h5 with h7 | h8
                  · simp at h7
                    exact Or.inl ⟨mwc0, List.mem_cons_self mwc0 rest, h7⟩
                  · simp at h8
                    exact Or.inr (Or.inl ⟨mwc0, List.mem_cons_self mwc0 rest, h8⟩)
                · exact Or.inr (Or.inr (Or.inl (hevs2 e h6)))
              · rcases hevs3 e h4 with h | h
                · exact Or.inr (Or.inr (Or.inr (Or.inl ⟨em, h⟩)))
                · exact Or.inr (Or.inr (Or.inr (Or.inr h)))
            · exact weaken (ih cl' k' e (by rw [hrec]; exact h2))

theorem joinPhase_ok_filterMap (env : Env) (endpoint : String) :
    ∀ (mwcs : List MWC) (cl : Cluster) (k : Nat) (p : Cluster × Nat)
      (evs : List Event),
    joinPhase env endpoint mwcs cl k = (.ok p, evs) →
    evs.filterMap joinEventHost = mwcs.map (fun mwc => mwc.host) := by
  intro mwcs
  induction mwcs with
  | nil =>
    intro cl k p evs h
    unfold joinPhase at h
    simp only [Prod.mk.injEq] at h
    rw [← h.2]
    rfl
  | cons mwc0 rest ih =>
    intro cl k p evs h
    unfold joinPhase at h
    rcases hj : etcdadmJoin env endpoint mwc0.host with ⟨oj, evs0⟩
    have hevs0 : evs0 = [.cmd mwc0.host (etcdadmJoinCmd endpoint)] := by
      have ht := etcdadmJoin_trace env endpoint mwc0.host
      rw [hj] at ht
      exact ht
    simp only [hj] at h
    cases oj with
    | error e' => simp at h
    | ok u =>
      rcases hi : etcdMemberFromMachine env mwc0.host with ⟨oi, evs1⟩
      have hevs1 : evs1 = [.cmd mwc0.host etcdadmInfoCmd] := by
        have ht := etcdMemberFromMachine_trace env mwc0.host
        rw [hi] at ht
        exact ht
      simp only [hi] at h
      cases oi with
      | error e' => simp at h
      | ok em =>
        rcases hu : updateMachineEtcdMember env em mwc0.machine with ⟨ou, evs2⟩
        simp only [hu] at h
        cases ou with
        | error e' => simp at h
        | ok m' =>
          rcases hins : insertClusterEtcdMember env em cl k with ⟨oins, evs3⟩
          simp only [hins] at h
          cases oins with
          | error e' => simp at h
          | ok q =>
            obtain ⟨cl', k'⟩ := q
            simp only at h
            rcases hrec : joinPhase env endpoint rest cl' k' with ⟨orec, evs4⟩
            simp only [hrec] at h
            simp only [Prod.mk.injEq] at h
            obtain ⟨ho, hevs⟩ := h
            have h2 : evs2.filterMap joinEventHost = [] := by
              apply List.filterMap_eq_nil.mpr
              intro e' he'
              obtain ⟨n, hn⟩ := updateMachineEtcdMember_events env em mwc0.machine e'
                (by rw [hu]; exact he')
              rw [hn]
              rfl
            have h3 : evs3.filterMap joinEventHost = [] := by
              apply List.filterMap_eq_nil.mpr
              intro e' he'
              rcases insertClusterEtcdMember_events env em cl k e'
                  (by rw [hins]; exact he') with hn | ⟨k'', hn⟩ <;> rw [hn] <;> rfl
            have h4 : evs4.filterMap joinEventHost = rest.map (fun mwc => mwc.host) := by
              apply ih cl' k'
              rw [hrec, ho]
            rw [← hevs, hevs0, hevs1]
            simp only [List.filterMap_append, h2, h3, h4]
            have hj0 : ([Event.cmd mwc0.host (etcdadmJoinCmd endpoint)]).filterMap
                joinEventHost = [mwc0.host] := by
              simp [joinEventHost, isJoinCmdStr_joinCmd]
            have hj1 : ([Event.cmd mwc0.host etcdadmInfoCmd]).filterMap
                joinEventHost = [] := by
              simp [joinEventHost, isJoinCmdStr_infoCmd]
            rw [hj0, hj1]
            simp

theorem restartKubeletPhase_events (env : Env) :
    ∀ mwcs : List MWC, ∀ e ∈ restartKubeletPhase env mwcs,
      (∃ mwc ∈ mwcs, e = Event.cmd mwc.host restartKubeletCmd) ∨
        ∃ mwc ∈ mwcs, e = Event.warn mwc.machine.name := by
  intro mwcs
  induction mwcs with
  | nil => intro e he; simp [restartKubeletPhase] at he
  | cons mwc0 rest ih =>
    intro e he
    unfold restartKubeletPhase at he
    rcases hk : restartKubelet env mwc0.host with ⟨ok0, evs0⟩
    have hevs0 : evs0 = [.cmd mwc0.host restartKubeletCmd] := by
      have ht := restartKubelet_trace env mwc0.host
      rw [hk] at ht
      exact ht
    simp only [hk] at he
    have hrest :
        e ∈ restartKubeletPhase env rest →
        (∃ mwc ∈ mwc0 :: rest, e = Event.cmd mwc.host restartKubeletCmd) ∨
          ∃ mwc ∈ mwc0 :: rest, e = Event.warn mwc.machine.name := by
      intro hmem
      rcases ih e hmem with ⟨m, hm, hme⟩ | ⟨m, hm, hme⟩
      · exact Or.inl ⟨m, List.mem_cons_of_mem mwc0 hm, hme⟩
      · exact Or.inr ⟨m, List.mem_cons_of_mem mwc0 hm, hme⟩
    cases ok0 with
    | error e' =>
      simp only at he
      rw [hevs0] at he
      rcases List.mem_append.mp he with h1 | h2
      · simp at h1
        exact Or.inl ⟨mwc0, List.mem_cons_self mwc0 rest, h1⟩
      · rcases List.mem_cons.mp h2 with h3 | h4
        · exact Or.inr ⟨mwc0, List.mem_cons_self mwc0 rest, h3⟩
        · exact hrest h4
    | ok u =>
      simp only at he
      rw [hevs0] at he
      rcases List.mem_append.mp he with h1 | h2
      · simp at h1
        exact Or.inl ⟨mwc0, List.mem_cons_self mwc0 rest, h1⟩
      · exact hrest h2

theorem restartKubeletPhase_warn (env : Env) :
    ∀ mwcs : List MWC, ∀ mwc ∈ mwcs, ∀ msg : String,
    env.runCommand mwc.host restartKubeletCmd = .error msg →
    Event.warn mwc.machine.name ∈ restartKubeletPhase env mwcs := by
  intro mwcs
  induction mwcs with
  | nil => intro mwc hm; simp at hm
  | cons mwc0 rest ih =>
    intro mwc hm msg hmsg
    unfold restartKubeletPhase
    rcases List.mem_cons.mp hm with rfl | hm'
    · have hk : restartKubelet env mwc.host =
          (.error (.remoteFailed restartKubeletCmd msg), [.cmd mwc.host restartKubeletCmd]) := by
        unfold restartKubelet
        rw [hmsg]
      rw [hk]
      simp
    · rcases hk : restartKubelet env mwc0.host with ⟨ok0, evs0⟩
      cases ok0 with
      | error e' =>
        simp only
        refine List.mem_append.mpr (Or.inr ?_)
        exact List.mem_cons.mpr (Or.inr (ih mwc hm' msg hmsg))
      | ok u =>
        simp only
        exact List.mem_append.mpr (Or.inr (ih mwc hm' msg hmsg))

theorem restartKubeletPhase_cmd_mem (env : Env) :
    ∀ mwcs : List MWC, ∀ mwc ∈ mwcs,
    Event.cmd mwc.host restartKubeletCmd ∈ restartKubeletPhase env mwcs := by
  intro mwcs
  induction mwcs with
  | nil => intro mwc hm; simp at hm
  | cons mwc0 rest ih =>
    intro mwc hm
    unfold restartKubeletPhase
    rcases hk : restartKubelet env mwc0.host with ⟨ok0, evs0⟩
    have hevs0 : evs0 = [.cmd mwc0.host restartKubeletCmd] := by
      have ht := restartKubelet_trace env mwc0.host
      rw [hk] at ht
      exact ht
    rcases List.mem_cons.mp hm with rfl | hm'
    · cases ok0 with
      | error e' =>
        simp only
        rw [hevs0]
        simp
      | ok u =>
        simp only
        rw [hevs0]
        simp
    · cases ok0 with
      | error e' =>
        simp only
        refine List.mem_append.mpr (Or.inr ?_)
        exact List.mem_cons.mpr (Or.inr (ih mwc hm'))
      | ok u =>
        simp only
        exact List.mem_append.mpr (Or.inr (ih mwc hm'))

/-! ## Index lemmas -/

theorem exists_getElem_lt_of_mem_prefix {α : Type} {pre suf : List α} {e : α}
    (he : e ∈ pre) {j : Nat} (hj : pre.length ≤ j) :
    ∃ i, i < j ∧ (pre ++ suf)[i]? = some e := by
  obtain ⟨n, hn⟩ := List.getElem?_of_mem he
  have hlt : n < pre.length := (List.getElem?_eq_some.mp hn).1
  exact ⟨n, lt_of_lt_of_le hlt hj, by rw [List.getElem?_append_left hlt]; exact hn⟩

theorem length_le_of_getElem?_append {α : Type} {pre suf : List α} {j : Nat} {e : α}
    (h : (pre ++ suf)[j]? = some e) (hne : e ∉ pre) : pre.length ≤ j := by
  by_contra hlt
  push_neg at hlt
  rw [List.getElem?_append_left hlt] at h
  exact hne (List.getElem?_mem h)

theorem forall₂_mem_left {α β : Type} {R : α → β → Prop} :
    ∀ {ms : List α} {mwcs : List β}, List.Forall₂ R ms mwcs →
    ∀ m ∈ ms, ∃ mwc ∈ mwcs, R m mwc := by
  intro ms mwcs h
  induction h with
  | nil => intro m hm; simp at hm
  | @cons a b ls bs hR hrest ih =>
    intro m hm
    rcases List.mem_cons.mp hm with rfl | hm'
    · exact ⟨b, List.mem_cons_self b bs, hR⟩
    · obtain ⟨mwc, hmem, hRm⟩ := ih m hm'
      exact ⟨mwc, List.mem_cons_of_mem b hmem, hRm⟩

theorem writeEtcdSnapshot_ok_trace (env : Env) (lp rp host : String) (u : Unit)
    (evs : List Event) (h : writeEtcdSnapshot env lp rp host = (.ok u, evs)) :
    evs = [.readLocalFileEv lp, .writeFileEv host rp] := by
  unfold writeEtcdSnapshot at h
  rcases h1 : env.readLocalFile lp with m | s
  · simp only [h1] at h
    simp at h
  · simp only [h1] at h
    rcases h2 : env.writeFile host rp with m | u'
    · simp only [h2] at h
      simp at h
    · simp only [h2] at h
      simp only [Prod.mk.injEq] at h
      exact h.2.symm

theorem init_index_lemma (rp x lp fhost : String) (tail : List Event) (j : Nat)
    (htail : ∀ y : String, Event.cmd y (etcdadmInitCmd rp) ∉ tail)
    (hj : (Event.readLocalFileEv lp :: Event.writeFileEv fhost rp ::
        Event.cmd fhost (etcdadmInitCmd rp) :: tail)[j]? =
      some (.cmd x (etcdadmInitCmd rp))) :
    x = fhost ∧ 1 < j ∧
    (Event.readLocalFileEv lp :: Event.writeFileEv fhost rp ::
        Event.cmd fhost (etcdadmInitCmd rp) :: tail)[1]? =
      some (.writeFileEv fhost rp) := by
  rcases j with _ | _ | _ | j'
  · simp at hj
  · simp at hj
  · simp at hj
    exact ⟨hj.symm, by omega, by simp⟩
  · exfalso
    have hmem : tail[j']? = some (.cmd x (etcdadmInitCmd rp)) := by
      simpa using hj
    exact htail x (List.getElem?_mem hmem)

theorem no_init_machineUpd (rp : String) (env : Env) (em : EtcdMember) (m : Machine) :
    ∀ y : String, Event.cmd y (etcdadmInitCmd rp) ∉ (updateMachineEtcdMember env em m).2 := by
  intro y hy
  obtain ⟨n, hn⟩ := updateMachineEtcdMember_events env em m _ hy
  simp at hn

theorem no_init_insert (rp : String) (env : Env) (em : EtcdMember) (cl : Cluster) (k : Nat) :
    ∀ y : String, Event.cmd y (etcdadmInitCmd rp) ∉ (insertClusterEtcdMember env em cl k).2 := by
  intro y hy
  rcases insertClusterEtcdMember_events env em cl k _ hy with hn | ⟨k', hn⟩ <;> simp at hn

theorem no_init_join (rp endpoint : String) (env : Env) (mwcs : List MWC)
    (cl : Cluster) (k : Nat) :
    ∀ y : String, Event.cmd y (etcdadmInitCmd rp) ∉ (joinPhase env endpoint mwcs cl k).2 := by
  intro y hy
  rcases joinPhase_events env endpoint mwcs cl k _ hy with
    ⟨mwc, _, hn⟩ | ⟨mwc, _, hn⟩ | ⟨n, hn⟩ | ⟨em, hn⟩ | ⟨k', hn⟩
  · simp at hn
    exact etcdadmJoinCmd_ne_initCmd endpoint rp hn.2.symm
  · simp at hn
    exact etcdadmInfoCmd_ne_initCmd rp hn.2.symm
  · simp at hn
  · simp at hn
  · simp at hn

theorem no_init_kubelet (rp : String) (env : Env) (mwcs : List MWC) :
    ∀ y : String, Event.cmd y (etcdadmInitCmd rp) ∉ restartKubeletPhase env mwcs := by
  intro y hy
  rcases restartKubeletPhase_events env mwcs _ hy with ⟨mwc, _, hn⟩ | ⟨mwc, _, hn⟩
  · simp at hn
    exact restartKubeletCmd_ne_initCmd rp hn.2.symm
  · simp at hn

theorem no_init_info (rp host : String) :
    ∀ y : String,
      Event.cmd y (etcdadmInitCmd rp) ∉ ([Event.cmd host etcdadmInfoCmd] : List Event) := by
  intro y hy
  simp at hy
  exact etcdadmInfoCmd_ne_initCmd rp hy.2.symm

theorem seedAndJoin_init (env : Env) (lp rp : String) (f : MWC) (o : List MWC)
    (cl1 : Cluster) (k1 : Nat) :
    ∀ (j : Nat) (x : String),
    (recoverEtcdSeedAndJoin env lp rp f o cl1 k1).2[j]? =
      some (.cmd x (etcdadmInitCmd rp)) →
    x = f.host ∧ 1 < j ∧
      (recoverEtcdSeedAndJoin env lp rp f o cl1 k1).2[1]? =
        some (.writeFileEv f.host rp) := by
  intro j x hj
  unfold recoverEtcdSeedAndJoin at hj ⊢
  rcases h4 : writeEtcdSnapshot env lp rp f.host with ⟨o4, evs4⟩
  simp only [h4] at hj ⊢
  cases o4 with
  | error e' =>
    exfalso
    simp only at hj
    have hmem := List.getElem?_mem hj
    rcases writeEtcdSnapshot_events env lp rp f.host _ (by rw [h4]; exact hmem)
        with h | h <;> simp at h
  | ok u =>
    have hevs4 : evs4 = [.readLocalFileEv lp, .writeFileEv f.host rp] :=
      writeEtcdSnapshot_ok_trace env lp rp f.host u evs4 h4
    rcases h5 : etcdadmInitFromSnapshot env rp f.host with ⟨o5, evs5⟩
    have hevs5 : evs5 = [.cmd f.host (etcdadmInitCmd rp)] := by
      have ht := etcdadmInitFromSnapshot_trace env rp f.host
      rw [h5] at ht
      exact ht
    simp only [h5] at hj ⊢
    cases o5 with
    | error e' =>
      simp only at hj ⊢
      rw [hevs4, hevs5] at hj ⊢
      exact init_index_lemma rp x lp f.host [] j (by intro y hy; simp at hy) hj
    | ok u5 =>
      rcases h6 : etcdMemberFromMachine env f.host with ⟨o6, evs6⟩
      have hevs6 : evs6 = [.cmd f.host etcdadmInfoCmd] := by
        have ht := etcdMemberFromMachine_trace env f.host
        rw [h6] at ht
        exact ht
      have htail6 : ∀ y : String, Event.cmd y (etcdadmInitCmd rp) ∉ evs6 := by
        rw [hevs6]
        exact no_init_info rp f.host
      simp only [h6] at hj ⊢
      cases o6 with
      | error e' =>
        simp only at hj ⊢
        rw [hevs4, hevs5] at hj ⊢
        exact init_index_lemma rp x lp f.host evs6 j htail6 hj
      | ok em =>
        rcases h7 : updateMachineEtcdMember env em f.machine with ⟨o7, evs7⟩
        have htail7 : ∀ y : String, Event.cmd y (etcdadmInitCmd rp) ∉ evs7 := by
          intro y hy
          exact no_init_machineUpd rp env em f.machine y (by rw [h7]; exact hy)
        simp only [h7] at hj ⊢
        cases o7 with
        | error e' =>
          simp only at hj ⊢
          rw [hevs4, hevs5] at hj ⊢
          refine init_index_lemma rp x lp f.host (evs6 ++ evs7) j ?_ hj
          intro y hy
          rcases List.mem_append.mp hy with h | h
          · exact htail6 y h
          · exact htail7 y h
        | ok m7 =>
          rcases h8 : insertClusterEtcdMember env em cl1 k1 with ⟨o8, evs8⟩
          have htail8 : ∀ y : String, Event.cmd y (etcdadmInitCmd rp) ∉ evs8 := by
            intro y hy
            exact no_init_insert rp env em cl1 k1 y (by rw [h8]; exact hy)
          simp only [h8] at hj ⊢
          cases o8 with
          | error e' =>
            simp only at hj ⊢
            rw [hevs4, hevs5] at hj ⊢
            refine init_index_lemma rp x lp f.host ((evs6 ++ evs7) ++ evs8) j ?_ hj
            intro y hy
            rcases List.mem_append.mp hy with h | h
            · rcases List.mem_append.mp h with h' | h'
              · exact htail6 y h'
              · exact htail7 y h'
            · exact htail8 y h
          | ok p =>
            obtain ⟨cl2, k2⟩ := p
            simp only at hj ⊢
            rcases hurls : em.clientURLs with _ | ⟨endpoint, rest'⟩
            · simp only [hurls] at hj ⊢
              rw [hevs4, hevs5] at hj ⊢
              refine init_index_lemma rp x lp f.host ((evs6 ++ evs7) ++ evs8) j ?_ hj
              intro y hy
              rcases List.mem_append.mp hy with h | h
              · rcases List.mem_append.mp h with h' | h'
                · exact htail6 y h'
                · exact htail7 y h'
              · exact htail8 y h
            · simp only [hurls] at hj ⊢
              rcases h9 : joinPhase env endpoint o cl2 k2 with ⟨o9, evs9⟩
              have htail9 : ∀ y : String, Event.cmd y (etcdadmInitCmd rp) ∉ evs9 := by
                intro y hy
                exact no_init_join rp endpoint env o cl2 k2 y (by rw [h9]; exact hy)
              simp only [h9] at hj ⊢
              cases o9 with
              | error e' =>
                simp only at hj ⊢
                rw [hevs4, hevs5] at hj ⊢
                refine init_index_lemma rp x lp f.host (((evs6 ++ evs7) ++ evs8) ++ evs9) j ?_ hj
                intro y hy
                rcases List.mem_append.mp hy with h | h
                · rcases List.mem_append.mp h with h' | h'
                  · rcases List.mem_append.mp h' with h'' | h''
                    · exact htail6 y h''
                    · exact htail7 y h''
                  · exact htail8 y h'
                · exact htail9 y h
              | ok q =>
                obtain ⟨cl3, k3⟩ := q
                simp only at hj ⊢
                rw [hevs4, hevs5] at hj ⊢
                refine init_index_lemma rp x lp f.host
                  ((((evs6 ++ evs7) ++ evs8) ++ evs9) ++
                    restartKubeletPhase env (f :: o)) j ?_ hj
                intro y hy
                rcases List.mem_append.mp hy with h | h
                · rcases List.mem_append.mp h with h' | h'
                  · rcases List.mem_append.mp h' with h'' | h''
                    · rcases List.mem_append.mp h'' with h3 | h3
                      · exact htail6 y h3
                      · exact htail7 y h3
                    · exact htail8 y h''
                  · exact htail9 y h'
                · exact no_init_kubelet rp env (f :: o) y h

theorem seedReportedMember_of_ok (env : Env) (host : String) (em : EtcdMember)
    (evs : List Event) (h : etcdMemberFromMachine env host = (.ok em, evs)) :
    seedReportedMember env host = some em := by
  unfold seedReportedMember
  rw [h]
  rfl

theorem no_join_machineUpd (ep : String) (env : Env) (em : EtcdMember) (m : Machine) :
    ∀ y : String, Event.cmd y (etcdadmJoinCmd ep) ∉ (updateMachineEtcdMember env em m).2 := by
  intro y hy
  obtain ⟨n, hn⟩ := updateMachineEtcdMember_events env em m _ hy
  simp at hn

theorem no_join_insert (ep : String) (env : Env) (em : EtcdMember) (cl : Cluster) (k : Nat) :
    ∀ y : String, Event.cmd y (etcdadmJoinCmd ep) ∉ (insertClusterEtcdMember env em cl k).2 := by
  intro y hy
  rcases insertClusterEtcdMember_events env em cl k _ hy with hn | ⟨k', hn⟩ <;> simp at hn

theorem seedAndJoin_join_events (env : Env) (lp rp : String) (f : MWC) (o : List MWC)
    (cl1 : Cluster) (k1 : Nat) :
    ∀ x ep : String,
    Event.cmd x (etcdadmJoinCmd ep) ∈ (recoverEtcdSeedAndJoin env lp rp f o cl1 k1).2 →
    (∃ em, seedReportedMember env f.host = some em ∧ em.clientURLs.head? = some ep) ∧
      ∃ mwc ∈ o, x = mwc.host := by
  intro x ep hx
  unfold recoverEtcdSeedAndJoin at hx
  rcases h4 : writeEtcdSnapshot env lp rp f.host with ⟨o4, evs4⟩
  simp only [h4] at hx
  have hnot4 : Event.cmd x (etcdadmJoinCmd ep) ∉ evs4 := by
    intro hmem
    rcases writeEtcdSnapshot_events env lp rp f.host _ (by rw [h4]; exact hmem)
        with h | h <;> simp at h
  cases o4 with
  | error e' => exact absurd hx hnot4
  | ok u =>
    rcases h5 : etcdadmInitFromSnapshot env rp f.host with ⟨o5, evs5⟩
    have hevs5 : evs5 = [.cmd f.host (etcdadmInitCmd rp)] := by
      have ht := etcdadmInitFromSnapshot_trace env rp f.host
      rw [h5] at ht
      exact ht
    have hnot5 : Event.cmd x (etcdadmJoinCmd ep) ∉ evs5 := by
      rw [hevs5]
      intro hmem
      simp at hmem
      have := isJoinCmdStr_joinCmd ep
      rw [hmem.2, isJoinCmdStr_initCmd rp] at this
      simp at this
    simp only [h5] at hx
    cases o5 with
    | error e' =>
      rcases List.mem_append.mp hx with h | h
      · exact absurd h hnot4
      · exact absurd h hnot5
    | ok u5 =>
      rcases h6 : etcdMemberFromMachine env f.host with ⟨o6, evs6⟩
      have hevs6 : evs6 = [.cmd f.host etcdadmInfoCmd] := by
        have ht := etcdMemberFromMachine_trace env f.host
        rw [h6] at ht
        exact ht
      have hnot6 : Event.cmd x (etcdadmJoinCmd ep) ∉ evs6 := by
        rw [hevs6]
        intro hmem
        simp at hmem
        exact etcdadmJoinCmd_ne_infoCmd ep hmem.2
      simp only [h6] at hx
      cases o6 with
      | error e' =>
        rcases List.mem_append.mp hx with h | h
        · rcases List.mem_append.mp h with h' | h'
          · exact absurd h' hnot4
          · exact absurd h' hnot5
        · exact absurd h hnot6
      | ok em =>
        rcases h7 : updateMachineEtcdMember env em f.machine with ⟨o7, evs7⟩
        have hnot7 : Event.cmd x (etcdadmJoinCmd ep) ∉ evs7 := by
          intro hmem
          exact no_join_machineUpd ep env em f.machine x (by rw [h7]; exact hmem)
        simp only [h7] at hx
        have hnot456 : Event.cmd x (etcdadmJoinCmd ep) ∉ (evs4 ++ evs5) ++ evs6 := by
          intro hmem
          rcases List.mem_append.mp hmem with h | h
          · rcases List.mem_append.mp h with h' | h'
            · exact hnot4 h'
            · exact hnot5 h'
          · exact hnot6 h
        cases o7 with
        | error e' =>
          rcases List.mem_append.mp hx with h | h
          · exact absurd h hnot456
          · exact absurd h hnot7
        | ok m7 =>
          rcases h8 : insertClusterEtcdMember env em cl1 k1 with ⟨o8, evs8⟩
          have hnot8 : Event.cmd x (etcdadmJoinCmd ep) ∉ evs8 := by
            intro hmem
            exact no_join_insert ep env em cl1 k1 x (by rw [h8]; exact hmem)
          have hnot4567 : Event.cmd x (etcdadmJoinCmd ep) ∉ ((evs4 ++ evs5) ++ evs6) ++ evs7 := by
            intro hmem
            rcases List.mem_append.mp hmem with h | h
            · exact hnot456 h
            · exact hnot7 h
          simp only [h8] at hx
          cases o8 with
          | error e' =>
            rcases List.mem_append.mp hx with h | h
            · exact absurd h hnot4567
            · exact absurd h hnot8
          | ok p =>
            obtain ⟨cl2, k2⟩ := p
            simp only at hx
            have hnot45678 : Event.cmd x (etcdadmJoinCmd ep) ∉
                (((evs4 ++ evs5) ++ evs6) ++ evs7) ++ evs8 := by
              intro hmem
              rcases List.mem_append.mp hmem with h | h
              · exact hnot4567 h
              · exact hnot8 h
            rcases hurls : em.clientURLs with _ | ⟨endpoint, rest'⟩
            · simp only [hurls] at hx
              exact absurd hx hnot45678
            · simp only [hurls] at hx
              rcases h9 : joinPhase env endpoint o cl2 k2 with ⟨o9, evs9⟩
              have hjoin9 : Event.cmd x (etcdadmJoinCmd ep) ∈ evs9 →
                  (∃ em', seedReportedMember env f.host = some em' ∧
                    em'.clientURLs.head? = some ep) ∧ ∃ mwc ∈ o, x = mwc.host := by
                intro hmem
                rcases joinPhase_events env endpoint o cl2 k2 _ (by rw [h9]; exact hmem) with
                  ⟨mwc, hmwc, heq⟩ | ⟨mwc, hmwc, heq⟩ | ⟨n, heq⟩ | ⟨em', heq⟩ | ⟨k', heq⟩
                · simp at heq
                  obtain ⟨hxh, hep⟩ := heq
                  have hepe : ep = endpoint := etcdadmJoinCmd_inj ep endpoint hep
                  refine ⟨⟨em, seedReportedMember_of_ok env f.host em evs6 h6, ?_⟩,
                    mwc, hmwc, hxh⟩
                  rw [hurls, hepe]
                  rfl
                · simp at heq
                  exact absurd heq.2 (etcdadmJoinCmd_ne_infoCmd ep)
                · simp at heq
                · simp at heq
                · simp at heq
              simp only [h9] at hx
              cases o9 with
              | error e' =>
                rcases List.mem_append.mp hx with h | h
                · exact absurd h hnot45678
                · exact hjoin9 h
              | ok q =>
                obtain ⟨cl3, k3⟩ := q
                simp only at hx
                rcases List.mem_append.mp hx with h | h
                · rcases List.mem_append.mp h with h' | h'
                  · exact absurd h' hnot45678
                  · exact hjoin9 h'
                · exfalso
                  rcases restartKubeletPhase_events env (f :: o) _ h with
                    ⟨mwc, _, heq⟩ | ⟨mwc, _, heq⟩
                  · simp at heq
                    exact etcdadmJoinCmd_ne_kubeletCmd ep heq.2
                  · simp at heq

theorem seedAndJoin_ok_filterMap (env : Env) (lp rp : String) (f : MWC)
    (o : List MWC) (cl1 : Cluster) (k1 : Nat) :
    ∀ a, (recoverEtcdSeedAndJoin env lp rp f o cl1 k1).1 = .ok a →
    (recoverEtcdSeedAndJoin env lp rp f o cl1 k1).2.filterMap joinEventHost =
      o.map (fun mwc => mwc.host) := by
  intro a ha
  unfold recoverEtcdSeedAndJoin at ha ⊢
  rcases h4 : writeEtcdSnapshot env lp rp f.host with ⟨o4, evs4⟩
  simp only [h4] at ha ⊢
  cases o4 with
  | error e' => simp at ha
  | ok u =>
    have hevs4 : evs4 = [.readLocalFileEv lp, .writeFileEv f.host rp] :=
      writeEtcdSnapshot_ok_trace env lp rp f.host u evs4 h4
    rcases h5 : etcdadmInitFromSnapshot env rp f.host with ⟨o5, evs5⟩
    have hevs5 : evs5 = [.cmd f.host (etcdadmInitCmd rp)] := by
      have ht := etcdadmInitFromSnapshot_trace env rp f.host
      rw [h5] at ht
      exact ht
    simp only [h5] at ha ⊢
    cases o5 with
    | error e' => simp at ha
    | ok u5 =>
      rcases h6 : etcdMemberFromMachine env f.host with ⟨o6, evs6⟩
      have hevs6 : evs6 = [.cmd f.host etcdadmInfoCmd] := by
        have ht := etcdMemberFromMachine_trace env f.host
        rw [h6] at ht
        exact ht
      simp only [h6] at ha ⊢
      cases o6 with
      | error e' => simp at ha
      | ok em =>
        rcases h7 : updateMachineEtcdMember env em f.machine with ⟨o7, evs7⟩
        simp only [h7] at ha ⊢
        cases o7 with
        | error e' => simp at ha
        | ok m7 =>
          rcases h8 : insertClusterEtcdMember env em cl1 k1 with ⟨o8, evs8⟩
          simp only [h8] at ha ⊢
          cases o8 with
          | error e' => simp at ha
          | ok p =>
            obtain ⟨cl2, k2⟩ := p
            simp only at ha ⊢
            rcases hurls : em.clientURLs with _ | ⟨endpoint, rest'⟩
            · simp only [hurls] at ha
              simp at ha
            · simp only [hurls] at ha ⊢
              rcases h9 : joinPhase env endpoint o cl2 k2 with ⟨o9, evs9⟩
              simp only [h9] at ha ⊢
              cases o9 with
              | error e' => simp at ha
              | ok q =>
                obtain ⟨cl3, k3⟩ := q
                simp only at ha ⊢
                have h4fm : evs4.filterMap joinEventHost = [] := by
                  rw [hevs4]
                  rfl
                have h5fm : evs5.filterMap joinEventHost = [] := by
                  rw [hevs5]
                  simp [joinEventHost, isJoinCmdStr_initCmd]
                have h6fm : evs6.filterMap joinEventHost = [] := by
                  rw [hevs6]
                  simp [joinEventHost, isJoinCmdStr_infoCmd]
                have h7fm : evs7.filterMap joinEventHost = [] := by
                  apply List.filterMap_eq_nil.mpr
                  intro e' he'
                  obtain ⟨n, hn⟩ := updateMachineEtcdMember_events env em f.machine e'
                    (by rw [h7]; exact he')
                  rw [hn]
                  rfl
                have h8fm : evs8.filterMap joinEventHost = [] := by
                  apply List.filterMap_eq_nil.mpr
                  intro e' he'
                  rcases insertClusterEtcdMember_events env em cl1 k1 e'
                      (by rw [h8]; exact he') with hn | ⟨k', hn⟩ <;> rw [hn] <;> rfl
                have h9fm : evs9.filterMap joinEventHost = o.map (fun mwc => mwc.host) := by
                  apply joinPhase_ok_filterMap env endpoint o cl2 k2 (cl3, k3)
                  rw [h9]
                have hkfm : (restartKubeletPhase env (f :: o)).filterMap joinEventHost = [] := by
                  apply List.filterMap_eq_nil.mpr
                  intro e' he'
                  rcases restartKubeletPhase_events env (f :: o) e' he' with
                    ⟨mwc, _, hn⟩ | ⟨mwc, _, hn⟩
                  · rw [hn]
                    simp [joinEventHost, isJoinCmdStr_kubeletCmd]
                  · rw [hn]
                    rfl
                simp only [List.filterMap_append, h4fm, h5fm, h6fm, h7fm, h8fm, h9fm, hkfm]
                simp

theorem seedAndJoin_no_ok_of_empty_urls (env : Env) (lp rp : String) (f : MWC)
    (o : List MWC) (cl1 : Cluster) (k1 : Nat) (em' : EtcdMember)
    (hsm : seedReportedMember env f.host = some em')
    (hurls0 : em'.clientURLs = []) :
    ∀ a, (recoverEtcdSeedAndJoin env lp rp f o cl1 k1).1 ≠ .ok a := by
  intro a ha
  unfold recoverEtcdSeedAndJoin at ha
  rcases h4 : writeEtcdSnapshot env lp rp f.host with ⟨o4, evs4⟩
  simp only [h4] at ha
  cases o4 with
  | error e' => simp at ha
  | ok u =>
    rcases h5 : etcdadmInitFromSnapshot env rp f.host with ⟨o5, evs5⟩
    simp only [h5] at ha
    cases o5 with
    | error e' => simp at ha
    | ok u5 =>
      rcases h6 : etcdMemberFromMachine env f.host with ⟨o6, evs6⟩
      simp only [h6] at ha
      cases o6 with
      | error e' => simp at ha
      | ok em =>
        have hemem : em = em' := by
          have hs := seedReportedMember_of_ok env f.host em evs6 h6
          rw [hs] at hsm
          exact Option.some.inj hsm
        rcases h7 : updateMachineEtcdMember env em f.machine with ⟨o7, evs7⟩
        simp only [h7] at ha
        cases o7 with
        | error e' => simp at ha
        | ok m7 =>
          rcases h8 : insertClusterEtcdMember env em cl1 k1 with ⟨o8, evs8⟩
          simp only [h8] at ha
          cases o8 with
          | error e' => simp at ha
          | ok p =>
            obtain ⟨cl2, k2⟩ := p
            simp only at ha
            rcases hurls : em.clientURLs with _ | ⟨endpoint, rest'⟩
            · simp only [hurls] at ha
              simp at ha
            · rw [hemem, hurls0] at hurls
              simp at hurls

theorem seedAndJoin_kubelet_ok (env : Env) (lp rp : String) (f : MWC)
    (o : List MWC) (cl1 : Cluster) (k1 : Nat) :
    (∃ e ∈ (recoverEtcdSeedAndJoin env lp rp f o cl1 k1).2, isKubeletEvent e = true) →
    ∃ a, (recoverEtcdSeedAndJoin env lp rp f o cl1 k1).1 = .ok a := by
  intro hke
  obtain ⟨e, he, hk⟩ := hke
  unfold recoverEtcdSeedAndJoin at he ⊢
  rcases h4 : writeEtcdSnapshot env lp rp f.host with ⟨o4, evs4⟩
  simp only [h4] at he ⊢
  have hk4 : ∀ e' ∈ evs4, isKubeletEvent e' = false := by
    intro e' he'
    rcases writeEtcdSnapshot_events env lp rp f.host e' (by rw [h4]; exact he')
        with h | h <;> rw [h] <;> rfl
  cases o4 with
  | error e4 =>
    simp only at he
    rw [hk4 e he] at hk
    simp at hk
  | ok u =>
    rcases h5 : etcdadmInitFromSnapshot env rp f.host with ⟨o5, evs5⟩
    have hevs5 : evs5 = [.cmd f.host (etcdadmInitCmd rp)] := by
      have ht := etcdadmInitFromSnapshot_trace env rp f.host
      rw [h5] at ht
      exact ht
    have hk5 : ∀ e' ∈ evs5, isKubeletEvent e' = false := by
      intro e' he'
      rw [hevs5] at he'
      simp at he'
      rw [he']
      simp only [isKubeletEvent]
      rw [beq_eq_false_iff_ne]
      intro hh
      exact restartKubeletCmd_ne_initCmd rp hh.symm
    simp only [h5] at he ⊢
    cases o5 with
    | error e5 =>
      simp only at he
      rcases List.mem_append.mp he with h | h
      · rw [hk4 e h] at hk; simp at hk
      · rw [hk5 e h] at hk; simp at hk
    | ok u5 =>
      rcases h6 : etcdMemberFromMachine env f.host with ⟨o6, evs6⟩
      have hevs6 : evs6 = [.cmd f.host etcdadmInfoCmd] := by
        have ht := etcdMemberFromMachine_trace env f.host
        rw [h6] at ht
        exact ht
      have hk6 : ∀ e' ∈ evs6, isKubeletEvent e' = false := by
        intro e' he'
        rw [hevs6] at he'
        simp at he'
        rw [he']
        simp only [isKubeletEvent]
        decide
      simp only [h6] at he ⊢
      cases o6 with
      | error e6 =>
        simp only at he
        rcases List.mem_append.mp he with h | h
        · rcases List.mem_append.mp h with h' | h'
          · rw [hk4 e h'] at hk; simp at hk
          · rw [hk5 e h'] at hk; simp at hk
        · rw [hk6 e h] at hk; simp at hk
      | ok em =>
        rcases h7 : updateMachineEtcdMember env em f.machine with ⟨o7, evs7⟩
        have hk7 : ∀ e' ∈ evs7, isKubeletEvent e' = false := by
          intro e' he'
          obtain ⟨n, hn⟩ := updateMachineEtcdMember_events env em f.machine e'
            (by rw [h7]; exact he')
          rw [hn]
          rfl
        have hk456 : ∀ e' ∈ (evs4 ++ evs5) ++ evs6, isKubeletEvent e' = false := by
          intro e' he'
          rcases List.mem_append.mp he' with h | h
          · rcases List.mem_append.mp h with h' | h'
            · exact hk4 e' h'
            · exact hk5 e' h'
          · exact hk6 e' h
        simp only [h7] at he ⊢
        cases o7 with
        | error e7 =>
          simp only at he
          rcases List.mem_append.mp he with h | h
          · rw [hk456 e h] at hk; simp at hk
          · rw [hk7 e h] at hk; simp at hk
        | ok m7 =>
          rcases h8 : insertClusterEtcdMember env em cl1 k1 with ⟨o8, evs8⟩
          have hk8 : ∀ e' ∈ evs8, isKubeletEvent e' = false := by
            intro e' he'
            rcases insertClusterEtcdMember_events env em cl1 k1 e'
                (by rw [h8]; exact he') with hn | ⟨k', hn⟩ <;> rw [hn] <;> rfl
          have hk4567 : ∀ e' ∈ ((evs4 ++ evs5) ++ evs6) ++ evs7,
              isKubeletEvent e' = false := by
            intro e' he'
            rcases List.mem_append.mp he' with h | h
            · exact hk456 e' h
            · exact hk7 e' h
          simp only [h8] at he ⊢
          cases o8 with
          | error e8 =>
            simp only at he
            rcases List.mem_append.mp he with h | h
            · rw [hk4567 e h] at hk; simp at hk
            · rw [hk8 e h] at hk; simp at hk
          | ok p =>
            obtain ⟨cl2, k2⟩ := p
            simp only at he ⊢
            have hk45678 : ∀ e' ∈ (((evs4 ++ evs5) ++ evs6) ++ evs7) ++ evs8,
                isKubeletEvent e' = false := by
              intro e' he'
              rcases List.mem_append.mp he' with h | h
              · exact hk4567 e' h
              · exact hk8 e' h
            rcases hurls : em.clientURLs with _ | ⟨endpoint, rest'⟩
            · simp only [hurls] at he
              rw [hk45678 e he] at hk
              simp at hk
            · simp only [hurls] at he ⊢
              rcases h9 : joinPhase env endpoint o cl2 k2 with ⟨o9, evs9⟩
              have hk9 : ∀ e' ∈ evs9, isKubeletEvent e' = false := by
                intro e' he'
                rcases joinPhase_events env endpoint o cl2 k2 e'
                    (by rw [h9]; exact he') with
                  ⟨mwc, _, hn⟩ | ⟨mwc, _, hn⟩ | ⟨n, hn⟩ | ⟨em', hn⟩ | ⟨k', hn⟩
                · rw [hn]
                  simp only [isKubeletEvent]
                  rw [beq_eq_false_iff_ne]
                  exact etcdadmJoinCmd_ne_kubeletCmd endpoint
                · rw [hn]
                  simp only [isKubeletEvent]
                  decide
                · rw [hn]; rfl
                · rw [hn]; rfl
                · rw [hn]; rfl
              simp only [h9] at he ⊢
              cases o9 with
              | error e9 =>
                simp only at he
                rcases List.mem_append.mp he with h | h
                · rw [hk45678 e h] at hk; simp at hk
                · rw [hk9 e h] at hk; simp at hk
              | ok q =>
                obtain ⟨cl3, k3⟩ := q
                exact ⟨cl3, rfl⟩

theorem seedAndJoin_ok_warn (env : Env) (lp rp : String) (f : MWC)
    (o : List MWC) (cl1 : Cluster) (k1 : Nat) :
    ∀ a, (recoverEtcdSeedAndJoin env lp rp f o cl1 k1).1 = .ok a →
    ∀ mwc ∈ f :: o, ∀ msg : String,
    env.runCommand mwc.host restartKubeletCmd = .error msg →
    Event.warn mwc.machine.name ∈ (recoverEtcdSeedAndJoin env lp rp f o cl1 k1).2 := by
  intro a ha mwc hm msg hmsg
  unfold recoverEtcdSeedAndJoin at ha ⊢
  rcases h4 : writeEtcdSnapshot env lp rp f.host with ⟨o4, evs4⟩
  simp only [h4] at ha ⊢
  cases o4 with
  | error e' => simp at ha
  | ok u =>
    rcases h5 : etcdadmInitFromSnapshot env rp f.host with ⟨o5, evs5⟩
    simp only [h5] at ha ⊢
    cases o5 with
    | error e' => simp at ha
    | ok u5 =>
      rcases h6 : etcdMemberFromMachine env f.host with ⟨o6, evs6⟩
      simp only [h6] at ha ⊢
      cases o6 with
      | error e' => simp at ha
      | ok em =>
        rcases h7 : updateMachineEtcdMember env em f.machine with ⟨o7, evs7⟩
        simp only [h7] at ha ⊢
        cases o7 with
        | error e' => simp at ha
        | ok m7 =>
          rcases h8 : insertClusterEtcdMember env em cl1 k1 with ⟨o8, evs8⟩
          simp only [h8] at ha ⊢
          cases o8 with
          | error e' => simp at ha
          | ok p =>
            obtain ⟨cl2, k2⟩ := p
            simp only at ha ⊢
            rcases hurls : em.clientURLs with _ | ⟨endpoint, rest'⟩
            · simp only [hurls] at ha
              simp at ha
            · simp only [hurls] at ha ⊢
              rcases h9 : joinPhase env endpoint o cl2 k2 with ⟨o9, evs9⟩
              simp only [h9] at ha ⊢
              cases o9 with
              | error e' => simp at ha
              | ok q =>
                obtain ⟨cl3, k3⟩ := q
                simp only at ha ⊢
                refine List.mem_append.mpr (Or.inr ?_)
                exact restartKubeletPhase_warn env (f :: o) mwc hm msg hmsg

theorem buildMWC_no_init (env : Env) (store : Store) (ms : List Machine)
    (rp : String) :
    ∀ y : String, Event.cmd y (etcdadmInitCmd rp) ∉ (buildMastersWithClient env store ms).2 := by
  intro y hy
  obtain ⟨h, hn⟩ := buildMastersWithClient_events env store ms _ hy
  simp at hn

theorem resetPhase_no_init (env : Env) (mwcs : List MWC) (cl : Cluster) (k : Nat)
    (rp : String) :
    ∀ y : String, Event.cmd y (etcdadmInitCmd rp) ∉ (resetPhase env mwcs cl k).2 := by
  intro y hy
  rcases resetPhase_events env mwcs cl k _ hy with ⟨h, hn⟩ | ⟨em, hn⟩ | ⟨k', hn⟩
  · simp at hn
    exact etcdadmResetCmd_ne_initCmd rp hn.2.symm
  · simp at hn
  · simp at hn

theorem writeCAPhase_no_init (env : Env) (sec : Secret) (mwcs : List MWC)
    (rp : String) :
    ∀ y : String, Event.cmd y (etcdadmInitCmd rp) ∉ (writeCAPhase env sec mwcs).2 := by
  intro y hy
  rcases writeCAPhase_events env sec mwcs _ hy with ⟨h, p, hn⟩ | ⟨h, p, hn⟩ | ⟨h, a, b, hn⟩ <;>
    simp at hn

/-- C4: whenever the seed-initialization command appears in the recovery
trace, every master has — strictly earlier in the trace — been reset with
peer removal skipped, had its membership record removed from the cluster
status, and had the cluster status written back to the store; and a failing
reset on any master, an undecodable cluster status, or a failing first
cluster-status write aborts the recovery with no initialization command ever
issued and no success outcome. -/
theorem recover_resets_before_init (env : Env) (store : Store)
    (lp rp : String) (sec : Secret) (cl : Cluster) (masters : List Machine) :
    (∀ (x : String) (j : Nat),
      (recoverEtcd env store lp rp sec cl masters).2[j]? =
          some (.cmd x (etcdadmInitCmd rp)) →
      ∀ m ∈ masters, ∃ st em c,
        m.providerStatus = .okp st ∧ st.etcdMember = some em ∧ st.sshConfig = some c ∧
        (∃ i, i < j ∧ (recoverEtcd env store lp rp sec cl masters).2[i]? =
          some (.cmd c.host etcdadmResetCmd)) ∧
        (∃ i, i < j ∧ (recoverEtcd env store lp rp sec cl masters).2[i]? =
          some (.removeMember em)) ∧
        (∃ i k, i < j ∧ (recoverEtcd env store lp rp sec cl masters).2[i]? =
          some (.clusterStoreUpdate k))) ∧
    (((∃ m ∈ masters, ∃ st c msg, m.providerStatus = .okp st ∧ st.sshConfig = some c ∧
        env.runCommand c.host etcdadmResetCmd = .error msg) ∨
      (masters ≠ [] ∧ ∃ msg, cl.providerStatus = .bad msg) ∨
      (masters ≠ [] ∧ ∃ msg, env.clusterUpdateStatus 0 = .error msg)) →
      (∀ x : String, Event.cmd x (etcdadmInitCmd rp) ∉
        (recoverEtcd env store lp rp sec cl masters).2) ∧
      ∀ a, (recoverEtcd env store lp rp sec cl masters).1 ≠ .ok a) := by
  constructor
  · intro x j hj m hm
    unfold recoverEtcd at hj ⊢
    cases masters with
    | nil => simp at hm
    | cons m0 mrest =>
      rcases hb : buildMastersWithClient env store (m0 :: mrest) with ⟨ob, evs1⟩
      simp only [hb] at hj ⊢
      have hno1 : ∀ y : String, Event.cmd y (etcdadmInitCmd rp) ∉ evs1 := by
        intro y hy
        exact buildMWC_no_init env store (m0 :: mrest) rp y (by rw [hb]; exact hy)
      cases ob with
      | err e =>
        exfalso
        exact hno1 x (List.getElem?_mem hj)
      | panicked =>
        exfalso
        exact hno1 x (List.getElem?_mem hj)
      | ok mwcs =>
        rcases hr : resetPhase env mwcs cl 0 with ⟨or, evs2⟩
        simp only [hr] at hj ⊢
        have hno2 : ∀ y : String, Event.cmd y (etcdadmInitCmd rp) ∉ evs2 := by
          intro y hy
          exact resetPhase_no_init env mwcs cl 0 rp y (by rw [hr]; exact hy)
        have hno12 : Event.cmd x (etcdadmInitCmd rp) ∉ evs1 ++ evs2 := by
          intro hy
          rcases List.mem_append.mp hy with h | h
          · exact hno1 x h
          · exact hno2 x h
        cases or with
        | err e =>
          exfalso
          exact hno12 (List.getElem?_mem hj)
        | panicked =>
          exfalso
          exact hno12 (List.getElem?_mem hj)
        | ok p =>
          obtain ⟨cl1, k1⟩ := p
          rcases hca : writeCAPhase env sec mwcs with ⟨oca, evs3⟩
          simp only [hca] at hj ⊢
          have hno3 : ∀ y : String, Event.cmd y (etcdadmInitCmd rp) ∉ evs3 := by
            intro y hy
            exact writeCAPhase_no_init env sec mwcs rp y (by rw [hca]; exact hy)
          have hno123 : Event.cmd x (etcdadmInitCmd rp) ∉ (evs1 ++ evs2) ++ evs3 := by
            intro hy
            rcases List.mem_append.mp hy with h | h
            · exact hno12 h
            · exact hno3 x h
          cases oca with
          | error e =>
            exfalso
            exact hno123 (List.getElem?_mem hj)
          | ok u =>
            cases mwcs with
            | nil =>
              exfalso
              exact hno123 (List.getElem?_mem hj)
            | cons f o =>
              rcases hs : recoverEtcdSeedAndJoin env lp rp f o cl1 k1 with ⟨os, evs4⟩
              simp only [hs] at hj ⊢
              have hjlen : ((evs1 ++ evs2) ++ evs3).length ≤ j :=
                length_le_of_getElem?_append hj hno123
              have hrel := buildMastersWithClient_ok_rel env store (m0 :: mrest)
                (f :: o) evs1 hb
              obtain ⟨mwc, hmwcmem, hmwcM, st, c, hst, hcfg, hhost⟩ :=
                forall₂_mem_left hrel m hm
              obtain ⟨_, st2, em2, hst2, hem2, hc1, hc2, k'', hc3⟩ :=
                resetPhase_ok_facts env (f :: o) cl 0 cl1 k1 evs2 hr mwc hmwcmem
              rw [hmwcM, hst] at hst2
              have hst2' : st2 = st := (Payload.okp.inj hst2).symm
              rw [hst2'] at hem2
              refine ⟨st, em2, c, hst, hem2, hcfg, ?_, ?_, ?_⟩
              · have hmem : Event.cmd c.host etcdadmResetCmd ∈ (evs1 ++ evs2) ++ evs3 := by
                  refine List.mem_append.mpr (Or.inl (List.mem_append.mpr (Or.inr ?_)))
                  rw [← hhost]
                  exact hc1
                exact exists_getElem_lt_of_mem_prefix hmem hjlen
              · have hmem : Event.removeMember em2 ∈ (evs1 ++ evs2) ++ evs3 :=
                  List.mem_append.mpr (Or.inl (List.mem_append.mpr (Or.inr hc2)))
                exact exists_getElem_lt_of_mem_prefix hmem hjlen
              · have hmem : Event.clusterStoreUpdate k'' ∈ (evs1 ++ evs2) ++ evs3 :=
                  List.mem_append.mpr (Or.inl (List.mem_append.mpr (Or.inr hc3)))
                obtain ⟨i, hi, hg⟩ := exists_getElem_lt_of_mem_prefix hmem hjlen
                exact ⟨i, k'', hi, hg⟩
  · intro hfail
    unfold recoverEtcd
    cases masters with
    | nil =>
      exfalso
      rcases hfail with ⟨m, hm, _⟩ | ⟨hne, _⟩ | ⟨hne, _⟩
      · simp at hm
      · exact hne rfl
      · exact hne rfl
    | cons m0 mrest =>
      rcases hb : buildMastersWithClient env store (m0 :: mrest) with ⟨ob, evs1⟩
      simp only [hb]
      have hno1 : ∀ y : String, Event.cmd y (etcdadmInitCmd rp) ∉ evs1 := by
        intro y hy
        exact buildMWC_no_init env store (m0 :: mrest) rp y (by rw [hb]; exact hy)
      cases ob with
      | err e => exact ⟨fun x hx => hno1 x hx, fun a ha => by simp at ha⟩
      | panicked => exact ⟨fun x hx => hno1 x hx, fun a ha => by simp at ha⟩
      | ok mwcs =>
        rcases hr : resetPhase env mwcs cl 0 with ⟨or, evs2⟩
        simp only [hr]
        have hno2 : ∀ y : String, Event.cmd y (etcdadmInitCmd rp) ∉ evs2 := by
          intro y hy
          exact resetPhase_no_init env mwcs cl 0 rp y (by rw [hr]; exact hy)
        have hno12 : ∀ y : String, Event.cmd y (etcdadmInitCmd rp) ∉ evs1 ++ evs2 := by
          intro y hy
          rcases List.mem_append.mp hy with h | h
          · exact hno1 y h
          · exact hno2 y h
        cases or with
        | err e => exact ⟨fun x hx => hno12 x hx, fun a ha => by simp at ha⟩
        | panicked => exact ⟨fun x hx => hno12 x hx, fun a ha => by simp at ha⟩
        | ok p =>
          obtain ⟨cl1, k1⟩ := p
          exfalso
          have hrel := buildMastersWithClient_ok_rel env store (m0 :: mrest) mwcs evs1 hb
          rcases hfail with ⟨m, hm, st, c, msg, hst, hcfg, herr⟩ | ⟨_, msg, hbad⟩ |
            ⟨_, msg, hupderr⟩
          · obtain ⟨mwc, hmwcmem, hmwcM, st', c', hst', hcfg', hhost'⟩ :=
              forall₂_mem_left hrel m hm
            obtain ⟨⟨out, hout⟩, _⟩ :=
              resetPhase_ok_facts env mwcs cl 0 cl1 k1 evs2 hr mwc hmwcmem
            rw [hst] at hst'
            have : st' = st := (Payload.okp.inj hst').symm
            rw [this, hcfg] at hcfg'
            have hcc : c' = c := (Option.some.inj hcfg').symm
            rw [hhost', hcc, herr] at hout
            simp at hout
          · cases hrel with
            | cons hR hrest =>
              rename_i b l2
              obtain ⟨⟨cst, hcst⟩, _⟩ :=
                resetPhase_cons_ok env b l2 cl 0 cl1 k1 evs2 hr
              rw [hbad] at hcst
              simp at hcst
          · cases hrel with
            | cons hR hrest =>
              rename_i b l2
              obtain ⟨_, hup⟩ :=
                resetPhase_cons_ok env b l2 cl 0 cl1 k1 evs2 hr
              rw [hupderr] at hup
              simp at hup

theorem forall₂_mem_right {α β : Type} {R : α → β → Prop} :
    ∀ {ms : List α} {mwcs : List β}, List.Forall₂ R ms mwcs →
    ∀ mwc ∈ mwcs, ∃ m ∈ ms, R m mwc := by
  intro ms mwcs h
  induction h with
  | nil => intro mwc hm; simp at hm
  | @cons a b ls bs hR hrest ih =>
    intro mwc hm
    rcases List.mem_cons.mp hm with rfl | hm'
    · exact ⟨a, List.mem_cons_self a ls, hR⟩
    · obtain ⟨m, hmem, hRm⟩ := ih mwc hm'
      exact ⟨m, List.mem_cons_of_mem a hmem, hRm⟩

theorem forall₂_host_map :
    ∀ {ms : List Machine} {o : List MWC},
    List.Forall₂ (fun m mwc => mwc.machine = m ∧ ∃ st c,
      m.providerStatus = .okp st ∧ st.sshConfig = some c ∧ mwc.host = c.host) ms o →
    o.map (fun mwc => mwc.host) = ms.map hostOfM := by
  intro ms o h
  induction h with
  | nil => rfl
  | @cons a b ls bs hR hrest ih =>
    simp only [List.map_cons, ih]
    congr 1
    obtain ⟨_, st, c, hst, hcfg, hhost⟩ := hR
    rw [hhost]
    simp only [hostOfM, hst, hcfg]

theorem buildMWC_no_join (env : Env) (store : Store) (ms : List Machine)
    (ep : String) :
    ∀ y : String, Event.cmd y (etcdadmJoinCmd ep) ∉ (buildMastersWithClient env store ms).2 := by
  intro y hy
  obtain ⟨h, hn⟩ := buildMastersWithClient_events env store ms _ hy
  simp at hn

theorem resetPhase_no_join (env : Env) (mwcs : List MWC) (cl : Cluster) (k : Nat)
    (ep : String) :
    ∀ y : String, Event.cmd y (etcdadmJoinCmd ep) ∉ (resetPhase env mwcs cl k).2 := by
  intro y hy
  rcases resetPhase_events env mwcs cl k _ hy with ⟨h, hn⟩ | ⟨em, hn⟩ | ⟨k', hn⟩
  · simp at hn
    exact etcdadmJoinCmd_ne_resetCmd ep hn.2
  · simp at hn
  · simp at hn

theorem writeCAPhase_no_join (env : Env) (sec : Secret) (mwcs : List MWC)
    (ep : String) :
    ∀ y : String, Event.cmd y (etcdadmJoinCmd ep) ∉ (writeCAPhase env sec mwcs).2 := by
  intro y hy
  rcases writeCAPhase_events env sec mwcs _ hy with ⟨h, p, hn⟩ | ⟨h, p, hn⟩ | ⟨h, a, b, hn⟩ <;>
    simp at hn

theorem buildMWC_filterMap_nil (env : Env) (store : Store) (ms : List Machine) :
    (buildMastersWithClient env store ms).2.filterMap joinEventHost = [] := by
  apply List.filterMap_eq_nil.mpr
  intro e he
  obtain ⟨h, hn⟩ := buildMastersWithClient_events env store ms _ he
  rw [hn]
  rfl

theorem resetPhase_filterMap_nil (env : Env) (mwcs : List MWC) (cl : Cluster) (k : Nat) :
    (resetPhase env mwcs cl k).2.filterMap joinEventHost = [] := by
  apply List.filterMap_eq_nil.mpr
  intro e he
  rcases resetPhase_events env mwcs cl k _ he with ⟨h, hn⟩ | ⟨em, hn⟩ | ⟨k', hn⟩
  · rw [hn]
    simp [joinEventHost, isJoinCmdStr_resetCmd]
  · rw [hn]
    rfl
  · rw [hn]
    rfl

theorem writeCAPhase_filterMap_nil (env : Env) (sec : Secret) (mwcs : List MWC) :
    (writeCAPhase env sec mwcs).2.filterMap joinEventHost = [] := by
  apply List.filterMap_eq_nil.mpr
  intro e he
  rcases writeCAPhase_events env sec mwcs _ he with ⟨h, p, hn⟩ | ⟨h, p, hn⟩ | ⟨h, a, b, hn⟩ <;>
    rw [hn] <;> rfl

theorem getElem?_append_offset {α : Type} (pre suf : List α) (n : Nat) :
    (pre ++ suf)[pre.length + n]? = suf[n]? := by
  rw [List.getElem?_append_right (Nat.le_add_right _ _)]
  congr 1
  omega

/-- C3: the first master in input order is the seed — any seed-initialization
command in the trace runs on its host, after the snapshot was written to that
host; every join command uses the first client endpoint the seed reported and
runs on the host of one of the remaining masters; on a successful run the
join commands are exactly the remaining masters' hosts in input order; and if
the seed reports zero client endpoints, no join is ever attempted and the
recovery does not succeed. -/
theorem recover_seed_and_join (env : Env) (store : Store) (lp rp : String)
    (sec : Secret) (cl : Cluster) (m0 : Machine) (ms : List Machine) :
    (∀ (x : String) (j : Nat),
      (recoverEtcd env store lp rp sec cl (m0 :: ms)).2[j]? =
          some (.cmd x (etcdadmInitCmd rp)) →
      (∃ st c, m0.providerStatus = .okp st ∧ st.sshConfig = some c ∧ x = c.host) ∧
      ∃ i, i < j ∧ (recoverEtcd env store lp rp sec cl (m0 :: ms)).2[i]? =
        some (.writeFileEv x rp)) ∧
    (∀ x ep : String,
      Event.cmd x (etcdadmJoinCmd ep) ∈ (recoverEtcd env store lp rp sec cl (m0 :: ms)).2 →
      (∃ st c em, m0.providerStatus = .okp st ∧ st.sshConfig = some c ∧
        seedReportedMember env c.host = some em ∧ em.clientURLs.head? = some ep) ∧
      ∃ m' ∈ ms, ∃ st' c', m'.providerStatus = .okp st' ∧ st'.sshConfig = some c' ∧
        x = c'.host) ∧
    (∀ a, (recoverEtcd env store lp rp sec cl (m0 :: ms)).1 = .ok a →
      (recoverEtcd env store lp rp sec cl (m0 :: ms)).2.filterMap joinEventHost =
        ms.map hostOfM) ∧
    (∀ st c em, m0.providerStatus = .okp st → st.sshConfig = some c →
      seedReportedMember env c.host = some em → em.clientURLs = [] →
      (∀ x ep : String,
        Event.cmd x (etcdadmJoinCmd ep) ∉
          (recoverEtcd env store lp rp sec cl (m0 :: ms)).2) ∧
      ∀ a, (recoverEtcd env store lp rp sec cl (m0 :: ms)).1 ≠ .ok a) := by
  have hC1 : ∀ (x : String) (j : Nat),
      (recoverEtcd env store lp rp sec cl (m0 :: ms)).2[j]? =
          some (.cmd x (etcdadmInitCmd rp)) →
      (∃ st c, m0.providerStatus = .okp st ∧ st.sshConfig = some c ∧ x = c.host) ∧
      ∃ i, i < j ∧ (recoverEtcd env store lp rp sec cl (m0 :: ms)).2[i]? =
        some (.writeFileEv x rp) := by
    intro x j hj
    unfold recoverEtcd at hj ⊢
    rcases hb : buildMastersWithClient env store (m0 :: ms) with ⟨ob, evs1⟩
    simp only [hb] at hj ⊢
    have hno1 : ∀ y : String, Event.cmd y (etcdadmInitCmd rp) ∉ evs1 := by
      intro y hy
      exact buildMWC_no_init env store (m0 :: ms) rp y (by rw [hb]; exact hy)
    cases ob with
    | err e => exact absurd (List.getElem?_mem hj) (hno1 x)
    | panicked => exact absurd (List.getElem?_mem hj) (hno1 x)
    | ok mwcs =>
      rcases hr : resetPhase env mwcs cl 0 with ⟨or, evs2⟩
      simp only [hr] at hj ⊢
      have hno2 : ∀ y : String, Event.cmd y (etcdadmInitCmd rp) ∉ evs2 := by
        intro y hy
        exact resetPhase_no_init env mwcs cl 0 rp y (by rw [hr]; exact hy)
      have hno12 : Event.cmd x (etcdadmInitCmd rp) ∉ evs1 ++ evs2 := by
        intro hy
        rcases List.mem_append.mp hy with h | h
        · exact hno1 x h
        · exact hno2 x h
      cases or with
      | err e => exact absurd (List.getElem?_mem hj) hno12
      | panicked => exact absurd (List.getElem?_mem hj) hno12
      | ok p =>
        obtain ⟨cl1, k1⟩ := p
        rcases hca : writeCAPhase env sec mwcs with ⟨oca, evs3⟩
        simp only [hca] at hj ⊢
        have hno123 : Event.cmd x (etcdadmInitCmd rp) ∉ (evs1 ++ evs2) ++ evs3 := by
          intro hy
          rcases List.mem_append.mp hy with h | h
          · exact hno12 h
          · exact writeCAPhase_no_init env sec mwcs rp x (by rw [hca]; exact h) |>.elim
        cases oca with
        | error e => exact absurd (List.getElem?_mem hj) hno123
        | ok u =>
          cases mwcs with
          | nil => cases buildMastersWithClient_ok_rel env store (m0 :: ms) [] evs1 hb
          | cons f o =>
            rcases hs : recoverEtcdSeedAndJoin env lp rp f o cl1 k1 with ⟨os, evs4⟩
            simp only [hs] at hj ⊢
            have hrel := buildMastersWithClient_ok_rel env store (m0 :: ms) (f :: o) evs1 hb
            cases hrel with
            | cons hR hrest =>
              obtain ⟨hfm, st, c, hst, hcfg, hhost⟩ := hR
              have hjlen : ((evs1 ++ evs2) ++ evs3).length ≤ j :=
                length_le_of_getElem?_append hj hno123
              have hj4 : evs4[j - ((evs1 ++ evs2) ++ evs3).length]? =
                  some (.cmd x (etcdadmInitCmd rp)) := by
                rw [List.getElem?_append_right hjlen] at hj
                exact hj
              obtain ⟨hxf, hjrel, hw⟩ := seedAndJoin_init env lp rp f o cl1 k1
                (j - ((evs1 ++ evs2) ++ evs3).length) x (by rw [hs]; exact hj4)
              rw [hs] at hw
              refine ⟨⟨st, c, hst, hcfg, by rw [hxf, hhost]⟩,
                ((evs1 ++ evs2) ++ evs3).length + 1, by omega, ?_⟩
              rw [getElem?_append_offset]
              rw [hxf]
              exact hw
  have hC2 : ∀ x ep : String,
      Event.cmd x (etcdadmJoinCmd ep) ∈ (recoverEtcd env store lp rp sec cl (m0 :: ms)).2 →
      (∃ st c em, m0.providerStatus = .okp st ∧ st.sshConfig = some c ∧
        seedReportedMember env c.host = some em ∧ em.clientURLs.head? = some ep) ∧
      ∃ m' ∈ ms, ∃ st' c', m'.providerStatus = .okp st' ∧ st'.sshConfig = some c' ∧
        x = c'.host := by
    intro x ep hx
    unfold recoverEtcd at hx
    rcases hb : buildMastersWithClient env store (m0 :: ms) with ⟨ob, evs1⟩
    simp only [hb] at hx
    have hno1 : Event.cmd x (etcdadmJoinCmd ep) ∉ evs1 := fun hy =>
      buildMWC_no_join env store (m0 :: ms) ep x (by rw [hb]; exact hy)
    cases ob with
    | err e => exact absurd hx hno1
    | panicked => exact absurd hx hno1
    | ok mwcs =>
      rcases hr : resetPhase env mwcs cl 0 with ⟨or, evs2⟩
      simp only [hr] at hx
      have hno12 : Event.cmd x (etcdadmJoinCmd ep) ∉ evs1 ++ evs2 := by
        intro hy
        rcases List.mem_append.mp hy with h | h
        · exact hno1 h
        · exact resetPhase_no_join env mwcs cl 0 ep x (by rw [hr]; exact h)
      cases or with
      | err e => exact absurd hx hno12
      | panicked => exact absurd hx hno12
      | ok p =>
        obtain ⟨cl1, k1⟩ := p
        rcases hca : writeCAPhase env sec mwcs with ⟨oca, evs3⟩
        simp only [hca] at hx
        have hno123 : Event.cmd x (etcdadmJoinCmd ep) ∉ (evs1 ++ evs2) ++ evs3 := by
          intro hy
          rcases List.mem_append.mp hy with h | h
          · exact hno12 h
          · exact writeCAPhase_no_join env sec mwcs ep x (by rw [hca]; exact h)
        cases oca with
        | error e => exact absurd hx hno123
        | ok u =>
          cases mwcs with
          | nil => cases buildMastersWithClient_ok_rel env store (m0 :: ms) [] evs1 hb
          | cons f o =>
            rcases hs : recoverEtcdSeedAndJoin env lp rp f o cl1 k1 with ⟨os, evs4⟩
            simp only [hs] at hx
            have hrel := buildMastersWithClient_ok_rel env store (m0 :: ms) (f :: o) evs1 hb
            cases hrel with
            | cons hR hrest =>
              obtain ⟨hfm, st, c, hst, hcfg, hhost⟩ := hR
              have hx4 : Event.cmd x (etcdadmJoinCmd ep) ∈ evs4 := by
                rcases List.mem_append.mp hx with h | h
                · exact absurd h hno123
                · exact h
              obtain ⟨⟨em, hsm, hhead⟩, mwc, hmo, hxh⟩ :=
                seedAndJoin_join_events env lp rp f o cl1 k1 x ep (by rw [hs]; exact hx4)
              rw [hhost] at hsm
              refine ⟨⟨st, c, em, hst, hcfg, hsm, hhead⟩, ?_⟩
              obtain ⟨m', hm', hfm', st', c', hst', hcfg', hhost'⟩ :=
                forall₂_mem_right hrest mwc hmo
              exact ⟨m', hm', st', c', hst', hcfg', by rw [hxh, hhost']⟩
  have hC3 : ∀ a, (recoverEtcd env store lp rp sec cl (m0 :: ms)).1 = .ok a →
      (recoverEtcd env store lp rp sec cl (m0 :: ms)).2.filterMap joinEventHost =
        ms.map hostOfM := by
    intro a ha
    unfold recoverEtcd at ha ⊢
    rcases hb : buildMastersWithClient env store (m0 :: ms) with ⟨ob, evs1⟩
    simp only [hb] at ha ⊢
    have h1 : evs1.filterMap joinEventHost = [] := by
      have h := buildMWC_filterMap_nil env store (m0 :: ms)
      rw [hb] at h
      exact h
    cases ob with
    | err e => simp at ha
    | panicked => simp at ha
    | ok mwcs =>
      rcases hr : resetPhase env mwcs cl 0 with ⟨or, evs2⟩
      simp only [hr] at ha ⊢
      have h2 : evs2.filterMap joinEventHost = [] := by
        have h := resetPhase_filterMap_nil env mwcs cl 0
        rw [hr] at h
        exact h
      cases or with
      | err e => simp at ha
      | panicked => simp at ha
      | ok p =>
        obtain ⟨cl1, k1⟩ := p
        rcases hca : writeCAPhase env sec mwcs with ⟨oca, evs3⟩
        simp only [hca] at ha ⊢
        have h3 : evs3.filterMap joinEventHost = [] := by
          have h := writeCAPhase_filterMap_nil env sec mwcs
          rw [hca] at h
          exact h
        cases oca with
        | error e => simp at ha
        | ok u =>
          cases mwcs with
          | nil => cases buildMastersWithClient_ok_rel env store (m0 :: ms) [] evs1 hb
          | cons f o =>
            rcases hs : recoverEtcdSeedAndJoin env lp rp f o cl1 k1 with ⟨os, evs4⟩
            simp only [hs] at ha ⊢
            have hrel := buildMastersWithClient_ok_rel env store (m0 :: ms) (f :: o) evs1 hb
            cases hrel with
            | cons hR hrest =>
              have h4 : evs4.filterMap joinEventHost = o.map (fun mwc => mwc.host) := by
                have h := seedAndJoin_ok_filterMap env lp rp f o cl1 k1 a
                  (by rw [hs]; exact ha)
                rw [hs] at h
                exact h
              simp only [List.filterMap_append, h1, h2, h3, h4]
              simp only [List.nil_append]
              exact forall₂_host_map hrest
  refine ⟨hC1, hC2, hC3, ?_⟩
  intro st c em hst hcfg hsm hurls0
  constructor
  · intro x ep hx
    obtain ⟨⟨st', c', em', hst', hcfg', hsm', hhead'⟩, _⟩ := hC2 x ep hx
    rw [hst] at hst'
    have hsteq : st' = st := (Payload.okp.inj hst').symm
    rw [hsteq, hcfg] at hcfg'
    have hceq : c' = c := (Option.some.inj hcfg').symm
    rw [hceq, hsm] at hsm'
    have hemeq : em' = em := (Option.some.inj hsm').symm
    rw [hemeq, hurls0] at hhead'
    simp at hhead'
  · intro a ha
    unfold recoverEtcd at ha
    rcases hb : buildMastersWithClient env store (m0 :: ms) with ⟨ob, evs1⟩
    simp only [hb] at ha
    cases ob with
    | err e => simp at ha
    | panicked => simp at ha
    | ok mwcs =>
      rcases hr : resetPhase env mwcs cl 0 with ⟨or, evs2⟩
      simp only [hr] at ha
      cases or with
      | err e => simp at ha
      | panicked => simp at ha
      | ok p =>
        obtain ⟨cl1, k1⟩ := p
        rcases hca : writeCAPhase env sec mwcs with ⟨oca, evs3⟩
        simp only [hca] at ha
        cases oca with
        | error e => simp at ha
        | ok u =>
          cases mwcs with
          | nil => cases buildMastersWithClient_ok_rel env store (m0 :: ms) [] evs1 hb
          | cons f o =>
            rcases hs : recoverEtcdSeedAndJoin env lp rp f o cl1 k1 with ⟨os, evs4⟩
            simp only [hs] at ha
            have hrel := buildMastersWithClient_ok_rel env store (m0 :: ms) (f :: o) evs1 hb
            cases hrel with
            | cons hR hrest =>
              obtain ⟨hfm, st', c', hst', hcfg', hhost'⟩ := hR
              rw [hst] at hst'
              have hsteq : st' = st := (Payload.okp.inj hst').symm
              rw [hsteq, hcfg] at hcfg'
              have hceq : c' = c := (Option.some.inj hcfg').symm
              have hsmf : seedReportedMember env f.host = some em := by
                rw [hhost', hceq]
                exact hsm
              exact seedAndJoin_no_ok_of_empty_urls env lp rp f o cl1 k1 em hsmf hurls0 a
                (by rw [hs]; exact ha)

theorem no_kubelet_build (env : Env) (store : Store) (ms : List Machine) :
    ∀ e ∈ (buildMastersWithClient env store ms).2, isKubeletEvent e = false := by
  intro e he
  obtain ⟨h, hn⟩ := buildMastersWithClient_events env store ms _ he
  rw [hn]
  rfl

theorem no_kubelet_reset (env : Env) (mwcs : List MWC) (cl : Cluster) (k : Nat) :
    ∀ e ∈ (resetPhase env mwcs cl k).2, isKubeletEvent e = false := by
  intro e he
  rcases resetPhase_events env mwcs cl k _ he with ⟨h, hn⟩ | ⟨em, hn⟩ | ⟨k', hn⟩
  · rw [hn]
    simp only [isKubeletEvent]
    decide
  · rw [hn]; rfl
  · rw [hn]; rfl

theorem no_kubelet_ca (env : Env) (sec : Secret) (mwcs : List MWC) :
    ∀ e ∈ (writeCAPhase env sec mwcs).2, isKubeletEvent e = false := by
  intro e he
  rcases writeCAPhase_events env sec mwcs _ he with ⟨h, p, hn⟩ | ⟨h, p, hn⟩ | ⟨h, a, b, hn⟩ <;>
    rw [hn] <;> rfl

/-- C9: whenever the recovery run reaches the kubelet-restart step (a
kubelet-restart command appears in the trace), the run returns success —
kubelet failures are never fatal — and every master whose kubelet restart
failed gets a warning in the trace. -/
theorem recover_kubelet_best_effort (env : Env) (store : Store) (lp rp : String)
    (sec : Secret) (cl : Cluster) (masters : List Machine)
    (hke : ∃ e ∈ (recoverEtcd env store lp rp sec cl masters).2,
      isKubeletEvent e = true) :
    (∃ a, (recoverEtcd env store lp rp sec cl masters).1 = .ok a) ∧
    ∀ m ∈ masters, ∀ (st : SPMachineStatus) (c : SSHConfig) (msg : String),
      m.providerStatus = .okp st → st.sshConfig = some c →
      env.runCommand c.host restartKubeletCmd = .error msg →
      Event.warn m.name ∈ (recoverEtcd env store lp rp sec cl masters).2 := by
  obtain ⟨e, he, hk⟩ := hke
  unfold recoverEtcd at he ⊢
  cases masters with
  | nil => simp at he
  | cons m0 mrest =>
    rcases hb : buildMastersWithClient env store (m0 :: mrest) with ⟨ob, evs1⟩
    simp only [hb] at he ⊢
    have hk1 : ∀ e' ∈ evs1, isKubeletEvent e' = false := by
      intro e' he'
      exact no_kubelet_build env store (m0 :: mrest) e' (by rw [hb]; exact he')
    cases ob with
    | err e0 =>
      rw [hk1 e he] at hk
      simp at hk
    | panicked =>
      rw [hk1 e he] at hk
      simp at hk
    | ok mwcs =>
      rcases hr : resetPhase env mwcs cl 0 with ⟨or, evs2⟩
      simp only [hr] at he ⊢
      have hk2 : ∀ e' ∈ evs2, isKubeletEvent e' = false := by
        intro e' he'
        exact no_kubelet_reset env mwcs cl 0 e' (by rw [hr]; exact he')
      have hk12 : ∀ e' ∈ evs1 ++ evs2, isKubeletEvent e' = false := by
        intro e' he'
        rcases List.mem_append.mp he' with h | h
        · exact hk1 e' h
        · exact hk2 e' h
      cases or with
      | err e0 =>
        rw [hk12 e he] at hk
        simp at hk
      | panicked =>
        rw [hk12 e he] at hk
        simp at hk
      | ok p =>
        obtain ⟨cl1, k1⟩ := p
        rcases hca : writeCAPhase env sec mwcs with ⟨oca, evs3⟩
        simp only [hca] at he ⊢
        have hk123 : ∀ e' ∈ (evs1 ++ evs2) ++ evs3, isKubeletEvent e' = false := by
          intro e' he'
          rcases List.mem_append.mp he' with h | h
          · exact hk12 e' h
          · exact no_kubelet_ca env sec mwcs e' (by rw [hca]; exact h)
        cases oca with
        | error e0 =>
          rw [hk123 e he] at hk
          simp at hk
        | ok u =>
          cases mwcs with
          | nil => cases buildMastersWithClient_ok_rel env store (m0 :: mrest) [] evs1 hb
          | cons f o =>
            rcases hs : recoverEtcdSeedAndJoin env lp rp f o cl1 k1 with ⟨os, evs4⟩
            simp only [hs] at he ⊢
            have he4 : e ∈ evs4 := by
              rcases List.mem_append.mp he with h | h
              · rw [hk123 e h] at hk
                simp at hk
              · exact h
            obtain ⟨a, hok⟩ := seedAndJoin_kubelet_ok env lp rp f o cl1 k1
              ⟨e, by rw [hs]; exact he4, hk⟩
            rw [hs] at hok
            have hos : os = .ok a := hok
            constructor
            · exact ⟨a, by rw [hos]⟩
            · intro m hm st c msg hst hcfg herr
              have hrel := buildMastersWithClient_ok_rel env store (m0 :: mrest)
                (f :: o) evs1 hb
              obtain ⟨mwc, hmwcmem, hmwcM, st', c', hst', hcfg', hhost'⟩ :=
                forall₂_mem_left hrel m hm
              rw [hst] at hst'
              have hsteq : st' = st := (Payload.okp.inj hst').symm
              rw [hsteq, hcfg] at hcfg'
              have hceq : c' = c := (Option.some.inj hcfg').symm
              have hwarn := seedAndJoin_ok_warn env lp rp f o cl1 k1 a
                (by rw [hs]; exact hos) mwc hmwcmem msg
                (by rw [hhost', hceq]; exact herr)
              rw [hs, hmwcM] at hwarn
              exact List.mem_append.mpr (Or.inr hwarn)

/-- C10: in the recovery reset loop the decoded status's EtcdMember field is
dereferenced without a nil check (machine.go:678): a master whose provider
status carries no membership record makes the recovery panic once its reset
command has run, instead of returning an annotated error — unlike the delete
flow (machine.go:305-321), which tests the field for nil and completes the
deletion without touching the membership set, and the create flow
(machine.go:164-180), which skips the membership insert when the field is nil
and returns the cluster unchanged. -/
theorem recover_nil_member_panics :
    (∀ (env : Env) (store : Store) (lp rp : String) (sec : Secret) (cl : Cluster)
        (m : Machine) (rest : List Machine) (st : SPMachineStatus) (c : SSHConfig),
      (∀ mm ∈ m :: rest, ∃ st' c', mm.providerStatus = .okp st' ∧
        st'.sshConfig = some c' ∧
        (store.secrets.find? (fun s => s.name = c'.credentialSecretName)).isSome ∧
        env.mkClient c'.host = .ok ()) →
      m.providerStatus = .okp st → st.sshConfig = some c →
      (∃ out, env.runCommand c.host etcdadmResetCmd = .ok out) →
      st.etcdMember = none →
      (recoverEtcd env store lp rp sec cl (m :: rest)).1 = .panicked) ∧
    (∀ (env : Env) (store : Store) (ip dts dgs : String) (target : Machine)
        (tspec : SPMachineSpec) (pm : ProvisionedMachine) (cluster : Cluster)
        (mst : SPMachineStatus) (devs : List Event),
      store.machines.find? (fun mm => mm.name = ip) = some target →
      target.providerSpec = .okp tspec →
      store.provisionedMachines.find?
        (fun p => p.name = tspec.provisionedMachineName) = some pm →
      store.cluster = some cluster →
      deleteMustNotOrphanNodes store.machines target = none →
      drainAndDeleteNodeForMachine env store target pm dts dgs = (.ok (), devs) →
      env.actuatorDelete target.name = .ok () →
      target.providerStatus = .okp mst →
      mst.etcdMember = none →
      env.pullFromAPIs = .ok () →
      machineCmdDelete env store ip dts dgs =
        (.ok { store with
                 cluster := some cluster
                 machines :=
                   store.machines.filter (fun mm => decide (mm.name ≠ target.name))
                 provisionedMachines :=
                   store.provisionedMachines.filter
                     (fun p => decide (p.name ≠ pm.name)) },
         devs ++ [.actuatorDeleteEv target.name] ++
           [.deleteMachineEv target.name, .deletePMEv pm.name, .syncState])) ∧
    (∀ (env : Env) (cluster : Cluster) (machineStatus : SPMachineStatus),
      machineStatus.etcdMember = none →
      updateClusterStatusOnCreate env cluster machineStatus = (.ok cluster, [])) := by
  refine ⟨?_, ?_, ?_⟩
  · intro env store lp rp sec cl m rest st c hgood hst hcfg hro hem
    obtain ⟨mwcs, evs1, hb⟩ := buildMastersWithClient_ok_of env store (m :: rest) hgood
    have hrel := buildMastersWithClient_ok_rel env store (m :: rest) mwcs evs1 hb
    cases hrel with
    | cons hR hrest =>
      rename_i b l2
      obtain ⟨hbm, st', c', hst', hcfg', hhost'⟩ := hR
      rw [hst] at hst'
      have hsteq : st' = st := (Payload.okp.inj hst').symm
      rw [hsteq, hcfg] at hcfg'
      have hceq : c' = c := (Option.some.inj hcfg').symm
      have hpan := resetPhase_first_panic env b l2 cl 0 st
        (by rw [hhost', hceq]; exact hro)
        (by rw [hbm]; exact hst) hem
      unfold recoverEtcd
      simp only [hb]
      rcases hrp : resetPhase env (b :: l2) cl 0 with ⟨or, evs2⟩
      rw [hrp] at hpan
      have hor : or = .panicked := hpan
      subst hor
      rfl
  · intro env store ip dts dgs target tspec pm cluster mst devs
      hfind hspec hpm hcl horphan hdrain hact hstatus hem hpull
    unfold machineCmdDelete
    simp only [hfind, hspec, hpm, hcl, horphan, hdrain, hact, hstatus, hem]
    unfold machineCmdDeleteFinish
    simp only [hpull]
    rfl
  · intro env cluster machineStatus hem
    unfold updateClusterStatusOnCreate
    simp only [hem]

/-- C4 evaluated on concrete runs: in the one-master trivial run the init
command sits at trace index 12 and is preceded by that master's reset,
membership removal and cluster persist; with a failing reset command no init
command is ever issued and the run does not succeed. -/
theorem recover_resets_before_init_witness :
    (∃ st em c,
      w1MachineA.providerStatus = .okp st ∧ st.etcdMember = some em ∧
      st.sshConfig = some c ∧
      (∃ i, i < 12 ∧
        (recoverEtcd trivialEnv w1Store "/snap" "/tmp/snap" wCASecret w1Cluster
          [w1MachineA]).2[i]? = some (.cmd c.host etcdadmResetCmd)) ∧
      (∃ i, i < 12 ∧
        (recoverEtcd trivialEnv w1Store "/snap" "/tmp/snap" wCASecret w1Cluster
          [w1MachineA]).2[i]? = some (.removeMember em)) ∧
      (∃ i k, i < 12 ∧
        (recoverEtcd trivialEnv w1Store "/snap" "/tmp/snap" wCASecret w1Cluster
          [w1MachineA]).2[i]? = some (.clusterStoreUpdate k))) ∧
    Event.cmd "10.0.0.1" (etcdadmInitCmd "/tmp/snap") ∉
      (recoverEtcd badResetEnv w1Store "/snap" "/tmp/snap" wCASecret w1Cluster
        [w1MachineA]).2 ∧
    (recoverEtcd badResetEnv w1Store "/snap" "/tmp/snap" wCASecret w1Cluster
        [w1MachineA]).1 ≠ .ok w1Cluster := by
  have h1 := (recover_resets_before_init trivialEnv w1Store "/snap" "/tmp/snap"
    wCASecret w1Cluster [w1MachineA]).1 "10.0.0.1" 12 (by decide)
    w1MachineA (List.mem_cons_self _ _)
  have h2 := (recover_resets_before_init badResetEnv w1Store "/snap" "/tmp/snap"
    wCASecret w1Cluster [w1MachineA]).2
    (Or.inl ⟨w1MachineA, List.mem_cons_self _ _, ⟨some ⟨1, "e1", [], []⟩, some w1SSH⟩,
      w1SSH, "reset failed", rfl, rfl, rfl⟩)
  exact ⟨h1, h2.1 "10.0.0.1", h2.2 w1Cluster⟩

/-- C3 evaluated on concrete runs: in the two-master trivial run the init
command at index 22 runs on the seed (the first master) after the snapshot
was written there, the join command targets the second master with the seed's
first client URL, on success the join hosts are exactly the non-seed hosts in
order, and when the seed reports zero client URLs no join is issued and the
run does not succeed. -/
theorem recover_seed_and_join_witness :
    ((∃ st c, w1MachineA.providerStatus = .okp st ∧ st.sshConfig = some c ∧
        "10.0.0.1" = c.host) ∧
      ∃ i, i < 22 ∧
        (recoverEtcd trivialEnv w1Store "/snap" "/tmp/snap" wCASecret w1Cluster
          [w1MachineA, w3MachineC]).2[i]? = some (.writeFileEv "10.0.0.1" "/tmp/snap")) ∧
    ((∃ st c em, w1MachineA.providerStatus = .okp st ∧ st.sshConfig = some c ∧
        seedReportedMember trivialEnv c.host = some em ∧
        em.clientURLs.head? = some "c1") ∧
      ∃ m' ∈ [w3MachineC], ∃ st' c', m'.providerStatus = .okp st' ∧
        st'.sshConfig = some c' ∧ "10.0.0.4" = c'.host) ∧
    ((recoverEtcd trivialEnv w1Store "/snap" "/tmp/snap" wCASecret w1Cluster
        [w1MachineA, w3MachineC]).2.filterMap joinEventHost =
      [w3MachineC].map hostOfM) ∧
    Event.cmd "10.0.0.4" (etcdadmJoinCmd "c1") ∉
      (recoverEtcd noURLEnv w1Store "/snap" "/tmp/snap" wCASecret w1Cluster
        [w1MachineA, w3MachineC]).2 ∧
    (recoverEtcd noURLEnv w1Store "/snap" "/tmp/snap" wCASecret w1Cluster
        [w1MachineA, w3MachineC]).1 ≠ .ok w3FinalCluster := by
  have h := recover_seed_and_join trivialEnv w1Store "/snap" "/tmp/snap" wCASecret
    w1Cluster w1MachineA [w3MachineC]
  have hn := recover_seed_and_join noURLEnv w1Store "/snap" "/tmp/snap" wCASecret
    w1Cluster w1MachineA [w3MachineC]
  have h4 := hn.2.2.2 ⟨some ⟨1, "e1", [], []⟩, some w1SSH⟩ w1SSH
    ⟨1, "m1", ["p1"], []⟩ rfl rfl rfl rfl
  exact ⟨h.1 "10.0.0.1" 22 (by decide), h.2.1 "10.0.0.4" "c1" (by decide),
    h.2.2.1 w3FinalCluster rfl, h4.1 "10.0.0.4" "c1", h4.2 w3FinalCluster⟩

/-- C9 evaluated on a concrete run: with an environment whose kubelet restart
fails, the one-master recovery run still succeeds and the failed restart
leaves a warning event in the trace. -/
theorem recover_kubelet_best_effort_witness :
    (∃ a, (recoverEtcd badKubeletEnv w1Store "/snap" "/tmp/snap" wCASecret
      w1Cluster [w1MachineA]).1 = .ok a) ∧
    Event.warn w1MachineA.name ∈
      (recoverEtcd badKubeletEnv w1Store "/snap" "/tmp/snap" wCASecret w1Cluster
        [w1MachineA]).2 := by
  have h := recover_kubelet_best_effort badKubeletEnv w1Store "/snap" "/tmp/snap"
    wCASecret w1Cluster [w1MachineA]
    ⟨.cmd "10.0.0.1" restartKubeletCmd, by decide, by decide⟩
  exact ⟨h.1, h.2 w1MachineA (List.mem_cons_self _ _)
    ⟨some ⟨1, "e1", [], []⟩, some w1SSH⟩ w1SSH "kubelet restart failed" rfl rfl rfl⟩

/-- C10 evaluated on concrete runs: recovery over the master whose status has
no membership record panics, while deleting the node machine (whose status
also has no membership record) completes, and the create-side cluster update
with a record-free status returns the cluster unchanged. -/
theorem recover_nil_member_panics_witness :
    (recoverEtcd trivialEnv w1Store "/snap" "/tmp/snap" wCASecret w1Cluster
      [w2Machine]).1 = .panicked ∧
    machineCmdDelete trivialEnv w1Store "10.0.0.2" "5m0s" "300" =
      (.ok { w1Store with
               cluster := some w1Cluster
               machines := w1Store.machines.filter
                 (fun mm => decide (mm.name ≠ w1MachineB.name))
               provisionedMachines := w1Store.provisionedMachines.filter
                 (fun p => decide (p.name ≠ w1PMB.name)) },
       [.mkClientEv "10.0.0.1", .cmd "10.0.0.1" kubectlGetNodeCmd] ++
         [.actuatorDeleteEv w1MachineB.name] ++
         [.deleteMachineEv w1MachineB.name, .deletePMEv w1PMB.name, .syncState]) ∧
    updateClusterStatusOnCreate trivialEnv w1Cluster ⟨none, none⟩ =
      (.ok w1Cluster, []) := by
  refine ⟨?_, ?_, ?_⟩
  · exact recover_nil_member_panics.1 trivialEnv w1Store "/snap" "/tmp/snap"
      wCASecret w1Cluster w2Machine [] ⟨none, some w1SSH⟩ w1SSH
      (fun mm hmm => by
        cases List.mem_singleton.mp hmm
        exact ⟨⟨none, some w1SSH⟩, w1SSH, rfl, rfl, rfl, rfl⟩)
      rfl rfl ⟨"", rfl⟩ rfl
  · exact recover_nil_member_panics.2.1 trivialEnv w1Store "10.0.0.2" "5m0s" "300"
      w1MachineB ⟨"10.0.0.2", [NodeRole]⟩ w1PMB w1Cluster ⟨none, none⟩
      [.mkClientEv "10.0.0.1", .cmd "10.0.0.1" kubectlGetNodeCmd]
      rfl rfl rfl rfl rfl rfl rfl rfl rfl rfl
  · exact recover_nil_member_panics.2.2 trivialEnv w1Cluster ⟨none, none⟩ rfl

end Cctl
